import Mathlib

/-!
# willoma/defaults: a shallow embedding of the default-value decoder

The Go package decodes the `default:"..."` struct tags of a record into its
fields, through `reflect`.  The embedding below follows the source files
`errors.go`, `collection.go`, `specific.go`, `parse.go` and `defaults.go`.

Modelling conventions.

* A Go type is a `Ty`; a Go value is a `Val`; a valid `reflect.Value` is a
  `Value`: a type, a value and the two flags of `reflect` that the package
  depends on (addressable, read-only).  The invalid `reflect.Value{}` is
  `none`.
* Records are trees: a pointer holds its pointee, and two slots never share
  a pointee.  A function that writes through `reflect` returns the contents of
  its target slot next to its result (`Parsed.target`).
* A Go panic is the outcome `panic`.  The recursion of `parse` is driven by
  fuel; running out of fuel is the outcome `outOfFuel` (Go would keep
  recursing).  Running out of memory is not modelled.
* Strings are sequences of Unicode characters (Go strings that are not valid
  UTF-8 are outside the model).
* The standard library (`strconv`, `time`, `net`, the `UnmarshalText` methods
  of the declared types) is a parameter, `Lib`, and so is what the platform
  decides: the size of a type and the largest buffer of a channel.
-/

namespace Defaults

/-! ## Outcomes -/

/-- The outcome of running a Go function of the package. -/
inductive Outcome (α : Type) where
  | ok (a : α)
  | panic (msg : String)
  | outOfFuel
deriving Repr

namespace Outcome

/-- Sequencing of outcomes: a panic or an exhausted fuel stops the run. -/
def bind {α β : Type} (x : Outcome α) (f : α → Outcome β) : Outcome β :=
  match x with
  | ok a => f a
  | panic msg => panic msg
  | outOfFuel => outOfFuel

instance : Monad Outcome where
  pure := Outcome.ok
  bind := Outcome.bind

/-- Whether the run returned normally. -/
def isOk {α : Type} : Outcome α → Bool
  | ok _ => true
  | _ => false

end Outcome

/-! ## errors.go -/

/-- The errors of the package: its sentinels, the errors of the standard
library as the package sees them, and `fieldError`. -/
inductive Err where
  /-- `fmt.Errorf("%w: ...", ErrInvalidFormat, ...)`: wraps `ErrInvalidFormat`. -/
  | invalidFormat (detail : String)
  /-- `ErrUnsupportedType`. -/
  | unsupportedType
  /-- An error returned by the standard library or by an `UnmarshalText`
  method, with the function that returned it and its message. -/
  | external (fn : String) (msg : String)
  /-- `fieldError{err, field}`. -/
  | fieldError (field : String) (err : Err)
deriving DecidableEq, Repr

/-- The error returned by `apply`: `ErrMustBePointerToAStruct`, or the
`errors.Join` of the errors of the fields. -/
inductive ApplyError where
  | mustBePointerToAStruct
  | join (errs : List Err)
deriving DecidableEq, Repr

/-- The message of `ErrInvalidFormat`. -/
def errInvalidFormatText : String := "invalid format for default value"

/-- The message of `ErrUnsupportedType`. -/
def errUnsupportedTypeText : String := "unsupported type for defaults"

/-- The method `Error() string`. -/
def Err.Error : Err → String
  | .invalidFormat detail => errInvalidFormatText ++ ": " ++ detail
  | .unsupportedType => errUnsupportedTypeText
  | .external _ msg => msg
  | .fieldError field err => field ++ ": " ++ err.Error

/-- The method `Unwrap() error` (`none` is the nil error). -/
def Err.Unwrap : Err → Option Err
  | .fieldError _ err => some err
  | _ => none

/-- `errors.Is(err, ErrInvalidFormat)`: walks the chain of wrapped errors. -/
def Err.isInvalidFormat : Err → Bool
  | .invalidFormat _ => true
  | .fieldError _ err => err.isInvalidFormat
  | _ => false

/-- One step of the loop of `addErrorsPrefixes`: `errors.As(err, &fErr)`
succeeds exactly on a `fieldError`, whose path is then extended. -/
def addErrorPrefix (pre : String) : Err → Err
  | .fieldError field err => .fieldError (pre ++ "." ++ field) err
  | err => .fieldError pre err

/-- `addErrorsPrefixes(prefix, errs)`. -/
def addErrorsPrefixes (pre : String) (errs : List Err) : List Err :=
  errs.map (addErrorPrefix pre)

/-- `errors.Join(errs...)`: nil when there is no error. -/
def errorsJoin (errs : List Err) : Option ApplyError :=
  if errs.isEmpty then none else some (.join errs)

/-! ## collection.go: the list lexer -/

/-- The loop of `asList`, over the characters that remain, with the local
variables `result`, `current` and `escaped`; at the end of the text the
current field is appended. -/
def asListLoop : List Char → List String → String → Bool → List String
  | [], result, current, _ => result ++ [current]
  | char :: rest, result, current, escaped =>
    if escaped then
      asListLoop rest result (current.push char) false
    else if char = '\\' then
      asListLoop rest result current true
    else if char = ',' then
      asListLoop rest (result ++ [current]) "" false
    else
      asListLoop rest result (current.push char) false

/-- `asList(src)`: converts a comma-separated string to a list; a comma may
be escaped with a backslash. -/
def asList (src : String) : List String :=
  asListLoop src.data [] "" false

/-! ## Types and values, as `reflect` shows them -/

/-- The kinds of `reflect.Kind`. -/
inductive Kind where
  | invalid | bool
  | int | int8 | int16 | int32 | int64
  | uint | uint8 | uint16 | uint32 | uint64 | uintptr
  | float32 | float64 | complex64 | complex128
  | array | chan | func | interface | map | pointer | slice | string | struct
  | unsafePointer
deriving DecidableEq, Repr

/-- The direction of a channel type (`reflect.ChanDir`). -/
inductive ChanDir where
  | recvDir | sendDir | bothDir
deriving DecidableEq, Repr

/-- A field of a struct type (`reflect.StructField`): its name, the result of
`Tag.Lookup("default")`, whether the field is exported, and its type. -/
structure StructField (τ : Type) where
  name : String
  tag : Option String
  exported : Bool
  ty : τ
deriving Repr

/-- Go types.  `prim k` is a type without components that the package reads:
the predeclared boolean, numeric and string types, and the function,
interface, `uintptr` and `unsafe.Pointer` types (only their kind matters).
`named n u` is the declared type `n` with underlying type `u`; `ref n` is a
use of the declared type `n` inside its own declaration (a recursive type),
resolved through `Lib.typeDecl`. -/
inductive Ty where
  | prim (k : Kind)
  | array (len : Nat) (elem : Ty)
  | chan (dir : ChanDir) (elem : Ty)
  | map (key : Ty) (elem : Ty)
  | ptr (elem : Ty)
  | slice (elem : Ty)
  | struct (fields : List (StructField Ty))
  | named (name : String) (underlying : Ty)
  | ref (name : String)
deriving Repr

/-- Go values.  Integers are mathematical integers (the parsers check the
range); floating-point and complex values are their bit patterns; a nil
channel, map, pointer or slice is `none`; a channel is its buffer capacity
(two channels that are not nil are never the same channel); a
map is the list of its entries, in insertion order; `other isZero` is a value
of a function, interface, `uintptr` or `unsafe.Pointer` type. -/
inductive Val where
  | bool (b : Bool)
  | int (n : Int)
  | uint (n : Nat)
  | float (bits : Nat)
  | complex (re : Nat) (im : Nat)
  | str (s : String)
  | array (elems : List Val)
  | chan (cap : Option Nat)
  | map (entries : Option (List (Val × Val)))
  | ptr (pointee : Option Val)
  | slice (elems : Option (List Val))
  | struct (fields : List Val)
  | other (isZero : Bool)
deriving Repr

/-- A valid `reflect.Value`: its type, its value, `CanAddr()`, and the
read-only flag that `reflect` sets on what is obtained through an unexported
struct field. -/
structure Value where
  ty : Ty
  val : Val
  addr : Bool
  ro : Bool
deriving Repr

/-- `Type.Kind()`. -/
def Ty.kind : Ty → Kind
  | .prim k => k
  | .array _ _ => .array
  | .chan _ _ => .chan
  | .map _ _ => .map
  | .ptr _ => .pointer
  | .slice _ => .slice
  | .struct _ => .struct
  | .named _ u => u.kind
  | .ref _ => .invalid

/-- The underlying type of a type. -/
def Ty.underlying : Ty → Ty
  | .named _ u => u.underlying
  | t => t

/-- `Type.Len()` of an array type. -/
def Ty.len (t : Ty) : Nat :=
  match t.underlying with
  | .array n _ => n
  | _ => 0

/-- `Type.ChanDir()` of a channel type. -/
def Ty.chanDir (t : Ty) : ChanDir :=
  match t.underlying with
  | .chan d _ => d
  | _ => .bothDir

/-- The fields of a struct type (`NumField()`, `Field(i)`). -/
def Ty.fields (t : Ty) : List (StructField Ty) :=
  match t.underlying with
  | .struct fs => fs
  | _ => []

/-- The element type as written in the type (`Type.Elem()` before the
resolution of a recursive use). -/
def Ty.rawElem (t : Ty) : Ty :=
  match t.underlying with
  | .array _ e => e
  | .chan _ e => e
  | .map _ e => e
  | .ptr e => e
  | .slice e => e
  | _ => .prim .invalid

/-- The key type of a map type as written in the type. -/
def Ty.rawKey (t : Ty) : Ty :=
  match t.underlying with
  | .map k _ => k
  | _ => .prim .invalid

mutual
/-- Identity of types: declared types are identical when their names are; a
recursive use is identical to the declared type it names. -/
def Ty.beq : Ty → Ty → Bool
  | .prim k, .prim l => k == l
  | .array n a, .array m b => n == m && Ty.beq a b
  | .chan d a, .chan e b => d == e && Ty.beq a b
  | .map k a, .map l b => Ty.beq k l && Ty.beq a b
  | .ptr a, .ptr b => Ty.beq a b
  | .slice a, .slice b => Ty.beq a b
  | .struct fs, .struct gs => Ty.beqFields fs gs
  | .named n _, .named m _ => n == m
  | .named n _, .ref m => n == m
  | .ref n, .named m _ => n == m
  | .ref n, .ref m => n == m
  | _, _ => false
/-- Identity of field lists: same names, tags, export status and types. -/
def Ty.beqFields : List (StructField Ty) → List (StructField Ty) → Bool
  | [], [] => true
  | f :: fs, g :: gs =>
    f.name == g.name && f.tag == g.tag && f.exported == g.exported
      && Ty.beq f.ty g.ty && Ty.beqFields fs gs
  | _, _ => false
end

/-- Whether a type is a named type in the sense of the Go specification: a
predeclared type or a declared type (not a type literal). -/
def Ty.isNamed : Ty → Bool
  | .prim _ => true
  | .named _ _ => true
  | .ref _ => true
  | _ => false

/-- Assignability of a value of type `v` to a slot of type `t`, as
`reflect.Value.Set` checks it: identical types, or identical underlying types
when one of the two is not a named type. -/
def Ty.assignableTo (v t : Ty) : Bool :=
  Ty.beq v t || (Ty.beq v.underlying t.underlying && (!v.isNamed || !t.isNamed))

mutual
/-- `reflect.Zero(t)`: the zero value of a type. -/
def zeroValue : Ty → Val
  | .prim k =>
    match k with
    | .bool => .bool false
    | .int | .int8 | .int16 | .int32 | .int64 => .int 0
    | .uint | .uint8 | .uint16 | .uint32 | .uint64 => .uint 0
    | .float32 | .float64 => .float 0
    | .complex64 | .complex128 => .complex 0 0
    | .string => .str ""
    | _ => .other true
  | .array n e => .array (List.replicate n (zeroValue e))
  | .chan _ _ => .chan none
  | .map _ _ => .map none
  | .ptr _ => .ptr none
  | .slice _ => .slice none
  | .struct fs => .struct (zeroFields fs)
  | .named _ u => zeroValue u
  | .ref _ => .other true
/-- The zero values of the fields of a struct type. -/
def zeroFields : List (StructField Ty) → List Val
  | [] => []
  | f :: fs => zeroValue f.ty :: zeroFields fs
end

mutual
/-- `Value.IsZero()`, as of Go 1.22, which the package requires: a
floating-point number is zero when it equals 0, whatever its sign, and a
complex number when its two parts are; an array or a struct is zero when all
its elements or fields are (a blank field holds zero: nothing in the language
writes it). -/
def Val.isZero : Val → Bool
  | .bool b => !b
  | .int n => n == 0
  | .uint n => n == 0
  | .float bits => bits % 2 ^ 63 == 0
  | .complex re im => re % 2 ^ 63 == 0 && im % 2 ^ 63 == 0
  | .str s => s == ""
  | .array elems => Val.allZero elems
  | .chan c => c.isNone
  | .map m => m.isNone
  | .ptr p => p.isNone
  | .slice s => s.isNone
  | .struct fs => Val.allZero fs
  | .other z => z
/-- Whether every value of a list is zero. -/
def Val.allZero : List Val → Bool
  | [] => true
  | v :: vs => v.isZero && Val.allZero vs
end

/-- The `==` of Go on two floating-point values given by their 64 bits: a
NaN equals nothing, the two zeros are equal, and otherwise the bits decide. -/
def floatEq (a b : Nat) : Bool :=
  let isNaN := fun (x : Nat) => x / 2 ^ 52 % 2 ^ 11 == 2047 && x % 2 ^ 52 != 0
  let isZero := fun (x : Nat) => x % 2 ^ 63 == 0
  !isNaN a && !isNaN b && ((isZero a && isZero b) || a == b)

mutual
/-- Equality of values (the `==` of Go on map keys), between a key that the
package has just decoded and a key decoded before it.  Pointers and channels
are equal when they are the same pointer or channel or are both nil: every
pointer and every channel that a decode returns is new, so two of them that
are not nil are never equal. -/
def Val.beq : Val → Val → Bool
  | .bool a, .bool b => a == b
  | .int a, .int b => a == b
  | .uint a, .uint b => a == b
  | .float a, .float b => floatEq a b
  | .complex a b, .complex c d => floatEq a c && floatEq b d
  | .str a, .str b => a == b
  | .array a, .array b => Val.beqList a b
  | .chan none, .chan none => true
  | .ptr none, .ptr none => true
  | .struct a, .struct b => Val.beqList a b
  | _, _ => false
/-- Equality of lists of values. -/
def Val.beqList : List Val → List Val → Bool
  | [], [] => true
  | a :: as, b :: bs => Val.beq a b && Val.beqList as bs
  | _, _ => false
end

/-! ## The standard library, as a parameter -/

/-- The functions of the standard library that the package calls, the
`UnmarshalText` methods of the declared types, and the declarations of the
recursive types.  A parser returns its value or its error. -/
structure Lib where
  /-- `strconv.ParseBool`. -/
  parseBool : String → Except Err Bool
  /-- `strconv.Atoi`. -/
  atoi : String → Except Err Int
  /-- `strconv.ParseInt(s, base, bitSize)`. -/
  parseInt : String → Nat → Nat → Except Err Int
  /-- `strconv.ParseUint(s, base, bitSize)`. -/
  parseUint : String → Nat → Nat → Except Err Nat
  /-- `strconv.ParseFloat(s, bitSize)`: the bits of the result. -/
  parseFloat : String → Nat → Except Err Nat
  /-- `strconv.ParseComplex(s, bitSize)`: the bits of the two parts. -/
  parseComplex : String → Nat → Except Err (Nat × Nat)
  /-- `strconv.IntSize`. -/
  intSize : Nat
  /-- `net.ParseMAC`: the bytes of the address. -/
  parseMAC : String → Except Err (List Nat)
  /-- `time.ParseDuration`: nanoseconds. -/
  parseDuration : String → Except Err Int
  /-- `time.Parse(layout, value)`. -/
  timeParse : String → String → Except Err Val
  /-- The verb `%q` of `fmt`. -/
  quote : String → String
  /-- The method `UnmarshalText` of the pointer to the declared type of that
  name, when it has one: the receiver after the call on a zero receiver, or the
  error. -/
  unmarshalText : String → Option (String → Except Err Val)
  /-- The underlying type of the declared type of that name, for the
  resolution of `Ty.ref`. -/
  typeDecl : String → Option Ty
  /-- The size in bytes of a value of a type (`Type.Size()`). -/
  sizeof : Ty → Nat
  /-- The largest buffer, in bytes, that the runtime gives to a channel:
  `maxAlloc - hchanSize` in `runtime.makechan`. -/
  maxChanBytes : Nat

/-- Resolution of a recursive use of a declared type. -/
def Lib.resolve (lib : Lib) : Ty → Ty
  | .ref n =>
    match lib.typeDecl n with
    | some u => .named n u
    | none => .ref n
  | t => t

/-- `Type.Elem()`. -/
def Lib.elem (lib : Lib) (t : Ty) : Ty := lib.resolve t.rawElem

/-- `Type.Key()`. -/
def Lib.key (lib : Lib) (t : Ty) : Ty := lib.resolve t.rawKey

/-- The test `target.Addr().Type().Implements(encoding.TextUnmarshaler)`:
the `UnmarshalText` method of the pointer to the type, which only a declared
type can have. -/
def Lib.textUnmarshaler (lib : Lib) : Ty → Option (String → Except Err Val)
  | .named n _ => lib.unmarshalText n
  | _ => none

/-- `strconv.Itoa` on an index. -/
def itoa (i : Nat) : String := toString i

/-- `reflect.ValueOf(data).Convert(t)` of a signed integer to a type of the
given width: two's-complement wrap-around. -/
def wrapInt (bits : Nat) (n : Int) : Int :=
  (n + 2 ^ (bits - 1)) % 2 ^ bits - 2 ^ (bits - 1)

/-- Conversion of an unsigned integer to a type of the given width. -/
def wrapUint (bits : Nat) (n : Nat) : Nat := n % 2 ^ bits

/-! ## The well-known types of specific.go -/

/-- The type `fs.FileMode`. -/
def Ty.fileMode : Ty := .named "fs.FileMode" (.prim .uint32)

/-- The type `net.HardwareAddr`. -/
def Ty.hardwareAddr : Ty := .named "net.HardwareAddr" (.slice (.prim .uint8))

/-- The type `time.Duration`. -/
def Ty.duration : Ty := .named "time.Duration" (.prim .int64)

/-- The type `time.Time` (the fields of `time.Location` are not needed). -/
def Ty.time : Ty :=
  .named "time.Time" (.struct [
    ⟨"wall", none, false, .prim .uint64⟩,
    ⟨"ext", none, false, .prim .int64⟩,
    ⟨"loc", none, false, .ptr (.named "time.Location" (.struct []))⟩])

/-- The layout `time.RFC3339`. -/
def layoutRFC3339 : String := "2006-01-02T15:04:05Z07:00"
/-- The layout `time.RFC3339Nano`. -/
def layoutRFC3339Nano : String := "2006-01-02T15:04:05.999999999Z07:00"
/-- The layout `time.DateTime`. -/
def layoutDateTime : String := "2006-01-02 15:04:05"
/-- The layout `time.DateOnly`. -/
def layoutDateOnly : String := "2006-01-02"
/-- The layout `time.TimeOnly`. -/
def layoutTimeOnly : String := "15:04:05"
/-- The layout of hours and minutes. -/
def layoutHourMinute : String := "15:04"

/-- The bytes of a string (Go indexes and measures strings by bytes). -/
def utf8Bytes (s : String) : List Nat :=
  s.data.flatMap (fun c => (String.utf8EncodeChar c).map UInt8.toNat)

/-- The byte `value[i]`. -/
def byteAt (value : String) (i : Nat) : Nat := (utf8Bytes value).getD i 0

/-- `parseFileModeRwxrwxrwx(value)`, for a value of nine bytes. -/
def parseFileModeRwxrwxrwx (value : String) : Nat :=
  let read := 4
  let write := 2
  let execute := 1
  let user := 6
  let group := 3
  let other := 0
  let mode := 0
  let mode := if byteAt value 0 = 'r'.toNat then mode ||| (read <<< user) else mode
  let mode := if byteAt value 1 = 'w'.toNat then mode ||| (write <<< user) else mode
  let mode := if byteAt value 2 = 'x'.toNat then mode ||| (execute <<< user) else mode
  let mode := if byteAt value 3 = 'r'.toNat then mode ||| (read <<< group) else mode
  let mode := if byteAt value 4 = 'w'.toNat then mode ||| (write <<< group) else mode
  let mode := if byteAt value 5 = 'x'.toNat then mode ||| (execute <<< group) else mode
  let mode := if byteAt value 6 = 'r'.toNat then mode ||| (read <<< other) else mode
  let mode := if byteAt value 7 = 'w'.toNat then mode ||| (write <<< other) else mode
  let mode := if byteAt value 8 = 'x'.toNat then mode ||| (execute <<< other) else mode
  mode

/-- `parseFileMode(value)`: the mode and the errors. -/
def parseFileMode (lib : Lib) (value : String) : Nat × List Err :=
  match lib.parseUint value 8 32 with
  | .ok uintMode => (wrapUint 32 uintMode, [])
  | .error uintErr =>
    let rwxFormatLength := 9
    if (utf8Bytes value).length ≠ rwxFormatLength then
      (0, [uintErr,
        .invalidFormat ("rwxrwxrwx expects " ++ toString rwxFormatLength
          ++ " characters, got " ++ toString (utf8Bytes value).length)])
    else
      (parseFileModeRwxrwxrwx value, [])

/-- `parseTime(value)`: the six layouts in order; the first that parses
gives the value, and when none does all the errors are returned with the zero
time. -/
def parseTime (lib : Lib) (value : String) : Val × List Err :=
  match lib.timeParse layoutRFC3339 value with
  | .ok parsed => (parsed, [])
  | .error err1 =>
  match lib.timeParse layoutRFC3339Nano value with
  | .ok parsed => (parsed, [])
  | .error err2 =>
  match lib.timeParse layoutDateTime value with
  | .ok parsed => (parsed, [])
  | .error err3 =>
  match lib.timeParse layoutDateOnly value with
  | .ok parsed => (parsed, [])
  | .error err4 =>
  match lib.timeParse layoutTimeOnly value with
  | .ok parsed => (parsed, [])
  | .error err5 =>
  match lib.timeParse layoutHourMinute value with
  | .ok parsed => (parsed, [])
  | .error err6 => (zeroValue Ty.time, [err1, err2, err3, err4, err5, err6])

/-- `reflect.ValueOf(x)`: a value that is neither addressable nor read-only. -/
def valueOf (ty : Ty) (val : Val) : Value := ⟨ty, val, false, false⟩

/-- `parseSpecific(target, value, hasDefault)`: the result, whether the type
has a specific parser, and the errors. -/
def parseSpecific (lib : Lib) (target : Value) (value : String) (hasDefault : Bool) :
    Option Value × Bool × List Err :=
  if Ty.beq target.ty Ty.fileMode then
    if hasDefault then
      let (mode, errs) := parseFileMode lib value
      (some (valueOf Ty.fileMode (.uint mode)), true, errs)
    else (none, true, [])
  else if Ty.beq target.ty Ty.hardwareAddr then
    if hasDefault then
      match lib.parseMAC value with
      | .ok mac => (some (valueOf Ty.hardwareAddr (.slice (some (mac.map Val.uint)))), true, [])
      | .error err => (some (valueOf Ty.hardwareAddr (.slice none)), true, [err])
    else (none, true, [])
  else if Ty.beq target.ty Ty.duration then
    if hasDefault then
      match lib.parseDuration value with
      | .ok dur => (some (valueOf Ty.duration (.int dur)), true, [])
      | .error err => (some (valueOf Ty.duration (.int 0)), true, [err])
    else (none, true, [])
  else if Ty.beq target.ty Ty.time then
    if hasDefault then
      let (stamp, errs) := parseTime lib value
      (some (valueOf Ty.time stamp), true, errs)
    else (none, true, [])
  else (none, false, [])

/-! ## reflect: writing into a slot -/

/-- What a decoding function hands back: the contents of its target slot
when it returns (a struct is decoded in place), the `reflect.Value` it returns
(`none` is the invalid `reflect.Value{}`), and its errors. -/
structure Parsed where
  target : Val
  result : Option Value
  errs : List Err
deriving Repr

/-- The function `parse`, as its callers see it: target, default value,
`hasDefault`, `overwrite`. -/
abbrev ParseFn := Value → String → Bool → Bool → Outcome Parsed

/-- `v.Set(x)`: the new contents of `v`.  Panics when `v` is read-only or
not addressable, when `x` is invalid or read-only, and when the type of `x` is
not assignable to the type of `v`. -/
def Value.Set (v : Value) (x : Option Value) : Outcome Val :=
  if v.ro then
    .panic "reflect: reflect.Value.Set using value obtained using unexported field"
  else if !v.addr then
    .panic "reflect: reflect.Value.Set using unaddressable value"
  else
    match x with
    | none => .panic "reflect: call of reflect.Value.Set on zero Value"
    | some x =>
      if x.ro then
        .panic "reflect: reflect.Value.Set using value obtained using unexported field"
      else if !x.ty.assignableTo v.ty then
        .panic "reflect.Set: value is not assignable to the type of the slot"
      else
        .ok x.val

/-- Removal of a key from the entries of a map. -/
def mapDelete (entries : List (Val × Val)) (key : Val) : List (Val × Val) :=
  entries.filter (fun kv => !Val.beq kv.1 key)

/-- Assignment into the entries of a map (`m[key] = value`): an entry whose
key equals the new key is replaced in place by the new key and the new value
(the runtime stores the new key too, which shows when the two are equal and
differ, as the two floating-point zeros do), and a new key is appended. -/
def mapInsert : List (Val × Val) → Val → Val → List (Val × Val)
  | [], key, value => [(key, value)]
  | (k, v) :: rest, key, value =>
    if Val.beq k key then (key, value) :: rest else (k, v) :: mapInsert rest key value

/-- `result.SetMapIndex(key, value)` on a map that is not nil and not
read-only: the new entries.  Panics when the key is invalid, read-only or not
assignable to the key type, and when the value is read-only or not assignable
to the element type; an invalid value deletes the key. -/
def setMapIndex (keyType valueType : Ty) (entries : List (Val × Val))
    (key value : Option Value) : Outcome (List (Val × Val)) :=
  match key with
  | none => .panic "reflect: call of reflect.Value.SetMapIndex on zero Value"
  | some k =>
    if k.ro then
      .panic "reflect: reflect.Value.SetMapIndex using value obtained using unexported field"
    else if !k.ty.assignableTo keyType then
      .panic "reflect.Value.SetMapIndex: value is not assignable to the key type"
    else
      match value with
      | none => .ok (mapDelete entries k.val)
      | some x =>
        if x.ro then
          .panic "reflect: reflect.Value.SetMapIndex using value obtained using unexported field"
        else if !x.ty.assignableTo valueType then
          .panic "reflect.Value.SetMapIndex: value is not assignable to the element type"
        else
          .ok (mapInsert entries k.val x.val)

/-! ## collection.go: arrays, slices and maps

The functions that call `parse` take it as their first argument. -/

/-- The loop of `parseList`, from index `i` on, over the defaults that
remain, with the elements of `result` and the errors so far. -/
def parseListLoop (rec : ParseFn) (itemsType : Ty) :
    Nat → List String → List Val → List Err → Outcome (List Val × List Err)
  | _, [], result, errs => .ok (result, errs)
  | i, d :: rest, result, errs => do
    let zero := valueOf itemsType (zeroValue itemsType)
    let r ← rec zero d true true
    if r.errs.length > 0 then
      parseListLoop rec itemsType (i + 1) rest result
        (errs ++ addErrorsPrefixes (itoa i) r.errs)
    else
      let slot : Value := ⟨itemsType, result.getD i (zeroValue itemsType), true, false⟩
      let v ← slot.Set r.result
      parseListLoop rec itemsType (i + 1) rest (result.set i v) errs

/-- `parseList(itemsType, result, defaults)`: the elements of `result` after
the call, and the errors. -/
def parseList (rec : ParseFn) (itemsType : Ty) (result : List Val) (defaults : List String) :
    Outcome (List Val × List Err) :=
  parseListLoop rec itemsType 0 defaults result []

/-- `parseArray(target, value, hasDefault)`. -/
def parseArray (lib : Lib) (rec : ParseFn) (target : Value) (value : String)
    (hasDefault : Bool) : Outcome Parsed :=
  if !hasDefault then
    .ok ⟨target.val, none, []⟩
  else
    let defaults := asList value
    let tgtLen := target.ty.len
    let defLen := defaults.length
    if defLen ≠ tgtLen then
      .ok ⟨target.val, none,
        [.invalidFormat ("expected " ++ toString tgtLen ++ " values, got " ++ toString defLen)]⟩
    else do
      let arrayType := target.ty
      let result := List.replicate arrayType.len (zeroValue (lib.elem arrayType))
      let (elems, errs) ← parseList rec (lib.elem arrayType) result defaults
      pure ⟨target.val, some ⟨arrayType, .array elems, true, false⟩, errs⟩

/-- `parseSlice(target, value, hasDefault)`. -/
def parseSlice (lib : Lib) (rec : ParseFn) (target : Value) (value : String)
    (hasDefault : Bool) : Outcome Parsed :=
  if !hasDefault then
    .ok ⟨target.val, none, []⟩
  else do
    let defaults := asList value
    let result := List.replicate defaults.length (zeroValue (lib.elem target.ty))
    let (elems, errs) ← parseList rec (lib.elem target.ty) result defaults
    pure ⟨target.val, some (valueOf target.ty (.slice (some elems))), errs⟩

/-- `strings.SplitN(def, ":", 2)`: the text before the first colon and the
text after it, or `none` when there is no colon. -/
def splitColon : List Char → Option (List Char × List Char)
  | [] => none
  | c :: cs =>
    if c = ':' then some ([], cs)
    else
      match splitColon cs with
      | some (k, v) => some (c :: k, v)
      | none => none

/-- The loop of `parseMap`, from index `i` on, with the entries of `result`
and the errors so far. -/
def parseMapLoop (lib : Lib) (rec : ParseFn) (keyType valueType : Ty) :
    Nat → List String → List (Val × Val) → List Err → Outcome (List (Val × Val) × List Err)
  | _, [], result, errs => .ok (result, errs)
  | i, d :: rest, result, errs =>
    match splitColon d.data with
    | none =>
      parseMapLoop lib rec keyType valueType (i + 1) rest result
        (errs ++ [.invalidFormat ("expected \"<key>:<value>\", got " ++ lib.quote d)])
    | some (k, v) => do
      let keyZero := valueOf keyType (zeroValue keyType)
      let valueZero := valueOf valueType (zeroValue valueType)
      let key ← rec keyZero (String.mk k) true true
      let errs := if key.errs.length > 0 then errs ++ addErrorsPrefixes (itoa i) key.errs else errs
      let value ← rec valueZero (String.mk v) true true
      let errs :=
        if value.errs.length > 0 then errs ++ addErrorsPrefixes (itoa i) value.errs else errs
      if key.errs.length > 0 || value.errs.length > 0 then
        parseMapLoop lib rec keyType valueType (i + 1) rest result errs
      else
        let result ← setMapIndex keyType valueType result key.result value.result
        parseMapLoop lib rec keyType valueType (i + 1) rest result errs

/-- `parseMap(target, defaultValue, hasDefaults)`. -/
def parseMap (lib : Lib) (rec : ParseFn) (target : Value) (defaultValue : String)
    (hasDefaults : Bool) : Outcome Parsed :=
  if !hasDefaults then
    .ok ⟨target.val, none, []⟩
  else do
    let defaults := asList defaultValue
    let targetType := target.ty
    let keyType := lib.key targetType
    let valueType := lib.elem targetType
    let (entries, errs) ← parseMapLoop lib rec keyType valueType 0 defaults [] []
    pure ⟨target.val, some (valueOf targetType (.map (some entries))), errs⟩

/-! ## parse.go -/

/-- `target.Field(i)`: addressable when the struct is, read-only when the
struct is or when the field is not exported. -/
def Value.Field (target : Value) (typeField : StructField Ty) (fieldVal : Val) : Value :=
  ⟨typeField.ty, fieldVal, target.addr, target.ro || !typeField.exported⟩

/-- The call `parse(field, defaultValue, hasDefault, overwrite)` of the loop
of `parseStruct`, after `typeField.Tag.Lookup("default")`. -/
def parseField (rec : ParseFn) (target : Value) (overwrite : Bool)
    (typeField : StructField Ty) (fieldVal : Val) : Outcome Parsed :=
  let field := target.Field typeField fieldVal
  let defaultValue := typeField.tag.getD ""
  let hasDefault := typeField.tag.isSome
  rec field defaultValue hasDefault overwrite

/-- The body of the loop of `parseStruct` for one field: the contents of the
field when the iteration ends, and the errors it appends. -/
def parseStructField (rec : ParseFn) (target : Value) (overwrite : Bool)
    (typeField : StructField Ty) (fieldVal : Val) : Outcome (Val × List Err) := do
  let field := target.Field typeField fieldVal
  let r ← parseField rec target overwrite typeField fieldVal
  if r.errs.length > 0 then
    pure (r.target, addErrorsPrefixes typeField.name r.errs)
  else if r.result.isSome && (r.target.isZero || overwrite) then
    let v ← Value.Set ⟨field.ty, r.target, field.addr, field.ro⟩ r.result
    pure (v, [])
  else
    pure (r.target, [])

/-- The loop of `parseStruct` over the fields, in declaration order. -/
def parseStructLoop (rec : ParseFn) (target : Value) (overwrite : Bool) :
    List (StructField Ty) → List Val → Outcome (List Val × List Err)
  | [], [] => .ok ([], [])
  | typeField :: fields, fieldVal :: vals => do
    let (v, errs) ← parseStructField rec target overwrite typeField fieldVal
    let (vs, rest) ← parseStructLoop rec target overwrite fields vals
    pure (v :: vs, errs ++ rest)
  | _, _ => .panic "reflect: the value does not have the fields of its type"

/-- `parseStruct(target, overwrite)`: decodes the fields in place and
returns the target itself. -/
def parseStruct (rec : ParseFn) (target : Value) (overwrite : Bool) : Outcome Parsed :=
  match target.val with
  | .struct vals => do
    let (vals, errs) ← parseStructLoop rec target overwrite target.ty.fields vals
    pure ⟨.struct vals, some ⟨target.ty, .struct vals, target.addr, target.ro⟩, errs⟩
  | _ => .panic "reflect: call of reflect.Value.NumField on a value that is not a struct"

/-- The end of `parsePointer`: `resultValue := reflect.New(pointedType)`,
`resultValue.Elem().Set(result)`, `return resultValue, nil`. -/
def parsePointerResult (pointedType : Ty) (target : Val) (result : Option Value) :
    Outcome Parsed := do
  let v ← Value.Set ⟨pointedType, zeroValue pointedType, true, false⟩ result
  pure ⟨target, some (valueOf (.ptr pointedType) (.ptr (some v))), []⟩

/-- `parsePointer(target, value, hasDefault, overwrite)`.  A nil target is
replaced by a new pointer, local to the function; the pointee of a target that
is not nil is decoded in place. -/
def parsePointer (lib : Lib) (rec : ParseFn) (target : Value) (value : String)
    (hasDefault overwrite : Bool) : Outcome Parsed :=
  if !hasDefault then
    .ok ⟨target.val, none, []⟩
  else
    let pointedType := lib.elem target.ty
    match target.val with
    | .ptr none => do
      let r ← rec ⟨pointedType, zeroValue pointedType, true, false⟩ value hasDefault overwrite
      if r.errs.length > 0 then
        pure ⟨target.val, none, r.errs⟩
      else
        parsePointerResult pointedType target.val r.result
    | .ptr (some pointee) =>
      if !overwrite then
        .ok ⟨target.val, none, []⟩
      else do
        let r ← rec ⟨pointedType, pointee, true, target.ro⟩ value hasDefault overwrite
        if r.errs.length > 0 then
          pure ⟨.ptr (some r.target), none, r.errs⟩
        else
          parsePointerResult pointedType (.ptr (some r.target)) r.result
    | _ => .panic "reflect: call of reflect.Value.IsNil on a value that is not a pointer"

/-- `makeChan(target, defaultValue, hasDefault)`.  `reflect.MakeChan` panics
in `runtime.makechan` when the buffer, the size of an element times the number
of elements, is larger than the runtime allows. -/
def makeChan (lib : Lib) (target : Value) (defaultValue : String) (hasDefault : Bool) :
    Outcome Parsed :=
  if !hasDefault then
    .ok ⟨target.val, none, []⟩
  else if target.ty.chanDir ≠ .bothDir then
    .ok ⟨target.val, none, [.unsupportedType]⟩
  else
    match lib.atoi defaultValue with
    | .error err => .ok ⟨target.val, none, [err]⟩
    | .ok i =>
      let i := max i 0
      if lib.sizeof (lib.elem target.ty) * i.toNat > lib.maxChanBytes then
        .panic "makechan: size out of range"
      else
        .ok ⟨target.val, some (valueOf target.ty (.chan (some i.toNat))), []⟩

/-- `parseWithError(target, fct, value, hasDefault)`; `convert` is
`reflect.ValueOf(data).Convert(target.Type())`. -/
def parseWithError {T : Type} (target : Value) (fct : String → Except Err T)
    (convert : T → Val) (value : String) (hasDefault : Bool) : Outcome Parsed :=
  if !hasDefault then
    .ok ⟨target.val, none, []⟩
  else
    match fct value with
    | .error err => .ok ⟨target.val, none, [err]⟩
    | .ok data => .ok ⟨target.val, some (valueOf target.ty (convert data)), []⟩

/-- `parseWithErrorI(target, fct, value, arg, hasDefault)`. -/
def parseWithErrorI {T : Type} (target : Value) (fct : String → Nat → Except Err T)
    (convert : T → Val) (value : String) (arg : Nat) (hasDefault : Bool) : Outcome Parsed :=
  if !hasDefault then
    .ok ⟨target.val, none, []⟩
  else
    match fct value arg with
    | .error err => .ok ⟨target.val, none, [err]⟩
    | .ok data => .ok ⟨target.val, some (valueOf target.ty (convert data)), []⟩

/-- `parseWithErrorII(target, fct, value, arg1, arg2, hasDefault)`. -/
def parseWithErrorII {T : Type} (target : Value) (fct : String → Nat → Nat → Except Err T)
    (convert : T → Val) (value : String) (arg1 arg2 : Nat) (hasDefault : Bool) :
    Outcome Parsed :=
  if !hasDefault then
    .ok ⟨target.val, none, []⟩
  else
    match fct value arg1 arg2 with
    | .error err => .ok ⟨target.val, none, [err]⟩
    | .ok data => .ok ⟨target.val, some (valueOf target.ty (convert data)), []⟩

/-- `parseKind(target, value, hasDefault, overwrite)`. -/
def parseKind (lib : Lib) (rec : ParseFn) (target : Value) (value : String)
    (hasDefault overwrite : Bool) : Outcome Parsed :=
  match target.ty.kind with
  | .bool => parseWithError target lib.parseBool Val.bool value hasDefault
  | .int => parseWithError target lib.atoi Val.int value hasDefault
  | .int8 => parseWithErrorII target lib.parseInt (fun n => .int (wrapInt 8 n)) value 10 8 hasDefault
  | .int16 =>
    parseWithErrorII target lib.parseInt (fun n => .int (wrapInt 16 n)) value 10 16 hasDefault
  | .int32 =>
    parseWithErrorII target lib.parseInt (fun n => .int (wrapInt 32 n)) value 10 32 hasDefault
  | .int64 =>
    parseWithErrorII target lib.parseInt (fun n => .int (wrapInt 64 n)) value 10 64 hasDefault
  | .uint =>
    parseWithErrorII target lib.parseUint (fun n => .uint (wrapUint lib.intSize n)) value 10
      lib.intSize hasDefault
  | .uint8 =>
    parseWithErrorII target lib.parseUint (fun n => .uint (wrapUint 8 n)) value 10 8 hasDefault
  | .uint16 =>
    parseWithErrorII target lib.parseUint (fun n => .uint (wrapUint 16 n)) value 10 16 hasDefault
  | .uint32 =>
    parseWithErrorII target lib.parseUint (fun n => .uint (wrapUint 32 n)) value 10 32 hasDefault
  | .uint64 =>
    parseWithErrorII target lib.parseUint (fun n => .uint (wrapUint 64 n)) value 10 64 hasDefault
  | .float32 => parseWithErrorI target lib.parseFloat Val.float value 32 hasDefault
  | .float64 => parseWithErrorI target lib.parseFloat Val.float value 64 hasDefault
  | .complex64 =>
    parseWithErrorI target lib.parseComplex (fun c => .complex c.1 c.2) value 64 hasDefault
  | .complex128 =>
    parseWithErrorI target lib.parseComplex (fun c => .complex c.1 c.2) value 128 hasDefault
  | .array => parseArray lib rec target value hasDefault
  | .chan => makeChan lib target value hasDefault
  | .map => parseMap lib rec target value hasDefault
  | .pointer => parsePointer lib rec target value hasDefault overwrite
  | .slice => parseSlice lib rec target value hasDefault
  | .string => .ok ⟨target.val, some (valueOf (.prim .string) (.str value)), []⟩
  | .struct => parseStruct rec target overwrite
  | _ => .ok ⟨target.val, none, [.unsupportedType]⟩

/-- The body of `parse(target, value, hasDefault, overwrite)`: the specific
parsers, then `encoding.TextUnmarshaler`, then the kind of the target. -/
def parseBody (lib : Lib) (rec : ParseFn) (target : Value) (value : String)
    (hasDefault overwrite : Bool) : Outcome Parsed :=
  match parseSpecific lib target value hasDefault with
  | (result, true, errs) => .ok ⟨target.val, result, errs⟩
  | (_, false, _) =>
    match (if target.addr then lib.textUnmarshaler target.ty else none) with
    | some unmarshalText =>
      match unmarshalText value with
      | .error err => .ok ⟨target.val, none, [err]⟩
      | .ok v => .ok ⟨target.val, some ⟨target.ty, v, true, false⟩, []⟩
    | none => parseKind lib rec target value hasDefault overwrite

/-- `parse`, with the depth of recursion that is allowed. -/
def parse (lib : Lib) : Nat → ParseFn
  | 0 => fun _ _ _ _ => .outOfFuel
  | fuel + 1 => parseBody lib (parse lib fuel)

/-! ## defaults.go -/

/-- What `apply` leaves: the target after the call, and the error returned
(`none` is nil). -/
structure Applied where
  target : Option Value
  err : Option ApplyError
deriving Repr

/-- `apply(target, overwrite)`; a nil `target` is `none`. -/
def apply (lib : Lib) (fuel : Nat) (target : Option Value) (overwrite : Bool) :
    Outcome Applied :=
  match target with
  | none => .ok ⟨target, some .mustBePointerToAStruct⟩
  | some val =>
    if val.ty.kind ≠ .pointer then
      .ok ⟨target, some .mustBePointerToAStruct⟩
    else
      match val.val with
      | .ptr (some pointee) =>
        let elem : Value := ⟨lib.elem val.ty, pointee, true, val.ro⟩
        if elem.ty.kind ≠ .struct then
          .ok ⟨target, some .mustBePointerToAStruct⟩
        else do
          let r ← parseStruct (parse lib fuel) elem overwrite
          pure ⟨some { val with val := .ptr (some r.target) }, errorsJoin r.errs⟩
      | _ => .ok ⟨target, some .mustBePointerToAStruct⟩

/-- `Initialize(target)`: applies the tagged defaults, overwriting existing
values. -/
def Initialize (lib : Lib) (fuel : Nat) (target : Option Value) : Outcome Applied :=
  apply lib fuel target true

/-- `Complete(target)`: applies the tagged defaults to unset values. -/
def Complete (lib : Lib) (fuel : Nat) (target : Option Value) : Outcome Applied :=
  apply lib fuel target false

/-! ## A library for the examples

The boolean and integer parsers of `strconv`, after the Go standard library,
for the bases 8 and 10 that the package uses. -/

/-- A hexadecimal digit, in lower case. -/
def lowerHex (n : Nat) : Char := "0123456789abcdef".data.getD (n % 16) '0'

/-- `strconv.IsPrint` on the characters up to U+00FF, which the function
tests without its tables: the characters from the space to `~` and from `¡` to
`ÿ`, but for the soft hyphen.  The tables for the characters above U+00FF are
not reproduced: such a character is taken as printable. -/
def goIsPrint (c : Char) : Bool :=
  if c.toNat ≤ 255 then
    (32 ≤ c.toNat && c.toNat ≤ 126) || (161 ≤ c.toNat && c.toNat != 173)
  else true

/-- What `strconv.Quote` writes for one character: a backslash before a
double quote or a backslash, a printable character as it is, and an escape for
any other. -/
def goQuoteChar (c : Char) : List Char :=
  if c = '"' ∨ c = '\\' then ['\\', c]
  else if goIsPrint c then [c]
  else if c.toNat = 7 then ['\\', 'a']
  else if c.toNat = 8 then ['\\', 'b']
  else if c.toNat = 12 then ['\\', 'f']
  else if c.toNat = 10 then ['\\', 'n']
  else if c.toNat = 13 then ['\\', 'r']
  else if c.toNat = 9 then ['\\', 't']
  else if c.toNat = 11 then ['\\', 'v']
  else if c.toNat < 32 ∨ c.toNat = 127 then
    ['\\', 'x', lowerHex (c.toNat / 16), lowerHex c.toNat]
  else if c.toNat < 65536 then
    ['\\', 'u', lowerHex (c.toNat / 4096), lowerHex (c.toNat / 256), lowerHex (c.toNat / 16),
      lowerHex c.toNat]
  else
    ['\\', 'U', lowerHex (c.toNat / 268435456), lowerHex (c.toNat / 16777216),
      lowerHex (c.toNat / 1048576), lowerHex (c.toNat / 65536), lowerHex (c.toNat / 4096),
      lowerHex (c.toNat / 256), lowerHex (c.toNat / 16), lowerHex c.toNat]

/-- The verb `%q` of `fmt` and `strconv.Quote`: the text between double
quotes, each character written by `goQuoteChar`. -/
def goQuote (s : String) : String :=
  "\"" ++ String.mk (s.data.flatMap goQuoteChar) ++ "\""

/-- The error `*strconv.NumError` with `strconv.ErrSyntax`. -/
def syntaxError (fn : String) (s : String) : Err :=
  .external ("strconv." ++ fn) ("strconv." ++ fn ++ ": parsing " ++ goQuote s ++ ": invalid syntax")

/-- The error `*strconv.NumError` with `strconv.ErrRange`. -/
def rangeError (fn : String) (s : String) : Err :=
  .external ("strconv." ++ fn)
    ("strconv." ++ fn ++ ": parsing " ++ goQuote s ++ ": value out of range")

/-- `strconv.ParseBool`. -/
def goParseBool (s : String) : Except Err Bool :=
  if s = "1" ∨ s = "t" ∨ s = "T" ∨ s = "TRUE" ∨ s = "true" ∨ s = "True" then .ok true
  else if s = "0" ∨ s = "f" ∨ s = "F" ∨ s = "FALSE" ∨ s = "false" ∨ s = "False" then .ok false
  else .error (syntaxError "ParseBool" s)

/-- The digits of `strconv.ParseUint`, left to right: `none` at a character
that is not a digit of the base, `some none` when the value exceeds the
maximum, `some (some n)` otherwise. -/
def parseUintDigits (base maxVal : Nat) : List Char → Nat → Option (Option Nat)
  | [], n => some (some n)
  | c :: cs, n =>
    if c.isDigit && c.toNat - '0'.toNat < base then
      let n1 := n * base + (c.toNat - '0'.toNat)
      if n1 > maxVal then some none else parseUintDigits base maxVal cs n1
    else none

/-- `strconv.ParseUint(s, base, bitSize)` for a base from 2 to 10. -/
def goParseUint (s : String) (base bitSize : Nat) : Except Err Nat :=
  if s = "" then .error (syntaxError "ParseUint" s)
  else
    let bitSize := if bitSize = 0 then 64 else bitSize
    match parseUintDigits base (2 ^ bitSize - 1) s.data 0 with
    | none => .error (syntaxError "ParseUint" s)
    | some none => .error (rangeError "ParseUint" s)
    | some (some n) => .ok n

/-- The body shared by `strconv.ParseInt` and `strconv.Atoi`, which differ
by the name of the function in the error. -/
def goParseIntAs (fn : String) (s : String) (base bitSize : Nat) : Except Err Int :=
  if s = "" then .error (syntaxError fn s)
  else
    let bitSize := if bitSize = 0 then 64 else bitSize
    let neg := s.data.head? = some '-'
    let digits := if s.data.head? = some '+' ∨ s.data.head? = some '-' then s.data.tail else s.data
    if digits = [] then .error (syntaxError fn s)
    else
      match parseUintDigits base (2 ^ bitSize - 1) digits 0 with
      | none => .error (syntaxError fn s)
      | some none => .error (rangeError fn s)
      | some (some un) =>
        let cutoff := 2 ^ (bitSize - 1)
        if !neg && un ≥ cutoff then .error (rangeError fn s)
        else if neg && un > cutoff then .error (rangeError fn s)
        else .ok (if neg then -(un : Int) else (un : Int))

mutual
/-- The alignment of a type on a 64-bit platform. -/
def goAlign : Ty → Nat
  | .prim k =>
    match k with
    | .bool | .int8 | .uint8 | .invalid => 1
    | .int16 | .uint16 => 2
    | .int32 | .uint32 | .float32 | .complex64 => 4
    | _ => 8
  | .array _ e => goAlign e
  | .struct fs => goAlignFields fs
  | .named _ u => goAlign u
  | .ref _ => 1
  | _ => 8
/-- The largest alignment of the fields of a struct type. -/
def goAlignFields : List (StructField Ty) → Nat
  | [] => 1
  | f :: fs => max (goAlign f.ty) (goAlignFields fs)
end

/-- The next multiple of the alignment. -/
def roundUp (offset align : Nat) : Nat := (offset + align - 1) / align * align

mutual
/-- The size of a type on a 64-bit platform, as the compiler lays it out: a
word is 8 bytes, a string is two words, a slice three, an interface two; the
fields of a struct are put at the next multiple of their alignment, a struct
that is not empty and ends with a field of size 0 gets one more byte, and the
size of a struct is a multiple of its alignment. -/
def goSizeof : Ty → Nat
  | .prim k =>
    match k with
    | .invalid => 0
    | .bool | .int8 | .uint8 => 1
    | .int16 | .uint16 => 2
    | .int32 | .uint32 | .float32 => 4
    | .complex128 | .string | .interface => 16
    | _ => 8
  | .array n e => n * goSizeof e
  | .slice _ => 24
  | .struct fs =>
    let (size, last) := goLayout fs 0 1
    roundUp (if size > 0 ∧ last = 0 then size + 1 else size) (goAlignFields fs)
  | .named _ u => goSizeof u
  | .ref _ => 0
  | _ => 8
/-- The offset after the fields of a struct type that start at an offset, and
the size of the last field. -/
def goLayout : List (StructField Ty) → Nat → Nat → Nat × Nat
  | [], offset, last => (offset, last)
  | f :: fs, offset, _ =>
    goLayout fs (roundUp offset (goAlign f.ty) + goSizeof f.ty) (goSizeof f.ty)
end

/-- The library of the examples.  `strconv.ParseBool`, `strconv.Atoi`,
`strconv.ParseInt` and `strconv.ParseUint` are as above, on a 64-bit platform.
The floating-point, complex, duration, hardware-address and time parsers are
not described: they report an error on every text, and no example decodes a
value of those types.  No declared type has an `UnmarshalText` method and no
recursive type is declared.  The sizes are those of a 64-bit platform, and the
runtime is that of Go 1.22 on linux/amd64, where `maxAlloc` is 2 ^ 48 and
`hchanSize` is 96, with the memory for every channel that it allows. -/
def goLib : Lib where
  parseBool := goParseBool
  atoi := fun s => goParseIntAs "Atoi" s 10 0
  parseInt := goParseIntAs "ParseInt"
  parseUint := goParseUint
  parseFloat := fun _ _ => .error (.external "strconv.ParseFloat" "not described")
  parseComplex := fun _ _ => .error (.external "strconv.ParseComplex" "not described")
  intSize := 64
  parseMAC := fun _ => .error (.external "net.ParseMAC" "not described")
  parseDuration := fun _ => .error (.external "time.ParseDuration" "not described")
  timeParse := fun _ _ => .error (.external "time.Parse" "not described")
  quote := goQuote
  unmarshalText := fun _ => none
  typeDecl := fun _ => none
  sizeof := goSizeof
  maxChanBytes := 2 ^ 48 - 96

/-- A field of a struct type that is exported. -/
def exportedField (name : String) (tag : Option String) (ty : Ty) : StructField Ty :=
  ⟨name, tag, true, ty⟩

/-- The argument of `Initialize` and `Complete` for a record: a pointer to
it. -/
def pointerTo (ty : Ty) (record : Val) : Option Value :=
  some (valueOf (.ptr ty) (.ptr (some record)))

/-! ## Definitions used by the statements -/

/-- The record as `apply` hands it to `parseStruct`: `val.Elem()`,
addressable and not read-only. -/
def recordOf (ty : Ty) (vals : List Val) : Value := ⟨ty, .struct vals, true, false⟩

/-- The errors that the iteration of the loop of `parseStruct` for one field
appends to `errs`. -/
def fieldErrs (rec : ParseFn) (target : Value) (overwrite : Bool)
    (typeField : StructField Ty) (fieldVal : Val) : List Err :=
  match parseField rec target overwrite typeField fieldVal with
  | .ok r => addErrorsPrefixes typeField.name r.errs
  | _ => []

/-- The errors that the loop of `parseStruct` appends for a run of fields, in
declaration order. -/
def fieldsErrs (rec : ParseFn) (target : Value) (overwrite : Bool)
    (fields : List (StructField Ty)) (vals : List Val) : List Err :=
  (List.zipWith (fieldErrs rec target overwrite) fields vals).flatten

/-- The kinds whose decoder begins with
`if !hasDefault { return reflect.Value{}, nil }`. -/
def Kind.decoderChecksDefault : Kind → Bool
  | .bool | .int | .int8 | .int16 | .int32 | .int64
  | .uint | .uint8 | .uint16 | .uint32 | .uint64
  | .float32 | .float64 | .complex64 | .complex128
  | .array | .chan | .map | .pointer | .slice => true
  | _ => false

/-- Whether decoding a slot writes into the slot itself: a struct is decoded
in place, and so is the pointee of a pointer that is not nil when the policy
overwrites. -/
def decodesInPlace (lib : Lib) (overwrite : Bool) : Ty → Val → Bool
  | ty, .struct _ => ty.kind == .struct
  | ty, .ptr (some pointee) =>
    ty.kind == .pointer && overwrite && decodesInPlace lib overwrite (lib.elem ty) pointee
  | _, _ => false

/-- The characters of a field with each comma written as a backslash and a
comma. -/
def escapeCommas : List Char → List Char
  | [] => []
  | c :: cs => if c = ',' then '\\' :: ',' :: escapeCommas cs else c :: escapeCommas cs

/-- The characters of the fields joined by commas, the commas inside a field
escaped. -/
def joinEscapedChars : List String → List Char
  | [] => []
  | [field] => escapeCommas field.data
  | field :: next :: rest => escapeCommas field.data ++ ',' :: joinEscapedChars (next :: rest)

/-- The text that joins the fields with commas, every comma inside a field
written as backslash-comma. -/
def joinEscaped (fields : List String) : String := String.mk (joinEscapedChars fields)

/-- One decoder returns wherever another does, with the same result. -/
def ParseFn.le (rec rec' : ParseFn) : Prop :=
  ∀ target value hasDefault overwrite p,
    rec target value hasDefault overwrite = .ok p → rec' target value hasDefault overwrite = .ok p

/-- Whether an error is a `fieldError`: an error under the name of a field
or under the index of an entry. -/
def Err.isFieldError : Err → Bool
  | .fieldError _ _ => true
  | _ => false

/-- The errors that the iteration of the loop of `parseList` for the entry of
index `i` appends to `errs`. -/
def elementErrs (rec : ParseFn) (itemsType : Ty) (i : Nat) (d : String) : List Err :=
  match rec (valueOf itemsType (zeroValue itemsType)) d true true with
  | .ok r => addErrorsPrefixes (itoa i) r.errs
  | _ => []

/-- The errors that the loop of `parseList` appends for the entries from
index `i` on, in order. -/
def listErrs (rec : ParseFn) (itemsType : Ty) : Nat → List String → List Err
  | _, [] => []
  | i, d :: rest => elementErrs rec itemsType i d ++ listErrs rec itemsType (i + 1) rest

/-- The key and the value of an entry of a map default, when the entry
splits at a colon and the text before the first colon decodes as a key and the
text after it as a value. -/
def entryPair (rec : ParseFn) (keyType valueType : Ty) (d : String) : Option (Val × Val) :=
  match splitColon d.data with
  | none => none
  | some (k, v) =>
    match rec (valueOf keyType (zeroValue keyType)) (String.mk k) true true,
      rec (valueOf valueType (zeroValue valueType)) (String.mk v) true true with
    | .ok key, .ok value =>
      match key.errs, value.errs, key.result, value.result with
      | [], [], some kx, some vx => some (kx.val, vx.val)
      | _, _, _, _ => none
    | _, _ => none

/-- The map that holds the pairs, inserted in order: a later pair overrides
an earlier one with the same key. -/
def mapOfPairs (pairs : List (Val × Val)) : List (Val × Val) :=
  pairs.foldl (fun m kv => mapInsert m kv.1 kv.2) []

/-- The error of an entry of a map default that has no colon. -/
def noColonError (lib : Lib) (d : String) : Err :=
  .invalidFormat ("expected \"<key>:<value>\", got " ++ lib.quote d)

/-- The layouts that `parseTime` tries, in the order of the documentation:
`time.RFC3339`, `time.RFC3339Nano`, `time.DateTime`, `time.DateOnly`,
`time.TimeOnly` and hours and minutes. -/
def timeLayouts : List String :=
  [layoutRFC3339, layoutRFC3339Nano, layoutDateTime, layoutDateOnly, layoutTimeOnly,
    layoutHourMinute]

/-- Tries the layouts in order, with the errors of the layouts that have
failed: the first layout that parses gives the value, without error; when none
parses, the zero time and all the errors. -/
def tryLayouts (lib : Lib) (value : String) : List String → List Err → Val × List Err
  | [], errs => (zeroValue Ty.time, errs)
  | layout :: rest, errs =>
    match lib.timeParse layout value with
    | .ok parsed => (parsed, [])
    | .error err => tryLayouts lib value rest (errs ++ [err])

/-- The optional that `parsePointer` produces for a decoded pointee: a new
pointer to the pointed type, holding the value. -/
def freshPointer (pointedType : Ty) (v : Val) : Value :=
  valueOf (.ptr pointedType) (.ptr (some v))

/-- The errors that the iteration of the loop of `parseMap` for the entry of
index `i` appends to `errs`: the error of an entry without a colon, as it is,
or the errors of the key and then those of the value, under the index. -/
def entryErrs (lib : Lib) (rec : ParseFn) (keyType valueType : Ty) (i : Nat) (d : String) :
    List Err :=
  match splitColon d.data with
  | none => [noColonError lib d]
  | some (k, v) =>
    elementErrs rec keyType i (String.mk k) ++ elementErrs rec valueType i (String.mk v)

/-- The errors that the loop of `parseMap` appends for the entries from index
`i` on, in order. -/
def mapErrs (lib : Lib) (rec : ParseFn) (keyType valueType : Ty) : Nat → List String → List Err
  | _, [] => []
  | i, d :: rest =>
    entryErrs lib rec keyType valueType i d ++ mapErrs lib rec keyType valueType (i + 1) rest

/-- What follows the index in the path of the error of an entry: nothing
when the error has no path of its own, a dot and that path when it has one. -/
def Err.restPath : Err → String
  | .fieldError field _ => "." ++ field
  | _ => ""

/-- The error under the path of an error: the error that a `fieldError`
wraps, the error itself when it has no path. -/
def Err.underlying : Err → Err
  | .fieldError _ err => err
  | err => err

/-- The error of the entry of index `i` of a field, as the record decode
returns it for the error `e` of the decode of the entry: the path is the name
of the field, a dot, the index in decimal and the rest of the path, and it
wraps the underlying error. -/
def entryError (name : String) (i : Nat) (e : Err) : Err :=
  .fieldError (name ++ "." ++ itoa i ++ e.restPath) e.underlying

/-- The numeral of a number in base 8, without sign and without leading
zeros (the numeral of 0 is `0`). -/
def octalNumeral (m : Nat) : String := String.mk (Nat.toDigits 8 m)

/-- The symbolic text of a permission value: nine characters, the one at
position `i` being the letter of `rwxrwxrwx` at that position when the bit
`8 - i` of the value is set, and `-` when it is not. -/
def symbolicString (m : Nat) : String :=
  String.mk ((List.range 9).map fun i =>
    if m.testBit (8 - i) then "rwxrwxrwx".data.getD i '-' else '-')

/-! ## Records of the examples -/

/-- The fields of `unmarshaltarget`, the record of `TestApply`, that the
library of the examples can decode: `D`, `E`, `G`, `H`, `J`, `K`, `P`, `V`,
`W`, `X`, `Y` and `Z`, with their tags. -/
def unmarshaltarget : Ty :=
  .struct [
    exportedField "D" (some "foo:1,bar:2") (.map (.prim .string) (.prim .int)),
    exportedField "E" (some "5") (.chan .bothDir (.prim .int)),
    exportedField "G" (some "alice, bob") (.prim .string),
    exportedField "H" (some "some default") (.ptr (.prim .string)),
    exportedField "J" (some "2,8") (.slice (.prim .uint8)),
    exportedField "K" (some "foo,bar,b\\,az") (.slice (.prim .string)),
    exportedField "P" none
      (.struct [exportedField "Q" (some "true") (.prim .bool),
        exportedField "R" (some "42") (.prim .uint),
        exportedField "S" (some "42") (.prim .int)]),
    exportedField "V" (some "754") Ty.fileMode,
    exportedField "W" (some "rwxr-xr-x") Ty.fileMode,
    exportedField "X" (some "42") (.prim .int16),
    exportedField "Y" (some "true,false,true") (.array 3 (.prim .bool)),
    exportedField "Z" (some "t") (.prim .bool)]

/-- The type `struct { A int }` whose field `A` has the tag `default:"abc"`: a
malformed default. -/
def badTagRecord : Ty := .struct [exportedField "A" (some "abc") (.prim .int)]

/-- The type `struct { A int; B bool }` with the tags `default:"42"` on `A`
and `default:"maybe"` on `B`. -/
def twoFieldRecord : Ty :=
  .struct [exportedField "A" (some "42") (.prim .int),
    exportedField "B" (some "maybe") (.prim .bool)]

/-- The type `struct { Q bool; R uint }` with the tags `default:"true"` on `Q`
and `default:"42"` on `R`. -/
def innerStruct : Ty :=
  .struct [exportedField "Q" (some "true") (.prim .bool),
    exportedField "R" (some "42") (.prim .uint)]

/-- The type `struct { P struct { Q bool; R uint } }` with the tags
`default:"true"` on `Q` and `default:"42"` on `R`, and no tag on `P`. -/
def nestedRecord : Ty := .struct [exportedField "P" none innerStruct]

/-- The type `struct { N int; S string }` with the tags `default:"5"` on `N`
and `default:"x"` on `S`. -/
def scalarRecord : Ty :=
  .struct [exportedField "N" (some "5") (.prim .int),
    exportedField "S" (some "x") (.prim .string)]

/-- The type `struct { S string }`: a string field without a default. -/
def untaggedStringRecord : Ty := .struct [exportedField "S" none (.prim .string)]

/-- The type `struct { P struct { Q bool; R uint } }` with the tags
`default:"true"` on `Q` and `default:"x"` on `R`: the second field of the
nested struct has a malformed default. -/
def failingNestedRecord : Ty :=
  .struct [exportedField "P" none
    (.struct [exportedField "Q" (some "true") (.prim .bool),
      exportedField "R" (some "x") (.prim .uint)])]

/-- The type `struct { L []uint8 }` with the tag `default:"1,x"` on `L`: the
second element of the default is malformed. -/
def sliceRecord : Ty := .struct [exportedField "L" (some "1,x") (.slice (.prim .uint8))]

/-- The type `struct { A int; B int; C bool; D string }` with the tags
`default:"x"`, `default:"5"`, `default:"maybe"` and `default:"hello"`. -/
def mixedRecord : Ty :=
  .struct [exportedField "A" (some "x") (.prim .int),
    exportedField "B" (some "5") (.prim .int),
    exportedField "C" (some "maybe") (.prim .bool),
    exportedField "D" (some "hello") (.prim .string)]

/-- The type `map[string]int`. -/
def stringIntMap : Ty := .map (.prim .string) (.prim .int)

/-- The type `struct { H *string }` with the tag `default:"some default"`. -/
def pointerRecord : Ty :=
  .struct [exportedField "H" (some "some default") (.ptr (.prim .string))]

/-- The method `UnmarshalText` of a declared type `Level` with underlying
type `int`: `low` is 0, `high` is 1, any other text is an error. -/
def levelUnmarshalText (text : String) : Except Err Val :=
  if text = "low" then .ok (.int 0)
  else if text = "high" then .ok (.int 1)
  else .error (.external "Level.UnmarshalText" ("unknown level " ++ text))

/-- The library of the examples with the declared type `Level`, which has the
text-decoding capability above. -/
def levelLib : Lib :=
  { goLib with unmarshalText := fun n => if n = "Level" then some levelUnmarshalText else none }

/-- The declared type `Level`. -/
def levelType : Ty := .named "Level" (.prim .int)

/-- The type `struct { L Level; Ls []Level; A [2]Level; M map[string]Level }`
with the tags `default:"high"`, `default:"low,high"`, `default:"low,high"` and
`default:"a:high"`. -/
def levelRecord : Ty :=
  .struct [exportedField "L" (some "high") levelType,
    exportedField "Ls" (some "low,high") (.slice levelType),
    exportedField "A" (some "low,high") (.array 2 levelType),
    exportedField "M" (some "a:high") (.map (.prim .string) levelType)]

/-- The type `struct { N Name }` with the tag `default:"x"`, where `Name` is
declared as `type Name string`. -/
def derivedStringRecord : Ty :=
  .struct [exportedField "N" (some "x") (.named "Name" (.prim .string))]

/-- The type `struct { G gender }` with the tag `default:"1"`, where `gender`
is declared as `type gender int` (the example of the documentation). -/
def derivedIntRecord : Ty :=
  .struct [exportedField "G" (some "1") (.named "gender" (.prim .int))]

/-- The struct type of `type Node struct { Next *Node }` with the tag
`default:""` on `Next`: the field points to the declared type itself. -/
def nodeStruct : Ty := .struct [exportedField "Next" (some "") (.ptr (.ref "Node"))]

/-- The declared type `Node`. -/
def nodeType : Ty := .named "Node" nodeStruct

/-- The library of the examples with the declaration of `Node`. -/
def nodeLib : Lib :=
  { goLib with typeDecl := fun n => if n = "Node" then some nodeStruct else none }

/-- The slot of a `Node` whose `Next` is nil. -/
def nodeSlot : Value := ⟨nodeType, .struct [.ptr none], true, false⟩

/-- The field `Next` of such a `Node`. -/
def nextSlot : Value := ⟨.ptr (.ref "Node"), .ptr none, true, false⟩

/-- A library in which `time.Parse` reads the text `1982-04-12` with the
layout `time.DateOnly`, as midnight of that day in UTC, and nothing else. -/
def dateLib : Lib :=
  { goLib with
    timeParse := fun layout value =>
      if layout = layoutDateOnly ∧ value = "1982-04-12" then
        .ok (.struct [.uint 0, .int 62523014400, .ptr none])
      else .error (.external "time.Parse" ("cannot parse " ++ value ++ " as " ++ layout)) }

/-- The type `struct { L []int; M map[string]int }` with the tags
`default:"1,x"` and `default:"a:1,bad,c:y"`. -/
def entriesRecord : Ty :=
  .struct [exportedField "L" (some "1,x") (.slice (.prim .int)),
    exportedField "M" (some "a:1,bad,c:y") (.map (.prim .string) (.prim .int))]

/-- The declared type `Name`, with underlying type `string`
(`type Name string`). -/
def nameType : Ty := .named "Name" (.prim .string)

/-- The type `struct { B int; N Name; C bool }` with the tags `default:"5"`,
`default:"x"` and `default:"true"`. -/
def derivedMixedRecord : Ty :=
  .struct [exportedField "B" (some "5") (.prim .int),
    exportedField "N" (some "x") nameType,
    exportedField "C" (some "true") (.prim .bool)]

/-- The type `struct { N int; T time.Time; P struct { Q bool; R uint } }`
with the tags `default:"5"` on `N`, `default:"1982-04-12"` on `T`,
`default:"true"` on `Q` and `default:"42"` on `R`. -/
def keptRecord : Ty :=
  .struct [exportedField "N" (some "5") (.prim .int),
    exportedField "T" (some "1982-04-12") Ty.time,
    exportedField "P" none innerStruct]

/-! ## Lemmas on the decoder -/

namespace Outcome

@[simp] theorem ok_bind {α β : Type} (a : α) (f : α → Outcome β) :
    (Outcome.ok a >>= f) = f a := rfl

@[simp] theorem panic_bind {α β : Type} (m : String) (f : α → Outcome β) :
    ((Outcome.panic m : Outcome α) >>= f) = Outcome.panic m := rfl

@[simp] theorem outOfFuel_bind {α β : Type} (f : α → Outcome β) :
    ((Outcome.outOfFuel : Outcome α) >>= f) = Outcome.outOfFuel := rfl

@[simp] theorem pure_eq {α : Type} (a : α) : (pure a : Outcome α) = Outcome.ok a := rfl

theorem bind_eq_ok {α β : Type} {x : Outcome α} {f : α → Outcome β} {b : β}
    (h : (x >>= f) = Outcome.ok b) : ∃ a, x = Outcome.ok a ∧ f a = Outcome.ok b := by
  cases x with
  | ok a => exact ⟨a, rfl, h⟩
  | panic m => simp at h
  | outOfFuel => simp at h

end Outcome

theorem addErrorsPrefixes_eq_nil {pre : String} {errs : List Err} :
    addErrorsPrefixes pre errs = [] ↔ errs = [] := by
  simp [addErrorsPrefixes]

theorem Value.Set_ok {v : Value} {x : Option Value} {u : Val} (h : v.Set x = .ok u) :
    ∃ y, x = some y ∧ u = y.val ∧ v.ro = false ∧ v.addr = true ∧ y.ro = false
      ∧ y.ty.assignableTo v.ty = true := by
  unfold Value.Set at h
  cases hro : v.ro <;> simp only [hro, if_true, Bool.false_eq_true, if_false] at h
  · cases haddr : v.addr <;> simp [haddr] at h
    cases x with
    | none => simp at h
    | some y =>
      simp only at h
      cases hyro : y.ro <;> simp [hyro] at h
      cases hassign : y.ty.assignableTo v.ty <;> simp [hassign] at h
      refine ⟨y, rfl, h.symm, ?_, ?_, ?_, ?_⟩ <;> first | rfl | assumption
  · simp at h

/-- What one iteration of the loop of `parseStruct` does, read off a normal
return. -/
theorem parseStructField_ok {rec : ParseFn} {target : Value} {overwrite : Bool}
    {f : StructField Ty} {v w : Val} {e : List Err}
    (h : parseStructField rec target overwrite f v = .ok (w, e)) :
    ∃ p, parseField rec target overwrite f v = .ok p
      ∧ e = addErrorsPrefixes f.name p.errs
      ∧ e = fieldErrs rec target overwrite f v
      ∧ (p.errs ≠ [] → w = p.target)
      ∧ (p.errs = [] → ∀ x, p.result = some x → (p.target.isZero = true ∨ overwrite = true) →
          w = x.val)
      ∧ (p.errs = [] → (p.result = none ∨ (p.target.isZero = false ∧ overwrite = false)) →
          w = p.target) := by
  unfold parseStructField at h
  obtain ⟨p, hp, h⟩ := Outcome.bind_eq_ok h
  refine ⟨p, hp, ?_⟩
  have hfe : fieldErrs rec target overwrite f v = addErrorsPrefixes f.name p.errs := by
    simp [fieldErrs, hp]
  rw [hfe]
  by_cases herr : p.errs = []
  · have hlen : ¬ (p.errs.length > 0) := by simp [herr]
    rw [if_neg hlen] at h
    by_cases hcond : (p.result.isSome && (p.target.isZero || overwrite)) = true
    · rw [if_pos hcond] at h
      obtain ⟨u, hu, h⟩ := Outcome.bind_eq_ok h
      simp only [Outcome.pure_eq, Outcome.ok.injEq, Prod.mk.injEq] at h
      obtain ⟨rfl, rfl⟩ := h
      refine ⟨by simp [herr, addErrorsPrefixes], by simp [herr, addErrorsPrefixes],
        fun hne => absurd herr hne, ?_, ?_⟩
      · intro _ x hx _
        obtain ⟨y, hy, huy, _⟩ := Value.Set_ok hu
        rw [hx] at hy
        cases hy
        exact huy
      · intro _ hor
        rcases hor with hnone | ⟨hz, ho⟩
        · simp [hnone] at hcond
        · simp [hz, ho] at hcond
    · rw [if_neg hcond] at h
      simp only [Outcome.pure_eq, Outcome.ok.injEq, Prod.mk.injEq] at h
      obtain ⟨rfl, rfl⟩ := h
      refine ⟨by simp [herr, addErrorsPrefixes], by simp [herr, addErrorsPrefixes],
        fun _ => rfl, ?_, fun _ _ => rfl⟩
      intro _ x hx hor
      exfalso
      apply hcond
      rcases hor with hz | ho
      · simp [hx, hz]
      · simp [hx, ho]
  · have hlen : p.errs.length > 0 := List.length_pos.mpr herr
    rw [if_pos hlen] at h
    simp only [Outcome.pure_eq, Outcome.ok.injEq, Prod.mk.injEq] at h
    obtain ⟨rfl, rfl⟩ := h
    exact ⟨rfl, rfl, fun _ => rfl, fun he => absurd he herr, fun he => absurd he herr⟩

/-- What the loop of `parseStruct` does, read off a normal return: every
field went through one iteration, and the errors are those of the fields, in
declaration order. -/
theorem parseStructLoop_ok {rec : ParseFn} {target : Value} {overwrite : Bool} :
    ∀ {fields : List (StructField Ty)} {vals out : List Val} {errs : List Err},
    parseStructLoop rec target overwrite fields vals = .ok (out, errs) →
    fields.length = vals.length ∧ out.length = vals.length
      ∧ errs = (List.zipWith (fieldErrs rec target overwrite) fields vals).flatten
      ∧ ∀ (i : Nat) (f : StructField Ty) (v : Val), fields[i]? = some f → vals[i]? = some v →
          ∃ (w : Val) (e : List Err),
            parseStructField rec target overwrite f v = .ok (w, e) ∧ out[i]? = some w
  | [], [], out, errs, h => by
    simp only [parseStructLoop, Outcome.ok.injEq, Prod.mk.injEq] at h
    obtain ⟨rfl, rfl⟩ := h
    simp
  | [], _ :: _, out, errs, h => by simp [parseStructLoop] at h
  | _ :: _, [], out, errs, h => by simp [parseStructLoop] at h
  | f :: fields, v :: vals, out, errs, h => by
    simp only [parseStructLoop] at h
    obtain ⟨⟨w, e⟩, hstep, h⟩ := Outcome.bind_eq_ok h
    obtain ⟨⟨ws, es⟩, hrest, h⟩ := Outcome.bind_eq_ok h
    simp only [Outcome.pure_eq, Outcome.ok.injEq, Prod.mk.injEq] at h
    obtain ⟨rfl, rfl⟩ := h
    obtain ⟨hl1, hl2, herrs, hall⟩ := parseStructLoop_ok hrest
    obtain ⟨p, _, _, he, _⟩ := parseStructField_ok hstep
    refine ⟨by simp [hl1], by simp [hl2], by simp [herrs, he], ?_⟩
    intro i f' v' hf hv
    cases i with
    | zero =>
      simp only [List.getElem?_cons_zero, Option.some.injEq] at hf hv
      subst hf; subst hv
      exact ⟨w, e, hstep, by simp⟩
    | succ i =>
      simp only [List.getElem?_cons_succ] at hf hv
      obtain ⟨w', e', h1, h2⟩ := hall i f' v' hf hv
      exact ⟨w', e', h1, by simpa using h2⟩

/-! ### What `parse` returns and what it leaves in its target -/

theorem parseSpecific_noDefault (lib : Lib) (target : Value) (value : String) :
    ∃ b, parseSpecific lib target value false = (none, b, []) := by
  unfold parseSpecific
  split
  · exact ⟨true, by simp⟩
  · split
    · exact ⟨true, by simp⟩
    · split
      · exact ⟨true, by simp⟩
      · split
        · exact ⟨true, by simp⟩
        · exact ⟨false, rfl⟩

theorem parseSpecific_result {lib : Lib} {target : Value} {value : String}
    {result : Option Value} {errs : List Err}
    (h : parseSpecific lib target value true = (result, true, errs)) :
    result.isSome = true := by
  unfold parseSpecific at h
  split at h
  · simp only [if_true, Prod.mk.injEq] at h
    rw [← h.1]; rfl
  · split at h
    · simp only [if_true] at h
      split at h <;> (simp only [Prod.mk.injEq] at h; rw [← h.1]; rfl)
    · split at h
      · simp only [if_true] at h
        split at h <;> (simp only [Prod.mk.injEq] at h; rw [← h.1]; rfl)
      · split at h
        · simp only [if_true, Prod.mk.injEq] at h
          rw [← h.1]; rfl
        · simp at h

theorem parseWithError_ok {T : Type} {target : Value} {fct : String → Except Err T}
    {convert : T → Val} {value : String} {hasDefault : Bool} {p : Parsed}
    (h : parseWithError target fct convert value hasDefault = .ok p) :
    p.target = target.val ∧ (hasDefault = false → p.result = none ∧ p.errs = [])
      ∧ (hasDefault = true → p.errs = [] → p.result.isSome = true) := by
  unfold parseWithError at h
  cases hasDefault
  · simp only [Bool.not_false, if_true, Outcome.ok.injEq] at h
    subst h; simp
  · simp only [Bool.not_true, Bool.false_eq_true, if_false] at h
    split at h <;> (simp only [Outcome.ok.injEq] at h; subst h; simp)

theorem parseWithErrorI_ok {T : Type} {target : Value} {fct : String → Nat → Except Err T}
    {convert : T → Val} {value : String} {arg : Nat} {hasDefault : Bool} {p : Parsed}
    (h : parseWithErrorI target fct convert value arg hasDefault = .ok p) :
    p.target = target.val ∧ (hasDefault = false → p.result = none ∧ p.errs = [])
      ∧ (hasDefault = true → p.errs = [] → p.result.isSome = true) := by
  unfold parseWithErrorI at h
  cases hasDefault
  · simp only [Bool.not_false, if_true, Outcome.ok.injEq] at h
    subst h; simp
  · simp only [Bool.not_true, Bool.false_eq_true, if_false] at h
    split at h <;> (simp only [Outcome.ok.injEq] at h; subst h; simp)

theorem parseWithErrorII_ok {T : Type} {target : Value}
    {fct : String → Nat → Nat → Except Err T}
    {convert : T → Val} {value : String} {arg1 arg2 : Nat} {hasDefault : Bool} {p : Parsed}
    (h : parseWithErrorII target fct convert value arg1 arg2 hasDefault = .ok p) :
    p.target = target.val ∧ (hasDefault = false → p.result = none ∧ p.errs = [])
      ∧ (hasDefault = true → p.errs = [] → p.result.isSome = true) := by
  unfold parseWithErrorII at h
  cases hasDefault
  · simp only [Bool.not_false, if_true, Outcome.ok.injEq] at h
    subst h; simp
  · simp only [Bool.not_true, Bool.false_eq_true, if_false] at h
    split at h <;> (simp only [Outcome.ok.injEq] at h; subst h; simp)

theorem parseArray_ok {lib : Lib} {rec : ParseFn} {target : Value} {value : String}
    {hasDefault : Bool} {p : Parsed}
    (h : parseArray lib rec target value hasDefault = .ok p) :
    p.target = target.val ∧ (hasDefault = false → p.result = none ∧ p.errs = [])
      ∧ (hasDefault = true → p.errs = [] → p.result.isSome = true) := by
  unfold parseArray at h
  cases hasDefault
  · simp only [Bool.not_false, if_true, Outcome.ok.injEq] at h
    subst h; simp
  · simp only [Bool.not_true, Bool.false_eq_true, if_false] at h
    split at h
    · simp only [Outcome.ok.injEq] at h
      subst h; simp
    · obtain ⟨⟨elems, errs⟩, _, h⟩ := Outcome.bind_eq_ok h
      simp only [Outcome.pure_eq, Outcome.ok.injEq] at h
      subst h; simp

theorem parseSlice_ok {lib : Lib} {rec : ParseFn} {target : Value} {value : String}
    {hasDefault : Bool} {p : Parsed}
    (h : parseSlice lib rec target value hasDefault = .ok p) :
    p.target = target.val ∧ (hasDefault = false → p.result = none ∧ p.errs = [])
      ∧ (hasDefault = true → p.errs = [] → p.result.isSome = true) := by
  unfold parseSlice at h
  cases hasDefault
  · simp only [Bool.not_false, if_true, Outcome.ok.injEq] at h
    subst h; simp
  · simp only [Bool.not_true, Bool.false_eq_true, if_false] at h
    obtain ⟨⟨elems, errs⟩, _, h⟩ := Outcome.bind_eq_ok h
    simp only [Outcome.pure_eq, Outcome.ok.injEq] at h
    subst h; simp

theorem parseMap_ok {lib : Lib} {rec : ParseFn} {target : Value} {value : String}
    {hasDefault : Bool} {p : Parsed}
    (h : parseMap lib rec target value hasDefault = .ok p) :
    p.target = target.val ∧ (hasDefault = false → p.result = none ∧ p.errs = [])
      ∧ (hasDefault = true → p.errs = [] → p.result.isSome = true) := by
  unfold parseMap at h
  cases hasDefault
  · simp only [Bool.not_false, if_true, Outcome.ok.injEq] at h
    subst h; simp
  · simp only [Bool.not_true, Bool.false_eq_true, if_false] at h
    obtain ⟨⟨elems, errs⟩, _, h⟩ := Outcome.bind_eq_ok h
    simp only [Outcome.pure_eq, Outcome.ok.injEq] at h
    subst h; simp

theorem makeChan_ok {lib : Lib} {target : Value} {value : String}
    {hasDefault : Bool} {p : Parsed}
    (h : makeChan lib target value hasDefault = .ok p) :
    p.target = target.val ∧ (hasDefault = false → p.result = none ∧ p.errs = [])
      ∧ (hasDefault = true → p.errs = [] → p.result.isSome = true) := by
  unfold makeChan at h
  cases hasDefault
  · simp only [Bool.not_false, if_true, Outcome.ok.injEq] at h
    subst h; simp
  · simp only [Bool.not_true, Bool.false_eq_true, if_false] at h
    split at h
    · simp only [Outcome.ok.injEq] at h
      subst h; simp
    · split at h
      · simp only [Outcome.ok.injEq] at h
        subst h; simp
      · split at h
        · simp at h
        · simp only [Outcome.ok.injEq] at h
          subst h; simp

theorem parsePointerResult_ok {pointedType : Ty} {target : Val} {result : Option Value}
    {p : Parsed} (h : parsePointerResult pointedType target result = .ok p) :
    p.target = target ∧ p.result.isSome = true ∧ p.errs = [] := by
  unfold parsePointerResult at h
  obtain ⟨v, _, h⟩ := Outcome.bind_eq_ok h
  simp only [Outcome.pure_eq, Outcome.ok.injEq] at h
  subst h; simp

theorem parsePointer_ok {lib : Lib} {rec : ParseFn} {target : Value} {value : String}
    {hasDefault overwrite : Bool} {p : Parsed}
    (h : parsePointer lib rec target value hasDefault overwrite = .ok p) :
    ((target.val = .ptr none ∨ overwrite = false) → p.target = target.val)
      ∧ (hasDefault = false → p.target = target.val ∧ p.result = none ∧ p.errs = [])
      ∧ (hasDefault = true → overwrite = true → p.errs = [] → p.result.isSome = true) := by
  unfold parsePointer at h
  cases hasDefault
  · simp only [Bool.not_false, if_true, Outcome.ok.injEq] at h
    subst h; simp
  · simp only [Bool.not_true, Bool.false_eq_true, if_false] at h
    split at h
    · rename_i hnil
      obtain ⟨r, _, h⟩ := Outcome.bind_eq_ok h
      split at h
      · rename_i hlen
        simp only [Outcome.pure_eq, Outcome.ok.injEq] at h
        subst h
        refine ⟨fun _ => rfl, by simp, ?_⟩
        intro _ _ he
        simp only at he
        simp [he] at hlen
      · obtain ⟨h1, h2, h3⟩ := parsePointerResult_ok h
        exact ⟨fun _ => h1, by simp, fun _ _ _ => h2⟩
    · rename_i pointee hsome
      cases overwrite
      · simp only [Bool.not_false, if_true, Outcome.ok.injEq] at h
        subst h; simp
      · simp only [Bool.not_true, Bool.false_eq_true, if_false] at h
        obtain ⟨r, _, h⟩ := Outcome.bind_eq_ok h
        split at h
        · rename_i hlen
          simp only [Outcome.pure_eq, Outcome.ok.injEq] at h
          subst h
          refine ⟨?_, by simp, ?_⟩
          · intro hor
            rcases hor with hn | ho
            · rw [hsome] at hn; cases hn
            · cases ho
          · intro _ _ he
            simp only at he
            simp [he] at hlen
        · obtain ⟨h1, h2, h3⟩ := parsePointerResult_ok h
          refine ⟨?_, by simp, fun _ _ _ => h2⟩
          intro hor
          rcases hor with hn | ho
          · rw [hsome] at hn; cases hn
          · cases ho
    · simp at h

theorem parseStruct_ok {rec : ParseFn} {target : Value} {overwrite : Bool} {p : Parsed}
    (h : parseStruct rec target overwrite = .ok p) :
    ∃ vals out, target.val = .struct vals
      ∧ parseStructLoop rec target overwrite target.ty.fields vals = .ok (out, p.errs)
      ∧ p.target = .struct out
      ∧ p.result = some ⟨target.ty, .struct out, target.addr, target.ro⟩ := by
  unfold parseStruct at h
  split at h
  · rename_i vals hvals
    obtain ⟨⟨out, errs⟩, hloop, h⟩ := Outcome.bind_eq_ok h
    simp only [Outcome.pure_eq, Outcome.ok.injEq] at h
    subst h
    exact ⟨vals, out, hvals, hloop, rfl, rfl⟩
  · simp at h

theorem parseKind_target {lib : Lib} {rec : ParseFn} {target : Value} {value : String}
    {hasDefault overwrite : Bool} {p : Parsed}
    (h : parseKind lib rec target value hasDefault overwrite = .ok p)
    (hstruct : target.ty.kind ≠ .struct)
    (hptr : target.ty.kind = .pointer → target.val = .ptr none ∨ overwrite = false) :
    p.target = target.val := by
  unfold parseKind at h
  split at h
  all_goals first
    | exact (parseWithError_ok h).1
    | exact (parseWithErrorI_ok h).1
    | exact (parseWithErrorII_ok h).1
    | exact (parseArray_ok h).1
    | exact (parseSlice_ok h).1
    | exact (parseMap_ok h).1
    | exact (makeChan_ok h).1
    | (rename_i hk; exact (parsePointer_ok h).1 (hptr hk))
    | (rename_i hk; exact absurd hk hstruct)
    | (simp only [Outcome.ok.injEq] at h; subst h; rfl)

theorem parseKind_result {lib : Lib} {rec : ParseFn} {target : Value} {value : String}
    {p : Parsed}
    (h : parseKind lib rec target value true true = .ok p) (herrs : p.errs = []) :
    p.result.isSome = true := by
  unfold parseKind at h
  split at h
  all_goals first
    | exact (parseWithError_ok h).2.2 rfl herrs
    | exact (parseWithErrorI_ok h).2.2 rfl herrs
    | exact (parseWithErrorII_ok h).2.2 rfl herrs
    | exact (parseArray_ok h).2.2 rfl herrs
    | exact (parseSlice_ok h).2.2 rfl herrs
    | exact (parseMap_ok h).2.2 rfl herrs
    | exact (makeChan_ok h).2.2 rfl herrs
    | exact (parsePointer_ok h).2.2 rfl rfl herrs
    | (simp only [Outcome.ok.injEq] at h; subst h; first | rfl | simp at herrs)
    | exact (parseStruct_ok h).elim fun _ hx => hx.elim fun _ hy => by rw [hy.2.2.2]; rfl

theorem parseKind_noDefault (lib : Lib) (rec : ParseFn) (target : Value) (value : String)
    (overwrite : Bool) (hk : target.ty.kind.decoderChecksDefault = true) :
    parseKind lib rec target value false overwrite = .ok ⟨target.val, none, []⟩ := by
  unfold parseKind
  cases hkind : target.ty.kind <;> rw [hkind] at hk <;>
    first
      | (exact absurd hk (by decide))
      | simp [parseWithError, parseWithErrorI, parseWithErrorII, parseArray, parseSlice,
          parseMap, makeChan, parsePointer]

theorem parseBody_target {lib : Lib} {rec : ParseFn} {target : Value} {value : String}
    {hasDefault overwrite : Bool} {p : Parsed}
    (h : parseBody lib rec target value hasDefault overwrite = .ok p)
    (hstruct : target.ty.kind ≠ .struct)
    (hptr : target.ty.kind = .pointer → target.val = .ptr none ∨ overwrite = false) :
    p.target = target.val := by
  unfold parseBody at h
  split at h
  · simp only [Outcome.ok.injEq] at h
    subst h; rfl
  · split at h
    · split at h <;> (simp only [Outcome.ok.injEq] at h; subst h; rfl)
    · exact parseKind_target h hstruct hptr

theorem parseBody_result {lib : Lib} {rec : ParseFn} {target : Value} {value : String}
    {p : Parsed}
    (h : parseBody lib rec target value true true = .ok p) (herrs : p.errs = []) :
    p.result.isSome = true := by
  unfold parseBody at h
  split at h
  · rename_i result errs hsp
    simp only [Outcome.ok.injEq] at h
    subst h
    exact parseSpecific_result hsp
  · split at h
    · split at h
      · simp only [Outcome.ok.injEq] at h
        subst h; simp at herrs
      · simp only [Outcome.ok.injEq] at h
        subst h; rfl
    · exact parseKind_result h herrs

theorem parse_target {lib : Lib} {fuel : Nat} {target : Value} {value : String}
    {hasDefault overwrite : Bool} {p : Parsed}
    (h : parse lib fuel target value hasDefault overwrite = .ok p)
    (hstruct : target.ty.kind ≠ .struct)
    (hptr : target.ty.kind = .pointer → target.val = .ptr none ∨ overwrite = false) :
    p.target = target.val := by
  cases fuel with
  | zero => simp [parse] at h
  | succ n => exact parseBody_target h hstruct hptr

theorem parse_result {lib : Lib} {fuel : Nat} {target : Value} {value : String} {p : Parsed}
    (h : parse lib fuel target value true true = .ok p) (herrs : p.errs = []) :
    p.result.isSome = true := by
  cases fuel with
  | zero => simp [parse] at h
  | succ n => exact parseBody_result h herrs

theorem resolve_of_kind {lib : Lib} {ty : Ty} (hk : ty.kind = .struct) : lib.resolve ty = ty := by
  cases ty <;> first | rfl | (simp [Ty.kind] at hk)

theorem apply_ok {lib : Lib} {fuel : Nat} {ty : Ty} {vals : List Val} {overwrite : Bool}
    {out : Applied} (hk : ty.kind = .struct)
    (h : apply lib fuel (pointerTo ty (.struct vals)) overwrite = .ok out) :
    ∃ vals' errs,
      parseStructLoop (parse lib fuel) (recordOf ty vals) overwrite ty.fields vals
        = .ok (vals', errs)
      ∧ out.target = pointerTo ty (.struct vals') ∧ out.err = errorsJoin errs := by
  have helem : lib.elem (.ptr ty) = ty := by
    simp [Lib.elem, Ty.rawElem, Ty.underlying, resolve_of_kind hk]
  simp only [apply, pointerTo, valueOf, Ty.kind, ne_eq, not_true_eq_false, if_false, helem, hk]
    at h
  obtain ⟨r, hr, h⟩ := Outcome.bind_eq_ok h
  obtain ⟨vals0, out0, hv, hloop, htarget, _⟩ := parseStruct_ok hr
  simp only [Val.struct.injEq] at hv
  subst hv
  simp only [Outcome.pure_eq, Outcome.ok.injEq] at h
  subst h
  exact ⟨out0, r.errs, hloop, by simp [pointerTo, valueOf, htarget], rfl⟩

theorem fieldsErrs_split (rec : ParseFn) (target : Value) (overwrite : Bool) :
    ∀ {i : Nat} {fields : List (StructField Ty)} {vals : List Val} {f : StructField Ty}
      {v : Val}, fields[i]? = some f → vals[i]? = some v →
      fieldsErrs rec target overwrite fields vals
        = fieldsErrs rec target overwrite (fields.take i) (vals.take i)
          ++ fieldErrs rec target overwrite f v
          ++ fieldsErrs rec target overwrite (fields.drop (i + 1)) (vals.drop (i + 1))
  | _, [], _, _, _, hf, _ => by simp at hf
  | _, _ :: _, [], _, _, _, hv => by simp at hv
  | 0, f' :: fields, v' :: vals, f, v, hf, hv => by
    simp only [List.getElem?_cons_zero, Option.some.injEq] at hf hv
    subst hf; subst hv
    simp [fieldsErrs]
  | i + 1, f' :: fields, v' :: vals, f, v, hf, hv => by
    simp only [List.getElem?_cons_succ] at hf hv
    have ih := fieldsErrs_split rec target overwrite hf hv
    simp only [fieldsErrs] at ih ⊢
    simp [ih]

/-- What `apply` does to a record, read off a normal return: every field
went through one iteration of the loop of `parseStruct`. -/
theorem apply_fields {lib : Lib} {fuel : Nat} {ty : Ty} {vals : List Val} {overwrite : Bool}
    {out : Applied} (hk : ty.kind = .struct)
    (h : apply lib fuel (pointerTo ty (.struct vals)) overwrite = .ok out) :
    ∃ vals', out.target = pointerTo ty (.struct vals') ∧ vals'.length = vals.length
      ∧ out.err = errorsJoin
          (fieldsErrs (parse lib fuel) (recordOf ty vals) overwrite ty.fields vals)
      ∧ ∀ (i : Nat) (f : StructField Ty) (v : Val), ty.fields[i]? = some f → vals[i]? = some v →
          ∃ (w : Val) (p : Parsed), vals'[i]? = some w
            ∧ parseField (parse lib fuel) (recordOf ty vals) overwrite f v = .ok p
            ∧ fieldErrs (parse lib fuel) (recordOf ty vals) overwrite f v
                = addErrorsPrefixes f.name p.errs
            ∧ (p.errs ≠ [] → w = p.target)
            ∧ (p.errs = [] → ∀ x, p.result = some x →
                (p.target.isZero = true ∨ overwrite = true) → w = x.val)
            ∧ (p.errs = [] →
                (p.result = none ∨ (p.target.isZero = false ∧ overwrite = false)) →
                w = p.target) := by
  obtain ⟨vals', errs, hloop, htarget, herr⟩ := apply_ok hk h
  obtain ⟨_, hlen, herrs, hall⟩ := parseStructLoop_ok hloop
  refine ⟨vals', htarget, hlen, by rw [herr, herrs]; rfl, ?_⟩
  intro i f v hf hv
  obtain ⟨w, e, hstep, hw⟩ := hall i f v hf hv
  obtain ⟨p, hp, he1, he2, h1, h2, h3⟩ := parseStructField_ok hstep
  exact ⟨w, p, hw, hp, by rw [← he2, he1], h1, h2, h3⟩

theorem parsePointer_present {lib : Lib} {rec : ParseFn} {target : Value} {value : String}
    {hasDefault : Bool} {p : Parsed} {pointee : Val}
    (h : parsePointer lib rec target value hasDefault true = .ok p)
    (hval : target.val = .ptr (some pointee)) :
    p.target = target.val
      ∨ ∃ r, rec ⟨lib.elem target.ty, pointee, true, target.ro⟩ value hasDefault true = .ok r
          ∧ p.target = .ptr (some r.target) := by
  unfold parsePointer at h
  cases hasDefault
  · simp only [Bool.not_false, if_true, Outcome.ok.injEq] at h
    subst h; exact Or.inl rfl
  · simp only [Bool.not_true, Bool.false_eq_true, if_false, hval] at h
    obtain ⟨r, hr, h⟩ := Outcome.bind_eq_ok h
    refine Or.inr ⟨r, hr, ?_⟩
    split at h
    · simp only [Outcome.pure_eq, Outcome.ok.injEq] at h
      subst h; rfl
    · exact (parsePointerResult_ok h).1

theorem parse_keeps_target {lib : Lib} :
    ∀ (fuel : Nat) {target : Value} {value : String} {hasDefault overwrite : Bool}
      {p : Parsed}, parse lib fuel target value hasDefault overwrite = .ok p →
      decodesInPlace lib overwrite target.ty target.val = false → p.target = target.val
  | 0, _, _, _, _, _, h, _ => by simp [parse] at h
  | fuel + 1, target, value, hasDefault, overwrite, p, h, hin => by
    have hbody : parseBody lib (parse lib fuel) target value hasDefault overwrite = .ok p := h
    by_cases hstruct : target.ty.kind = .struct
    · -- a struct that is decoded by `parseStruct` is decoded in place
      unfold parseBody at hbody
      split at hbody
      · simp only [Outcome.ok.injEq] at hbody
        subst hbody; rfl
      · split at hbody
        · split at hbody <;> (simp only [Outcome.ok.injEq] at hbody; subst hbody; rfl)
        · unfold parseKind at hbody
          rw [hstruct] at hbody
          obtain ⟨vals, _, hv, _⟩ := parseStruct_ok hbody
          rw [hv] at hin
          simp [decodesInPlace, hstruct] at hin
    · by_cases hcase : target.ty.kind = .pointer → target.val = .ptr none ∨ overwrite = false
      · exact parseBody_target hbody hstruct hcase
      · have hk : target.ty.kind = .pointer := by
          by_contra hk
          exact hcase (fun h' => absurd h' hk)
        have hnot : ¬ (target.val = .ptr none ∨ overwrite = false) := fun h' => hcase (fun _ => h')
        have how : overwrite = true := by
          cases overwrite
          · exact absurd (Or.inr rfl) hnot
          · rfl
        subst how
        unfold parseBody at hbody
        split at hbody
        · simp only [Outcome.ok.injEq] at hbody
          subst hbody; rfl
        · split at hbody
          · split at hbody <;> (simp only [Outcome.ok.injEq] at hbody; subst hbody; rfl)
          · unfold parseKind at hbody
            rw [hk] at hbody
            simp only at hbody
            cases hv : target.val with
            | ptr pointee =>
              cases pointee with
              | none => exact absurd (Or.inl hv) hnot
              | some pointee =>
                rcases parsePointer_present hbody hv with hsame | ⟨r, hr, hpt⟩
                · rw [hsame, hv]
                · rw [hv] at hin
                  simp only [decodesInPlace, hk, beq_self_eq_true, Bool.and_self,
                    Bool.true_and] at hin
                  have := parse_keeps_target fuel hr hin
                  rw [hpt, this]
            | _ =>
              unfold parsePointer at hbody
              rw [hv] at hbody
              cases hasDefault
              · simp only [Bool.not_false, if_true, Outcome.ok.injEq] at hbody
                subst hbody; rfl
              · simp at hbody

/-! ## Lemmas on the list lexer -/

theorem asListLoop_ne_nil (cs : List Char) (result : List String) (current : String)
    (escaped : Bool) : asListLoop cs result current escaped ≠ [] := by
  induction cs generalizing result current escaped with
  | nil => simp [asListLoop]
  | cons c cs ih =>
    unfold asListLoop
    split
    · exact ih _ _ _
    · split
      · exact ih _ _ _
      · split <;> exact ih _ _ _

theorem asListLoop_plain (cs : List Char) (h : ∀ c ∈ cs, c ≠ ',' ∧ c ≠ '\\')
    (result : List String) (current : String) :
    asListLoop cs result current false = result ++ [String.mk (current.data ++ cs)] := by
  induction cs generalizing current with
  | nil => simp [asListLoop]
  | cons c cs ih =>
    have hc := h c (List.mem_cons_self _ _)
    have hcs : ∀ d ∈ cs, d ≠ ',' ∧ d ≠ '\\' := fun d hd => h d (List.mem_cons_of_mem _ hd)
    simp [asListLoop, hc.1, hc.2, ih hcs, String.push]

theorem asListLoop_escaped (field : List Char) (h : ∀ c ∈ field, c ≠ '\\')
    (rest : List Char) (result : List String) (current : String) :
    asListLoop (escapeCommas field ++ rest) result current false
      = asListLoop rest result (String.mk (current.data ++ field)) false := by
  induction field generalizing current with
  | nil => simp [escapeCommas]
  | cons c cs ih =>
    have hc := h c (List.mem_cons_self _ _)
    have hcs : ∀ d ∈ cs, d ≠ '\\' := fun d hd => h d (List.mem_cons_of_mem _ hd)
    by_cases hcomma : c = ','
    · subst hcomma
      simp [escapeCommas, asListLoop, ih hcs, String.push]
    · simp [escapeCommas, asListLoop, hc, hcomma, ih hcs, String.push]

theorem asListLoop_joinEscaped (fields : List String) (hne : fields ≠ [])
    (h : ∀ f ∈ fields, ∀ c ∈ f.data, c ≠ '\\') (result : List String) :
    asListLoop (joinEscapedChars fields) result "" false = result ++ fields := by
  induction fields generalizing result with
  | nil => exact absurd rfl hne
  | cons f rest ih =>
    cases rest with
    | nil =>
      have := asListLoop_escaped f.data (h f (List.mem_cons_self _ _)) [] result ""
      simp only [List.append_nil] at this
      simp [joinEscapedChars, this, asListLoop]
    | cons g rest =>
      have hf := asListLoop_escaped f.data (h f (List.mem_cons_self _ _))
        (',' :: joinEscapedChars (g :: rest)) result ""
      have hrest : ∀ f' ∈ g :: rest, ∀ c ∈ f'.data, c ≠ '\\' :=
        fun f' hf' => h f' (List.mem_cons_of_mem _ hf')
      simp [joinEscapedChars, hf, asListLoop, ih (by simp) hrest]

theorem asList_joinEscaped (fields : List String) (hne : fields ≠ [])
    (h : ∀ f ∈ fields, ∀ c ∈ f.data, c ≠ '\\') : asList (joinEscaped fields) = fields := by
  simpa [asList, joinEscaped] using asListLoop_joinEscaped fields hne h []

/-! ## Lemmas on fuel -/

theorem Outcome.bind_mono {α β : Type} {x x' : Outcome α} {f f' : α → Outcome β} {b : β}
    (hx : ∀ a, x = .ok a → x' = .ok a) (hf : ∀ a c, f a = .ok c → f' a = .ok c)
    (h : (x >>= f) = .ok b) : (x' >>= f') = .ok b := by
  obtain ⟨a, ha, hb⟩ := Outcome.bind_eq_ok h
  rw [hx a ha]
  exact hf a b hb

theorem parseListLoop_mono {rec rec' : ParseFn} (hle : ParseFn.le rec rec') (itemsType : Ty) :
    ∀ (defaults : List String) (i : Nat) (result : List Val) (errs : List Err)
      (out : List Val × List Err),
      parseListLoop rec itemsType i defaults result errs = .ok out →
      parseListLoop rec' itemsType i defaults result errs = .ok out
  | [], _, _, _, _, h => by simpa [parseListLoop] using h
  | d :: rest, i, result, errs, out, h => by
    simp only [parseListLoop] at h ⊢
    refine Outcome.bind_mono (hle _ _ _ _) ?_ h
    intro r c hc
    split at hc
    · rename_i hlen
      rw [if_pos hlen]
      exact parseListLoop_mono hle itemsType rest _ _ _ _ hc
    · rename_i hlen
      rw [if_neg hlen]
      refine Outcome.bind_mono (fun _ h' => h') ?_ hc
      intro v c' hc'
      exact parseListLoop_mono hle itemsType rest _ _ _ _ hc'


theorem parseArray_mono {lib : Lib} {rec rec' : ParseFn} (hle : ParseFn.le rec rec')
    {target : Value} {value : String} {hasDefault : Bool} {p : Parsed}
    (h : parseArray lib rec target value hasDefault = .ok p) :
    parseArray lib rec' target value hasDefault = .ok p := by
  unfold parseArray at h ⊢
  cases hasDefault
  · exact h
  · simp only [Bool.not_true, Bool.false_eq_true, if_false] at h ⊢
    split at h
    · rename_i hlen
      rw [if_pos hlen]
      exact h
    · rename_i hlen
      rw [if_neg hlen]
      exact Outcome.bind_mono (fun a ha => parseListLoop_mono hle _ _ _ _ _ a ha)
        (fun _ _ hc => hc) h

theorem parseSlice_mono {lib : Lib} {rec rec' : ParseFn} (hle : ParseFn.le rec rec')
    {target : Value} {value : String} {hasDefault : Bool} {p : Parsed}
    (h : parseSlice lib rec target value hasDefault = .ok p) :
    parseSlice lib rec' target value hasDefault = .ok p := by
  unfold parseSlice at h ⊢
  cases hasDefault
  · exact h
  · simp only [Bool.not_true, Bool.false_eq_true, if_false] at h ⊢
    exact Outcome.bind_mono (fun a ha => parseListLoop_mono hle _ _ _ _ _ a ha)
      (fun _ _ hc => hc) h

theorem parseMapLoop_mono {lib : Lib} {rec rec' : ParseFn} (hle : ParseFn.le rec rec')
    (keyType valueType : Ty) :
    ∀ (defaults : List String) (i : Nat) (result : List (Val × Val)) (errs : List Err)
      (out : List (Val × Val) × List Err),
      parseMapLoop lib rec keyType valueType i defaults result errs = .ok out →
      parseMapLoop lib rec' keyType valueType i defaults result errs = .ok out
  | [], _, _, _, _, h => by simpa [parseMapLoop] using h
  | d :: rest, i, result, errs, out, h => by
    simp only [parseMapLoop] at h ⊢
    split
    · rename_i hsplit
      simp only [hsplit] at h
      exact parseMapLoop_mono hle keyType valueType rest _ _ _ _ h
    · rename_i k v hsplit
      simp only [hsplit] at h
      refine Outcome.bind_mono (hle _ _ _ _) ?_ h
      intro key c hc
      refine Outcome.bind_mono (hle _ _ _ _) ?_ hc
      intro val c' hc'
      split at hc'
      · rename_i hfail
        rw [if_pos hfail]
        exact parseMapLoop_mono hle keyType valueType rest _ _ _ _ hc'
      · rename_i hfail
        rw [if_neg hfail]
        refine Outcome.bind_mono (fun _ h' => h') ?_ hc'
        intro entries c'' hc''
        exact parseMapLoop_mono hle keyType valueType rest _ _ _ _ hc''

theorem parseMap_mono {lib : Lib} {rec rec' : ParseFn} (hle : ParseFn.le rec rec')
    {target : Value} {value : String} {hasDefault : Bool} {p : Parsed}
    (h : parseMap lib rec target value hasDefault = .ok p) :
    parseMap lib rec' target value hasDefault = .ok p := by
  unfold parseMap at h ⊢
  cases hasDefault
  · exact h
  · simp only [Bool.not_true, Bool.false_eq_true, if_false] at h ⊢
    exact Outcome.bind_mono (fun a ha => parseMapLoop_mono hle _ _ _ _ _ _ a ha)
      (fun _ _ hc => hc) h

theorem parseStructField_mono {rec rec' : ParseFn} (hle : ParseFn.le rec rec')
    {target : Value} {overwrite : Bool} {f : StructField Ty} {v : Val}
    {out : Val × List Err}
    (h : parseStructField rec target overwrite f v = .ok out) :
    parseStructField rec' target overwrite f v = .ok out := by
  unfold parseStructField at h ⊢
  exact Outcome.bind_mono (hle _ _ _ _) (fun _ _ hc => hc) h

theorem parseStructLoop_mono {rec rec' : ParseFn} (hle : ParseFn.le rec rec')
    (target : Value) (overwrite : Bool) :
    ∀ (fields : List (StructField Ty)) (vals : List Val) (out : List Val × List Err),
      parseStructLoop rec target overwrite fields vals = .ok out →
      parseStructLoop rec' target overwrite fields vals = .ok out
  | [], [], _, h => by simpa [parseStructLoop] using h
  | [], _ :: _, _, h => by simp [parseStructLoop] at h
  | _ :: _, [], _, h => by simp [parseStructLoop] at h
  | f :: fields, v :: vals, out, h => by
    simp only [parseStructLoop] at h ⊢
    refine Outcome.bind_mono (fun a ha => parseStructField_mono hle ha) ?_ h
    intro a c hc
    exact Outcome.bind_mono (fun b hb => parseStructLoop_mono hle target overwrite _ _ b hb)
      (fun _ _ hd => hd) hc

theorem parseStruct_mono {rec rec' : ParseFn} (hle : ParseFn.le rec rec')
    {target : Value} {overwrite : Bool} {p : Parsed}
    (h : parseStruct rec target overwrite = .ok p) :
    parseStruct rec' target overwrite = .ok p := by
  unfold parseStruct at h ⊢
  cases hv : target.val with
  | struct vals =>
    simp only [hv] at h ⊢
    exact Outcome.bind_mono (fun a ha => parseStructLoop_mono hle _ _ _ _ a ha)
      (fun _ _ hc => hc) h
  | _ => simp [hv] at h

theorem parsePointer_mono {lib : Lib} {rec rec' : ParseFn} (hle : ParseFn.le rec rec')
    {target : Value} {value : String} {hasDefault overwrite : Bool} {p : Parsed}
    (h : parsePointer lib rec target value hasDefault overwrite = .ok p) :
    parsePointer lib rec' target value hasDefault overwrite = .ok p := by
  unfold parsePointer at h ⊢
  cases hasDefault
  · exact h
  · simp only [Bool.not_true, Bool.false_eq_true, if_false] at h ⊢
    cases hv : target.val with
    | ptr pointee =>
      cases pointee with
      | none =>
        simp only [hv] at h ⊢
        exact Outcome.bind_mono (hle _ _ _ _) (fun _ _ hc => hc) h
      | some pointee =>
        simp only [hv] at h ⊢
        cases overwrite
        · exact h
        · simp only [Bool.not_true, Bool.false_eq_true, if_false] at h ⊢
          exact Outcome.bind_mono (hle _ _ _ _) (fun _ _ hc => hc) h
    | _ => simp [hv] at h

theorem parseKind_mono {lib : Lib} {rec rec' : ParseFn} (hle : ParseFn.le rec rec')
    {target : Value} {value : String} {hasDefault overwrite : Bool} {p : Parsed}
    (h : parseKind lib rec target value hasDefault overwrite = .ok p) :
    parseKind lib rec' target value hasDefault overwrite = .ok p := by
  unfold parseKind at h ⊢
  split at h
  all_goals first
    | exact h
    | exact parseArray_mono hle h
    | exact parseSlice_mono hle h
    | exact parseMap_mono hle h
    | exact parsePointer_mono hle h
    | exact parseStruct_mono hle h

theorem parseBody_mono {lib : Lib} {rec rec' : ParseFn} (hle : ParseFn.le rec rec')
    {target : Value} {value : String} {hasDefault overwrite : Bool} {p : Parsed}
    (h : parseBody lib rec target value hasDefault overwrite = .ok p) :
    parseBody lib rec' target value hasDefault overwrite = .ok p := by
  unfold parseBody at h ⊢
  split at h
  · exact h
  · split at h
    · exact h
    · exact parseKind_mono hle h

/-- More fuel does not change a result: what `parse` returns with some
fuel, it returns with one unit more. -/
theorem parse_fuel_succ (lib : Lib) : ∀ fuel, ParseFn.le (parse lib fuel) (parse lib (fuel + 1))
  | 0 => by
    intro target value hasDefault overwrite p h
    simp [parse] at h
  | fuel + 1 => by
    intro target value hasDefault overwrite p h
    exact parseBody_mono (parse_fuel_succ lib fuel) h

/-- More fuel does not change a result. -/
theorem parse_fuel_mono (lib : Lib) {fuel fuel' : Nat} (hle : fuel ≤ fuel') :
    ParseFn.le (parse lib fuel) (parse lib fuel') := by
  induction hle with
  | refl => exact fun _ _ _ _ _ h => h
  | step _ ih => exact fun t v hd ow p h => parse_fuel_succ lib _ t v hd ow p (ih t v hd ow p h)

/-- What `apply` returns with some fuel, it returns with any larger fuel. -/
theorem apply_fuel_mono (lib : Lib) {fuel fuel' : Nat} (hle : fuel ≤ fuel')
    {target : Option Value} {overwrite : Bool} {out : Applied}
    (h : apply lib fuel target overwrite = .ok out) :
    apply lib fuel' target overwrite = .ok out := by
  unfold apply at h ⊢
  cases target with
  | none => exact h
  | some val =>
    simp only at h ⊢
    by_cases hk : val.ty.kind ≠ .pointer
    · rw [if_pos hk] at h ⊢
      exact h
    · rw [if_neg hk] at h ⊢
      cases hv : val.val with
      | ptr pointee =>
        cases pointee with
        | none => simpa [hv] using h
        | some pointee =>
          simp only [hv] at h ⊢
          by_cases hs : (lib.elem val.ty).kind ≠ .struct
          · rw [if_pos hs] at h ⊢
            exact h
          · rw [if_neg hs] at h ⊢
            exact Outcome.bind_mono
              (fun a ha => parseStruct_mono (parse_fuel_mono lib hle) ha)
              (fun _ _ hc => hc) h
      | _ => simpa [hv] using h

/-! ## The test of the package -/

/-- The embedding passes `TestApply` on the fields it can decode: `Complete`
on the zero record returns without error, with the values that the test
expects (0o754 is 492 and 0o755 is 493). -/
theorem testApply_replay :
    Complete goLib 2 (pointerTo unmarshaltarget (zeroValue unmarshaltarget))
      = .ok ⟨pointerTo unmarshaltarget (.struct [
          .map (some [(.str "foo", .int 1), (.str "bar", .int 2)]),
          .chan (some 5),
          .str "alice, bob",
          .ptr (some (.str "some default")),
          .slice (some [.uint 2, .uint 8]),
          .slice (some [.str "foo", .str "bar", .str "b,az"]),
          .struct [.bool true, .uint 42, .int 42],
          .uint 492,
          .uint 493,
          .int 42,
          .array [.bool true, .bool false, .bool true],
          .bool true]), none⟩ :=
  rfl

/-! ## C1: the default of a field that is not zero, under `Complete` -/

/-- C1, counterexample: the field `A` of `struct { A int "default:abc" }`
holds 7, which is not zero, and carries a default; `Complete` decodes the
default all the same and returns the error of `strconv.Atoi` for the field,
leaving the 7 in place. -/
theorem complete_reports_malformed_default :
    (Val.int 7).isZero = false
      ∧ Complete goLib 1 (pointerTo badTagRecord (.struct [.int 7]))
        = .ok ⟨pointerTo badTagRecord (.struct [.int 7]),
            some (.join [.fieldError "A"
              (.external "strconv.Atoi" "strconv.Atoi: parsing \"abc\": invalid syntax")])⟩ :=
  ⟨rfl, rfl⟩

/-- C1, amended: for every record and every field of it that carries a
default annotation, whether the field holds a zero value or not, `Complete`
decodes the annotation for the type of the field, and the errors it returns
are those of the fields before, then the errors of that decode under the name
of the field, then those of the fields after.  So a field that is not zero
raises no error exactly when its annotation decodes without error: the errors
returned are then those of the other fields alone. -/
theorem complete_decodes_annotated_field (lib : Lib) (fuel : Nat) (ty : Ty) (vals : List Val)
    (out : Applied) (i : Nat) (f : StructField Ty) (v : Val) (text : String)
    (hk : ty.kind = .struct)
    (h : Complete lib fuel (pointerTo ty (.struct vals)) = .ok out)
    (hf : ty.fields[i]? = some f) (hv : vals[i]? = some v) (htag : f.tag = some text) :
    ∃ p, parse lib fuel ((recordOf ty vals).Field f v) text true false = .ok p
      ∧ out.err = errorsJoin
          (fieldsErrs (parse lib fuel) (recordOf ty vals) false (ty.fields.take i) (vals.take i)
            ++ addErrorsPrefixes f.name p.errs
            ++ fieldsErrs (parse lib fuel) (recordOf ty vals) false
                (ty.fields.drop (i + 1)) (vals.drop (i + 1)))
      ∧ (p.errs = [] →
          out.err = errorsJoin
            (fieldsErrs (parse lib fuel) (recordOf ty vals) false (ty.fields.take i)
                (vals.take i)
              ++ fieldsErrs (parse lib fuel) (recordOf ty vals) false
                  (ty.fields.drop (i + 1)) (vals.drop (i + 1)))) := by
  obtain ⟨vals', _, _, herr, hall⟩ := apply_fields hk h
  obtain ⟨w, p, _, hp, hfe, _⟩ := hall i f v hf hv
  have hp' : parse lib fuel ((recordOf ty vals).Field f v) text true false = .ok p := by
    simpa [parseField, htag] using hp
  have hsplit := fieldsErrs_split (parse lib fuel) (recordOf ty vals) false hf hv
  rw [hfe] at hsplit
  refine ⟨p, hp', by rw [herr, hsplit], ?_⟩
  intro hnil
  rw [herr, hsplit, hnil]
  simp [addErrorsPrefixes]

/-- C1, witness: in `struct { A int "default:42"; B bool "default:maybe" }`
with `A` holding 7, the default of `A` decodes, and the only error that
`Complete` returns is that of `B`. -/
theorem complete_decodes_annotated_field_witness :
    (Val.int 7).isZero = false
      ∧ Complete goLib 1 (pointerTo twoFieldRecord (.struct [.int 7, .bool false]))
        = .ok ⟨pointerTo twoFieldRecord (.struct [.int 7, .bool false]),
            some (.join [.fieldError "B" (syntaxError "ParseBool" "maybe")])⟩
      ∧ ∃ p, parse goLib 1
            ((recordOf twoFieldRecord [.int 7, .bool false]).Field
              (exportedField "A" (some "42") (.prim .int)) (.int 7)) "42" true false = .ok p
          ∧ some (ApplyError.join [.fieldError "B" (syntaxError "ParseBool" "maybe")])
            = errorsJoin
              (fieldsErrs (parse goLib 1) (recordOf twoFieldRecord [.int 7, .bool false]) false
                  (twoFieldRecord.fields.take 0) ([Val.int 7, Val.bool false].take 0)
                ++ addErrorsPrefixes "A" p.errs
                ++ fieldsErrs (parse goLib 1) (recordOf twoFieldRecord [.int 7, .bool false])
                    false (twoFieldRecord.fields.drop (0 + 1))
                    ([Val.int 7, Val.bool false].drop (0 + 1)))
          ∧ (p.errs = [] →
              some (ApplyError.join [.fieldError "B" (syntaxError "ParseBool" "maybe")])
                = errorsJoin
                  (fieldsErrs (parse goLib 1) (recordOf twoFieldRecord [.int 7, .bool false])
                      false (twoFieldRecord.fields.take 0) ([Val.int 7, Val.bool false].take 0)
                    ++ fieldsErrs (parse goLib 1)
                        (recordOf twoFieldRecord [.int 7, .bool false]) false
                        (twoFieldRecord.fields.drop (0 + 1))
                        ([Val.int 7, Val.bool false].drop (0 + 1)))) :=
  ⟨rfl, rfl,
    complete_decodes_annotated_field goLib 1 twoFieldRecord [.int 7, .bool false]
      ⟨pointerTo twoFieldRecord (.struct [.int 7, .bool false]),
        some (.join [.fieldError "B" (syntaxError "ParseBool" "maybe")])⟩
      0 (exportedField "A" (some "42") (.prim .int)) (.int 7) "42" rfl rfl rfl rfl rfl⟩

/-! ## C2: a field that is not zero, under `Complete` -/

/-- A target that has a specific parser, or a text-decoding capability that
`parse` reaches, is left as it was. -/
theorem parse_keeps_special {lib : Lib} {fuel : Nat} {target : Value} {value : String}
    {hasDefault overwrite : Bool} {p : Parsed}
    (h : parse lib fuel target value hasDefault overwrite = .ok p)
    (hs : (parseSpecific lib target value hasDefault).2.1 = true
      ∨ (target.addr = true ∧ (lib.textUnmarshaler target.ty).isSome = true)) :
    p.target = target.val := by
  cases fuel with
  | zero => simp [parse] at h
  | succ n =>
    have hbody : parseBody lib (parse lib n) target value hasDefault overwrite = .ok p := h
    unfold parseBody at hbody
    split at hbody
    · simp only [Outcome.ok.injEq] at hbody
      subst hbody; rfl
    · rename_i hsp
      rcases hs with hs | ⟨haddr, htext⟩
      · rw [hsp] at hs
        simp at hs
      · obtain ⟨u, hu⟩ := Option.isSome_iff_exists.mp htext
        simp only [haddr, if_true, hu] at hbody
        split at hbody <;> (simp only [Outcome.ok.injEq] at hbody; subst hbody; rfl)

/-- What `parseStruct` leaves in a struct under the policy of `Complete`:
every field that is not zero and is not itself decoded field by field is as it
was. -/
theorem parseStruct_keeps_nonzero {lib : Lib} {fuel : Nat} {target : Value} {p : Parsed}
    (h : parseStruct (parse lib fuel) target false = .ok p) :
    ∃ ws ws', target.val = .struct ws ∧ p.target = .struct ws' ∧ ws'.length = ws.length
      ∧ ∀ (j : Nat) (g : StructField Ty) (w : Val), target.ty.fields[j]? = some g →
          ws[j]? = some w → w.isZero = false →
          (g.ty.kind ≠ .struct
            ∨ (parseSpecific lib (target.Field g w) (g.tag.getD "") g.tag.isSome).2.1 = true
            ∨ (target.addr = true ∧ (lib.textUnmarshaler g.ty).isSome = true)) →
          ws'[j]? = some w := by
  obtain ⟨ws, ws', hval, hloop, htarget, _⟩ := parseStruct_ok h
  obtain ⟨_, hlen, _, hall⟩ := parseStructLoop_ok hloop
  refine ⟨ws, ws', hval, htarget, hlen, ?_⟩
  intro j g w hg hw hnz hkind
  obtain ⟨w', e, hstep, hw'⟩ := hall j g w hg hw
  obtain ⟨q, hq, _, _, h1, _, h3⟩ := parseStructField_ok hstep
  have hq' : parse lib fuel (target.Field g w) (g.tag.getD "") g.tag.isSome false = .ok q := hq
  have hqt : q.target = w := by
    rcases hkind with hns | hsp | htu
    · exact parse_target hq' hns (fun _ => Or.inr rfl)
    · exact parse_keeps_special hq' (Or.inl hsp)
    · exact parse_keeps_special hq' (Or.inr htu)
  rw [hw']
  by_cases herr : q.errs = []
  · rw [h3 herr (Or.inr ⟨by rw [hqt]; exact hnz, rfl⟩), hqt]
  · rw [h1 herr, hqt]

/-- A field of struct kind that has neither a specific parser nor a
text-decoding capability is decoded by `parseStruct`, and holds afterwards
what `parseStruct` leaves in it. -/
theorem parseStructField_struct {lib : Lib} {fuel : Nat} {target : Value} {overwrite : Bool}
    {g : StructField Ty} {w w' : Val} {e : List Err}
    (h : parseStructField (parse lib fuel) target overwrite g w = .ok (w', e))
    (hk : g.ty.kind = .struct)
    (hsp : (parseSpecific lib (target.Field g w) (g.tag.getD "") g.tag.isSome).2.1 = false)
    (htu : lib.textUnmarshaler g.ty = none) :
    ∃ fuel' q, fuel = fuel' + 1
      ∧ parseStruct (parse lib fuel') (target.Field g w) overwrite = .ok q ∧ w' = q.target := by
  obtain ⟨q, hq, _, _, h1, h2, h3⟩ := parseStructField_ok h
  cases fuel with
  | zero => simp [parseField, parse] at hq
  | succ n =>
    have hbody : parseBody lib (parse lib n) (target.Field g w) (g.tag.getD "") g.tag.isSome
        overwrite = .ok q := hq
    unfold parseBody at hbody
    rcases hps : parseSpecific lib (target.Field g w) (g.tag.getD "") g.tag.isSome
      with ⟨a, b, c⟩
    rw [hps] at hsp hbody
    simp only at hsp
    subst hsp
    have hty : (target.Field g w).ty = g.ty := rfl
    simp only [hty, htu, ite_self] at hbody
    unfold parseKind at hbody
    rw [hty, hk] at hbody
    simp only at hbody
    refine ⟨n, q, rfl, hbody, ?_⟩
    obtain ⟨vals, out, _, _, htarget, hresult⟩ := parseStruct_ok hbody
    by_cases herr : q.errs = []
    · by_cases hcond : q.target.isZero = true ∨ overwrite = true
      · rw [h2 herr _ hresult hcond, htarget]
      · refine h3 herr (Or.inr ?_)
        simp only [not_or, Bool.not_eq_true] at hcond
        exact hcond
    · exact h1 herr

/-- C2, counterexample: the field `P` of
`struct { P struct { Q bool "default:true"; R uint "default:42" } }` holds
`{Q: true, R: 0}`, which is not zero; after `Complete` it holds
`{Q: true, R: 42}`: the nested struct was completed in place. -/
theorem complete_fills_nonzero_nested_struct :
    (Val.struct [.bool true, .uint 0]).isZero = false
      ∧ Complete goLib 2 (pointerTo nestedRecord (.struct [.struct [.bool true, .uint 0]]))
        = .ok ⟨pointerTo nestedRecord (.struct [.struct [.bool true, .uint 42]]), none⟩ :=
  ⟨rfl, rfl⟩

/-- C2, amended: for every record and every field of it that holds a value
that is not zero before `Complete` is called, and that `Complete` does not
decode field by field (the kind of the field is not struct, or its type has a
specific parser, as `time.Time` has, or a text-decoding capability, as
`big.Int` has), the value of the field after `Complete` equals its value
before.  A nested struct that `Complete` decodes field by field is completed in
place by `parseStruct`, and the same holds of it at every depth: its fields
that are not zero and are not decoded field by field keep their values (its
zero fields may receive their defaults, as in the counterexample). -/
theorem complete_keeps_nonzero_field (lib : Lib) (fuel : Nat) (ty : Ty) (vals : List Val)
    (out : Applied) (hk : ty.kind = .struct)
    (h : Complete lib fuel (pointerTo ty (.struct vals)) = .ok out) :
    ∃ vals', out.target = pointerTo ty (.struct vals') ∧ vals'.length = vals.length
      ∧ (∀ (i : Nat) (f : StructField Ty) (v : Val), ty.fields[i]? = some f →
          vals[i]? = some v → v.isZero = false →
          (f.ty.kind ≠ .struct
            ∨ (parseSpecific lib ((recordOf ty vals).Field f v) (f.tag.getD "")
                f.tag.isSome).2.1 = true
            ∨ (lib.textUnmarshaler f.ty).isSome = true) →
          vals'[i]? = some v)
      ∧ (∀ (i : Nat) (f : StructField Ty) (v : Val), ty.fields[i]? = some f →
          vals[i]? = some v → f.ty.kind = .struct →
          (parseSpecific lib ((recordOf ty vals).Field f v) (f.tag.getD "")
            f.tag.isSome).2.1 = false →
          lib.textUnmarshaler f.ty = none →
          ∃ fuel' q, fuel = fuel' + 1
            ∧ parseStruct (parse lib fuel') ((recordOf ty vals).Field f v) false = .ok q
            ∧ vals'[i]? = some q.target)
      ∧ ∀ (fuel' : Nat) (target : Value) (q : Parsed),
          parseStruct (parse lib fuel') target false = .ok q →
          ∃ ws ws', target.val = .struct ws ∧ q.target = .struct ws'
            ∧ ws'.length = ws.length
            ∧ ∀ (j : Nat) (g : StructField Ty) (w : Val), target.ty.fields[j]? = some g →
                ws[j]? = some w → w.isZero = false →
                (g.ty.kind ≠ .struct
                  ∨ (parseSpecific lib (target.Field g w) (g.tag.getD "")
                      g.tag.isSome).2.1 = true
                  ∨ (target.addr = true ∧ (lib.textUnmarshaler g.ty).isSome = true)) →
                ws'[j]? = some w := by
  obtain ⟨vals', errs, hloop, htarget, _⟩ := apply_ok hk h
  obtain ⟨_, hlen, _, hall⟩ := parseStructLoop_ok hloop
  have hrec : parseStruct (parse lib fuel) (recordOf ty vals) false
      = .ok ⟨.struct vals', some ⟨ty, .struct vals', true, false⟩, errs⟩ := by
    simp only [parseStruct, recordOf]
    have hloop' : parseStructLoop (parse lib fuel) ⟨ty, .struct vals, true, false⟩ false
        ty.fields vals = .ok (vals', errs) := hloop
    rw [hloop']
    rfl
  refine ⟨vals', htarget, hlen, ?_, ?_, fun fuel' target q hq => parseStruct_keeps_nonzero hq⟩
  · intro i f v hf hv hnz hkind
    obtain ⟨ws, ws', hws, hws', _, hkeep⟩ := parseStruct_keeps_nonzero hrec
    simp only [recordOf, Val.struct.injEq] at hws hws'
    subst hws; subst hws'
    refine hkeep i f v hf hv hnz ?_
    rcases hkind with h1 | h2 | h3
    · exact Or.inl h1
    · exact Or.inr (Or.inl h2)
    · exact Or.inr (Or.inr ⟨rfl, h3⟩)
  · intro i f v hf hv hkf hsp htu
    obtain ⟨w, e, hstep, hw⟩ := hall i f v hf hv
    obtain ⟨fuel', q, hfuel, hq, hwq⟩ := parseStructField_struct hstep hkf hsp htu
    exact ⟨fuel', q, hfuel, hq, by rw [hw, hwq]⟩

/-- C2, witness: in
`struct { N int "default:5"; T time.Time "default:1982-04-12"; P struct { Q bool "default:true"; R uint "default:42" } }`
with `N` holding 3, `T` holding a time that is not zero and `P` holding
`{Q: true, R: 0}`, `Complete` leaves `N` and `T` as they were, and completes
`P` in place, where `Q` keeps its value and `R` receives 42. -/
theorem complete_keeps_nonzero_field_witness :
    Complete dateLib 2
        (pointerTo keptRecord
          (.struct [.int 3, .struct [.uint 0, .int 1, .ptr none],
            .struct [.bool true, .uint 0]]))
      = .ok ⟨pointerTo keptRecord
          (.struct [.int 3, .struct [.uint 0, .int 1, .ptr none],
            .struct [.bool true, .uint 42]]), none⟩
      ∧ ∃ vals',
          pointerTo keptRecord
              (.struct [.int 3, .struct [.uint 0, .int 1, .ptr none],
                .struct [.bool true, .uint 42]])
            = pointerTo keptRecord (.struct vals')
          ∧ vals'[0]? = some (.int 3)
          ∧ vals'[1]? = some (.struct [.uint 0, .int 1, .ptr none]) := by
  refine ⟨rfl, ?_⟩
  obtain ⟨vals', h1, _, h3, _⟩ := complete_keeps_nonzero_field dateLib 2 keptRecord
    [.int 3, .struct [.uint 0, .int 1, .ptr none], .struct [.bool true, .uint 0]]
    ⟨pointerTo keptRecord
      (.struct [.int 3, .struct [.uint 0, .int 1, .ptr none],
        .struct [.bool true, .uint 42]]), none⟩ rfl rfl
  exact ⟨vals', h1,
    h3 0 (exportedField "N" (some "5") (.prim .int)) (.int 3) rfl rfl rfl
      (Or.inl (by decide)),
    h3 1 (exportedField "T" (some "1982-04-12") Ty.time) (.struct [.uint 0, .int 1, .ptr none])
      rfl rfl rfl (Or.inr (Or.inl rfl))⟩

/-! ## C3: `parse` without a default -/

/-- C3, counterexample: on a struct slot without a default, `parse` returns
a value, the struct itself, after it has decoded the defaults of its fields in
place. -/
theorem parse_without_default_decodes_struct :
    parse goLib 2 ⟨innerStruct, .struct [.bool false, .uint 0], true, false⟩ "" false false
      = .ok ⟨.struct [.bool true, .uint 42],
          some ⟨innerStruct, .struct [.bool true, .uint 42], true, false⟩, []⟩ :=
  rfl

/-- C3, amended: for every target slot whose type is one of the four
well-known types of `parseSpecific`, or has no text-decoding capability that
`parse` can reach and is of boolean, integer, unsigned integer, float, complex,
array, channel, map, pointer or slice kind, `parse` with `hasDefault = false`
returns no value and no error, and leaves the slot as it was.  (A slot of
struct kind is decoded field by field and returned.) -/
theorem parse_without_default (lib : Lib) (fuel : Nat) (target : Value) (value : String)
    (overwrite : Bool)
    (hty : (parseSpecific lib target value false).2.1 = true
      ∨ ((target.addr = false ∨ lib.textUnmarshaler target.ty = none)
          ∧ target.ty.kind.decoderChecksDefault = true)) :
    parse lib (fuel + 1) target value false overwrite = .ok ⟨target.val, none, []⟩ := by
  obtain ⟨b, hb⟩ := parseSpecific_noDefault lib target value
  simp only [parse, parseBody, hb]
  rw [hb] at hty
  cases b with
  | true => rfl
  | false =>
    simp only [Bool.false_eq_true, false_or] at hty
    obtain ⟨hun, hkind⟩ := hty
    have : (if target.addr = true then lib.textUnmarshaler target.ty else none) = none := by
      rcases hun with ha | hu
      · simp [ha]
      · simp [hu]
    simp only [this]
    exact parseKind_noDefault lib (parse lib fuel) target value overwrite hkind

/-- C3, witness: a slot of type `int` that holds 7, without a default. -/
theorem parse_without_default_witness :
    ((parseSpecific goLib ⟨.prim .int, .int 7, true, false⟩ "" false).2.1 = true
        ∨ (((⟨.prim .int, .int 7, true, false⟩ : Value).addr = false
            ∨ goLib.textUnmarshaler (.prim .int) = none)
          ∧ (Ty.prim .int).kind.decoderChecksDefault = true))
      ∧ parse goLib (0 + 1) ⟨.prim .int, .int 7, true, false⟩ "" false true
        = .ok ⟨.int 7, none, []⟩ :=
  ⟨Or.inr ⟨Or.inr rfl, rfl⟩,
    parse_without_default goLib 0 ⟨.prim .int, .int 7, true, false⟩ "" true
      (Or.inr ⟨Or.inr rfl, rfl⟩)⟩

/-! ## C4: the fields without a default -/

/-- C4, the code at the failing input: the field `S` of `struct { S string }`
carries no default and holds `hello`; `Initialize` returns without error and
leaves the field empty: the case `reflect.String` of `parseKind` returns the
(empty) default as a value without looking at `hasDefault`, and `parseStruct`
writes it because the policy overwrites. -/
theorem initialize_clears_untagged_string :
    untaggedStringRecord.fields = [exportedField "S" none (.prim .string)]
      ∧ Initialize goLib 1 (pointerTo untaggedStringRecord (.struct [.str "hello"]))
        = .ok ⟨pointerTo untaggedStringRecord (.struct [.str ""]), none⟩ :=
  ⟨rfl, rfl⟩

/-! ## C5: the default of a field, under `Initialize` -/

/-- What `Initialize` leaves in an annotated field, for the calls that
return: for every record and every annotated field of it, when `Initialize`
returns (and it then returns the same with any larger fuel), the default text
of the field has been decoded for the type of the field, whatever the field
held; and when that decode has no error, it has a value, the field holds that
value, and the errors returned are those of the other fields alone. -/
theorem initialize_sets_decoded_default (lib : Lib) (fuel : Nat) (ty : Ty) (vals : List Val)
    (out : Applied) (i : Nat) (f : StructField Ty) (v : Val) (text : String)
    (hk : ty.kind = .struct)
    (h : Initialize lib fuel (pointerTo ty (.struct vals)) = .ok out)
    (hf : ty.fields[i]? = some f) (hv : vals[i]? = some v) (htag : f.tag = some text) :
    (∀ fuel', fuel ≤ fuel' → Initialize lib fuel' (pointerTo ty (.struct vals)) = .ok out)
      ∧ ∃ p vals', parse lib fuel ((recordOf ty vals).Field f v) text true true = .ok p
        ∧ out.target = pointerTo ty (.struct vals')
        ∧ (p.errs = [] →
            (∃ x, p.result = some x ∧ vals'[i]? = some x.val)
            ∧ out.err = errorsJoin
                (fieldsErrs (parse lib fuel) (recordOf ty vals) true (ty.fields.take i)
                    (vals.take i)
                  ++ fieldsErrs (parse lib fuel) (recordOf ty vals) true
                      (ty.fields.drop (i + 1)) (vals.drop (i + 1)))) := by
  refine ⟨fun fuel' hle => apply_fuel_mono lib hle h, ?_⟩
  obtain ⟨vals', htarget, _, herr, hall⟩ := apply_fields hk h
  obtain ⟨w, p, hw, hp, hfe, _, h2, _⟩ := hall i f v hf hv
  have hp' : parse lib fuel ((recordOf ty vals).Field f v) text true true = .ok p := by
    simpa [parseField, htag] using hp
  refine ⟨p, vals', hp', htarget, ?_⟩
  intro hnil
  have hsome := parse_result hp' hnil
  obtain ⟨x, hx⟩ := Option.isSome_iff_exists.mp hsome
  refine ⟨⟨x, hx, ?_⟩, ?_⟩
  · rw [hw, h2 hnil x hx (Or.inr rfl)]
  · have hsplit := fieldsErrs_split (parse lib fuel) (recordOf ty vals) true hf hv
    rw [hfe, hnil] at hsplit
    rw [herr, hsplit]
    simp [addErrorsPrefixes]

/-- An example of the above: in `struct { N int "default:5"; S string "default:x" }`
with `N` holding 3 and `S` holding `old`, `Initialize` returns with `N` holding
5 and `S` holding `x`, without error. -/
theorem initialize_sets_decoded_default_witness :
    Initialize goLib 1 (pointerTo scalarRecord (.struct [.int 3, .str "old"]))
        = .ok ⟨pointerTo scalarRecord (.struct [.int 5, .str "x"]), none⟩
      ∧ (∀ fuel', 1 ≤ fuel' →
          Initialize goLib fuel' (pointerTo scalarRecord (.struct [.int 3, .str "old"]))
            = .ok ⟨pointerTo scalarRecord (.struct [.int 5, .str "x"]), none⟩)
      ∧ ∃ p vals', parse goLib 1
            ((recordOf scalarRecord [.int 3, .str "old"]).Field
              (exportedField "N" (some "5") (.prim .int)) (.int 3)) "5" true true = .ok p
          ∧ pointerTo scalarRecord (.struct [.int 5, .str "x"])
            = pointerTo scalarRecord (.struct vals')
          ∧ (p.errs = [] →
              (∃ x, p.result = some x ∧ vals'[0]? = some x.val)
              ∧ (none : Option ApplyError) = errorsJoin
                  (fieldsErrs (parse goLib 1) (recordOf scalarRecord [.int 3, .str "old"]) true
                      (scalarRecord.fields.take 0) ([Val.int 3, Val.str "old"].take 0)
                    ++ fieldsErrs (parse goLib 1) (recordOf scalarRecord [.int 3, .str "old"])
                        true (scalarRecord.fields.drop (0 + 1))
                        ([Val.int 3, Val.str "old"].drop (0 + 1)))) :=
  ⟨rfl,
    initialize_sets_decoded_default goLib 1 scalarRecord [.int 3, .str "old"]
      ⟨pointerTo scalarRecord (.struct [.int 5, .str "x"]), none⟩
      0 (exportedField "N" (some "5") (.prim .int)) (.int 3) "5" rfl rfl rfl rfl rfl⟩

/-- C5, the code at the failing input: in `struct { N Name "default:x" }`,
where `Name` is declared as `type Name string`, with `N` holding `old`, the
default `x` decodes without error for the field, with the value `x`; and
`Initialize` does not leave `x` in the field: whatever the depth of recursion
allowed, it panics in `reflect.Value.Set`, for the decoded value has the type
`string` and not the type `Name`. -/
theorem initialize_panics_on_derived_string (fuel : Nat) :
    parse goLib (fuel + 1)
        ((recordOf derivedStringRecord [.str "old"]).Field
          (exportedField "N" (some "x") nameType) (.str "old")) "x" true true
      = .ok ⟨.str "old", some (valueOf (.prim .string) (.str "x")), []⟩
    ∧ Initialize goLib (fuel + 1) (pointerTo derivedStringRecord (.struct [.str "old"]))
      = .panic "reflect.Set: value is not assignable to the type of the slot" :=
  ⟨rfl, rfl⟩

/-! ## C6: a composite field whose decode fails -/

/-- C6, counterexample: in
`struct { P struct { Q bool "default:true"; R uint "default:x" } }`, zero
before the call, the decode of the field `P` yields the error of `R`, and yet
`P.Q` has been written: the nested struct is decoded in place. -/
theorem failing_nested_struct_is_written :
    Complete goLib 2 (pointerTo failingNestedRecord (.struct [.struct [.bool false, .uint 0]]))
      = .ok ⟨pointerTo failingNestedRecord (.struct [.struct [.bool true, .uint 0]]),
          some (.join [.fieldError "P.R"
            (.external "strconv.ParseUint"
              "strconv.ParseUint: parsing \"x\": invalid syntax")])⟩ :=
  rfl

/-- C6, amended: for every record field of array, slice or map kind, and
every pointer field through which the decode does not reach a struct in place
(the pointer is nil, or the policy is that of `Complete`, or the pointers that
`Initialize` follows do not end at a struct), under either policy: if decoding
the field yields at least one error then the slot, with everything inside it,
is as it was before the call.  (A nested struct is decoded in place, field by
field: the fields of it that decode are written even when another fails.) -/
theorem failing_composite_field_untouched (lib : Lib) (fuel : Nat) (ty : Ty)
    (vals : List Val) (overwrite : Bool) (out : Applied) (i : Nat) (f : StructField Ty)
    (v : Val) (hk : ty.kind = .struct)
    (h : apply lib fuel (pointerTo ty (.struct vals)) overwrite = .ok out)
    (hf : ty.fields[i]? = some f) (hv : vals[i]? = some v)
    (hcomp : f.ty.kind = .array ∨ f.ty.kind = .slice ∨ f.ty.kind = .map
      ∨ (f.ty.kind = .pointer ∧ decodesInPlace lib overwrite f.ty v = false))
    (herr : fieldErrs (parse lib fuel) (recordOf ty vals) overwrite f v ≠ []) :
    ∃ vals', out.target = pointerTo ty (.struct vals') ∧ vals'[i]? = some v := by
  obtain ⟨vals', htarget, _, _, hall⟩ := apply_fields hk h
  obtain ⟨w, p, hw, hp, hfe, h1, _, _⟩ := hall i f v hf hv
  refine ⟨vals', htarget, ?_⟩
  have hperr : p.errs ≠ [] := by
    intro hnil
    apply herr
    rw [hfe, hnil]; rfl
  have hin : decodesInPlace lib overwrite f.ty v = false := by
    rcases hcomp with hc | hc | hc | ⟨_, hc⟩
    · cases v with
      | struct _ => simp [decodesInPlace, hc]
      | ptr pointee => cases pointee <;> simp [decodesInPlace, hc]
      | _ => rfl
    · cases v with
      | struct _ => simp [decodesInPlace, hc]
      | ptr pointee => cases pointee <;> simp [decodesInPlace, hc]
      | _ => rfl
    · cases v with
      | struct _ => simp [decodesInPlace, hc]
      | ptr pointee => cases pointee <;> simp [decodesInPlace, hc]
      | _ => rfl
    · exact hc
  have hp' : parse lib fuel ((recordOf ty vals).Field f v) (f.tag.getD "") f.tag.isSome overwrite
      = .ok p := hp
  have hpt : p.target = v := parse_keeps_target fuel hp' hin
  rw [hw, h1 hperr, hpt]

/-- C6, witness: in `struct { L []uint8 "default:1,x" }` with `L` holding the
one element 9, the decode of `L` fails on its second element, and `Initialize`
returns with `L` as it was. -/
theorem failing_composite_field_untouched_witness :
    Initialize goLib 2 (pointerTo sliceRecord (.struct [.slice (some [.uint 9])]))
        = .ok ⟨pointerTo sliceRecord (.struct [.slice (some [.uint 9])]),
            some (.join [.fieldError "L.1" (syntaxError "ParseUint" "x")])⟩
      ∧ fieldErrs (parse goLib 2) (recordOf sliceRecord [.slice (some [.uint 9])]) true
          (exportedField "L" (some "1,x") (.slice (.prim .uint8))) (.slice (some [.uint 9]))
          ≠ []
      ∧ ∃ vals', pointerTo sliceRecord (.struct [.slice (some [.uint 9])])
            = pointerTo sliceRecord (.struct vals')
          ∧ vals'[0]? = some (.slice (some [.uint 9])) :=
  ⟨rfl, by decide,
    failing_composite_field_untouched goLib 2 sliceRecord [.slice (some [.uint 9])] true
      ⟨pointerTo sliceRecord (.struct [.slice (some [.uint 9])]),
        some (.join [.fieldError "L.1" (syntaxError "ParseUint" "x")])⟩
      0 (exportedField "L" (some "1,x") (.slice (.prim .uint8))) (.slice (some [.uint 9]))
      rfl rfl rfl rfl (Or.inr (Or.inl rfl)) (by decide)⟩

/-! ## C7: the errors of one field and its siblings -/

/-- What `Initialize` does to the fields, for the calls that return: for
every record, when `Initialize` returns (and it then returns the
same with any larger fuel), every field has been decoded, whatever happened to
the others: every annotated field whose own decode has no error holds its
decoded value, and the errors returned are the errors of every field, each
under the name of its field, in the order of declaration of the fields. -/
theorem initialize_processes_every_field (lib : Lib) (fuel : Nat) (ty : Ty)
    (vals : List Val) (out : Applied) (hk : ty.kind = .struct)
    (h : Initialize lib fuel (pointerTo ty (.struct vals)) = .ok out) :
    (∀ fuel', fuel ≤ fuel' → Initialize lib fuel' (pointerTo ty (.struct vals)) = .ok out)
      ∧ ∃ vals', out.target = pointerTo ty (.struct vals')
        ∧ out.err = errorsJoin
            (List.zipWith (fieldErrs (parse lib fuel) (recordOf ty vals) true) ty.fields
              vals).flatten
        ∧ ∀ (i : Nat) (f : StructField Ty) (v : Val), ty.fields[i]? = some f →
            vals[i]? = some v →
            ∃ p, parseField (parse lib fuel) (recordOf ty vals) true f v = .ok p
              ∧ fieldErrs (parse lib fuel) (recordOf ty vals) true f v
                  = addErrorsPrefixes f.name p.errs
              ∧ (f.tag.isSome = true → p.errs = [] →
                  ∃ x, p.result = some x ∧ vals'[i]? = some x.val) := by
  refine ⟨fun fuel' hle => apply_fuel_mono lib hle h, ?_⟩
  obtain ⟨vals', htarget, _, herr, hall⟩ := apply_fields hk h
  refine ⟨vals', htarget, herr, ?_⟩
  intro i f v hf hv
  obtain ⟨w, p, hw, hp, hfe, _, h2, _⟩ := hall i f v hf hv
  refine ⟨p, hp, hfe, ?_⟩
  intro htag hnil
  have hp' : parse lib fuel ((recordOf ty vals).Field f v) (f.tag.getD "") true true = .ok p := by
    simpa [parseField, htag] using hp
  obtain ⟨x, hx⟩ := Option.isSome_iff_exists.mp (parse_result hp' hnil)
  exact ⟨x, hx, by rw [hw, h2 hnil x hx (Or.inr rfl)]⟩

/-- An example of the above: in
`struct { A int "default:x"; B int "default:5"; C bool "default:maybe"; D string "default:hello" }`
the defaults of `A` and `C` are malformed; `Initialize` returns with `B`
holding 5 and `D` holding `hello`, and with the error of `A` followed by the
error of `C`. -/
theorem initialize_processes_every_field_witness :
    Initialize goLib 1
          (pointerTo mixedRecord (.struct [.int 1, .int 2, .bool true, .str "old"]))
        = .ok ⟨pointerTo mixedRecord (.struct [.int 1, .int 5, .bool true, .str "hello"]),
            some (.join [.fieldError "A" (syntaxError "Atoi" "x"),
              .fieldError "C" (syntaxError "ParseBool" "maybe")])⟩
      ∧ (∀ fuel', 1 ≤ fuel' →
          Initialize goLib fuel'
              (pointerTo mixedRecord (.struct [.int 1, .int 2, .bool true, .str "old"]))
            = .ok ⟨pointerTo mixedRecord (.struct [.int 1, .int 5, .bool true, .str "hello"]),
                some (.join [.fieldError "A" (syntaxError "Atoi" "x"),
                  .fieldError "C" (syntaxError "ParseBool" "maybe")])⟩)
      ∧ ∃ vals', pointerTo mixedRecord (.struct [.int 1, .int 5, .bool true, .str "hello"])
            = pointerTo mixedRecord (.struct vals')
          ∧ some (ApplyError.join [.fieldError "A" (syntaxError "Atoi" "x"),
              .fieldError "C" (syntaxError "ParseBool" "maybe")])
            = errorsJoin
              (List.zipWith
                (fieldErrs (parse goLib 1)
                  (recordOf mixedRecord [.int 1, .int 2, .bool true, .str "old"]) true)
                mixedRecord.fields [.int 1, .int 2, .bool true, .str "old"]).flatten
          ∧ ∀ (i : Nat) (f : StructField Ty) (v : Val), mixedRecord.fields[i]? = some f →
              [Val.int 1, Val.int 2, Val.bool true, Val.str "old"][i]? = some v →
              ∃ p, parseField (parse goLib 1)
                    (recordOf mixedRecord [.int 1, .int 2, .bool true, .str "old"]) true f v
                    = .ok p
                ∧ fieldErrs (parse goLib 1)
                    (recordOf mixedRecord [.int 1, .int 2, .bool true, .str "old"]) true f v
                    = addErrorsPrefixes f.name p.errs
                ∧ (f.tag.isSome = true → p.errs = [] →
                    ∃ x, p.result = some x ∧ vals'[i]? = some x.val) :=
  ⟨rfl,
    initialize_processes_every_field goLib 1 mixedRecord
      [.int 1, .int 2, .bool true, .str "old"]
      ⟨pointerTo mixedRecord (.struct [.int 1, .int 5, .bool true, .str "hello"]),
        some (.join [.fieldError "A" (syntaxError "Atoi" "x"),
          .fieldError "C" (syntaxError "ParseBool" "maybe")])⟩
      rfl rfl⟩

/-- C7, the code at the failing input: in
`struct { B int "default:5"; N Name "default:x"; C bool "default:true" }`,
where `Name` is declared as `type Name string`, the three defaults decode
without error; and `Initialize` does not process every field: whatever the
depth of recursion allowed, it panics in `reflect.Value.Set` at the field `N`,
which does not receive its value, and the field `C`, declared after it, is
not reached. -/
theorem initialize_stops_at_derived_string (fuel : Nat) :
    parse goLib (fuel + 1)
        ((recordOf derivedMixedRecord [.int 0, .str "", .bool false]).Field
          (exportedField "B" (some "5") (.prim .int)) (.int 0)) "5" true true
      = .ok ⟨.int 0, some (valueOf (.prim .int) (.int 5)), []⟩
    ∧ parse goLib (fuel + 1)
        ((recordOf derivedMixedRecord [.int 0, .str "", .bool false]).Field
          (exportedField "N" (some "x") nameType) (.str "")) "x" true true
      = .ok ⟨.str "", some (valueOf (.prim .string) (.str "x")), []⟩
    ∧ parse goLib (fuel + 1)
        ((recordOf derivedMixedRecord [.int 0, .str "", .bool false]).Field
          (exportedField "C" (some "true") (.prim .bool)) (.bool false)) "true" true true
      = .ok ⟨.bool false, some (valueOf (.prim .bool) (.bool true)), []⟩
    ∧ Initialize goLib (fuel + 1)
        (pointerTo derivedMixedRecord (.struct [.int 0, .str "", .bool false]))
      = .panic "reflect.Set: value is not assignable to the type of the slot" :=
  ⟨rfl, rfl, rfl, rfl⟩

/-! ## C8: a text without a comma -/

/-- C8, counterexample: the text `a\b` holds no comma, yet `asList` does not
return it as its only field: the backslash escapes the `b` and is dropped, so
the field is `ab`. -/
theorem asList_drops_backslash :
    (∀ c ∈ "a\\b".data, c ≠ ',') ∧ asList "a\\b" = ["ab"] ∧ asList "a\\b" ≠ ["a\\b"] := by
  decide

/-- C8, amended: for every string `s` that holds neither a comma nor a
backslash, `asList s` is the one-element list `[s]`. -/
theorem asList_plain (s : String) (h : ∀ c ∈ s.data, c ≠ ',' ∧ c ≠ '\\') :
    asList s = [s] := by
  simpa [asList] using asListLoop_plain s.data h [] ""

/-- C8, witness: the default of the field `H` of the test, `some default`, is
lexed as one field. -/
theorem asList_plain_witness :
    (∀ c ∈ "some default".data, c ≠ ',' ∧ c ≠ '\\')
      ∧ asList "some default" = ["some default"] :=
  ⟨by decide, asList_plain "some default" (by decide)⟩

/-! ## C9: lexing, joining and lexing again -/

/-- C9, counterexample: the text of two backslashes is lexed as the one
field that is a backslash; joined with escaped commas it is the text of one
backslash, which is lexed as the one empty field. -/
theorem asList_rejoin_loses_backslash :
    asList "\\\\" = ["\\"] ∧ joinEscaped (asList "\\\\") = "\\"
      ∧ asList (joinEscaped (asList "\\\\")) = [""]
      ∧ asList (joinEscaped (asList "\\\\")) ≠ asList "\\\\" := by
  decide

/-- C9, amended: for every string `s` such that no field of `asList s` holds
a backslash, joining the fields of `asList s` with commas, each comma inside a
field written as backslash-comma, and lexing the joined text with `asList`
yields `asList s` again. -/
theorem asList_rejoin (s : String) (h : ∀ f ∈ asList s, ∀ c ∈ f.data, c ≠ '\\') :
    asList (joinEscaped (asList s)) = asList s :=
  asList_joinEscaped (asList s) (asListLoop_ne_nil _ _ _ _) h

/-- C9, witness: the default of the field `K` of the test. -/
theorem asList_rejoin_witness :
    (∀ f ∈ asList "foo,bar,b\\,az", ∀ c ∈ f.data, c ≠ '\\')
      ∧ asList (joinEscaped (asList "foo,bar,b\\,az")) = asList "foo,bar,b\\,az" :=
  ⟨by decide, asList_rejoin "foo,bar,b\\,az" (by decide)⟩

/-! ## C10: joining and lexing -/

/-- C10: for every list of fields that is not empty and none of whose fields
holds a backslash, `asList` applied to the fields joined by commas, every comma
inside a field written as backslash-comma, returns that list of fields, in the
same order. -/
theorem asList_of_joined_fields (fields : List String) (hne : fields ≠ [])
    (h : ∀ f ∈ fields, ∀ c ∈ f.data, c ≠ '\\') :
    asList (joinEscaped fields) = fields :=
  asList_joinEscaped fields hne h

/-- C10, witness: the fields `foo`, `bar` and `b,az` are joined as
`foo,bar,b\,az`, which is lexed as those three fields. -/
theorem asList_of_joined_fields_witness :
    joinEscaped ["foo", "bar", "b,az"] = "foo,bar,b\\,az"
      ∧ asList (joinEscaped ["foo", "bar", "b,az"]) = ["foo", "bar", "b,az"] :=
  ⟨by decide, asList_of_joined_fields ["foo", "bar", "b,az"] (by decide) (by decide)⟩

/-! ## Lemmas on arrays, slices and maps -/

theorem addErrorPrefix_isFieldError (pre : String) (e : Err) :
    (addErrorPrefix pre e).isFieldError = true := by
  cases e <;> rfl

theorem length_pos_false {α : Type} {l : List α} (h : ¬ l.length > 0) : l = [] := by
  cases l with
  | nil => rfl
  | cons a l => simp at h

theorem parseListLoop_ok {rec : ParseFn} {itemsType : Ty} :
    ∀ {defaults : List String} {i : Nat} {result : List Val} {errs : List Err}
      {out : List Val} {errs' : List Err},
      parseListLoop rec itemsType i defaults result errs = .ok (out, errs') →
      out.length = result.length ∧ errs' = errs ++ listErrs rec itemsType i defaults
  | [], _, _, _, _, _, h => by
    simp only [parseListLoop, Outcome.ok.injEq, Prod.mk.injEq] at h
    obtain ⟨rfl, rfl⟩ := h
    simp [listErrs]
  | d :: rest, i, result, errs, out, errs', h => by
    simp only [parseListLoop] at h
    obtain ⟨r, hr, h⟩ := Outcome.bind_eq_ok h
    have hel : elementErrs rec itemsType i d = addErrorsPrefixes (itoa i) r.errs := by
      simp [elementErrs, hr]
    split at h
    · obtain ⟨h1, h2⟩ := parseListLoop_ok h
      exact ⟨h1, by rw [h2, listErrs, hel, List.append_assoc]⟩
    · rename_i hlen
      have hnil : r.errs = [] := by
        cases hre : r.errs with
        | nil => rfl
        | cons a l => simp [hre] at hlen
      obtain ⟨v, _, h⟩ := Outcome.bind_eq_ok h
      obtain ⟨h1, h2⟩ := parseListLoop_ok h
      refine ⟨by simpa using h1, ?_⟩
      rw [h2, listErrs, hel, hnil]
      simp [addErrorsPrefixes]

theorem mem_listErrs {rec : ParseFn} {itemsType : Ty} {e : Err} :
    ∀ {defaults : List String} {i : Nat}, e ∈ listErrs rec itemsType i defaults →
      ∃ (j : Nat) (d : String) (r : Parsed) (err : Err), defaults[j]? = some d
        ∧ rec (valueOf itemsType (zeroValue itemsType)) d true true = .ok r
        ∧ err ∈ r.errs ∧ e = addErrorPrefix (itoa (i + j)) err
  | [], _, h => by simp [listErrs] at h
  | d :: rest, i, h => by
    simp only [listErrs, List.mem_append] at h
    rcases h with h | h
    · unfold elementErrs at h
      split at h
      · rename_i r hr
        simp only [addErrorsPrefixes, List.mem_map] at h
        obtain ⟨err, herr, rfl⟩ := h
        exact ⟨0, d, r, err, by simp, hr, herr, rfl⟩
      · simp at h
    · obtain ⟨j, d', r, err, hj, hr, herr, he⟩ := mem_listErrs h
      refine ⟨j + 1, d', r, err, by simpa using hj, hr, herr, ?_⟩
      rw [he]
      congr 2
      omega

theorem setMapIndex_ok {keyType valueType : Ty} {entries out : List (Val × Val)}
    {kx vx : Value}
    (h : setMapIndex keyType valueType entries (some kx) (some vx) = .ok out) :
    out = mapInsert entries kx.val vx.val := by
  unfold setMapIndex at h
  simp only at h
  split at h
  · simp at h
  · split at h
    · simp at h
    · split at h
      · simp at h
      · split at h
        · simp at h
        · simpa using h.symm

theorem filter_not_fieldError_prefixed (pre : String) (errs : List Err) :
    (addErrorsPrefixes pre errs).filter (fun e => !e.isFieldError) = [] := by
  induction errs with
  | nil => rfl
  | cons e errs ih =>
    simp only [addErrorsPrefixes, List.map_cons] at ih ⊢
    rw [List.filter_cons_of_neg (by simp [addErrorPrefix_isFieldError])]
    exact ih

/-- What the loop of `parseMap` does, read off a normal return, when the
decoder of the keys and values returns a value whenever it returns no error. -/
theorem parseMapLoop_ok {lib : Lib} {rec : ParseFn} {keyType valueType : Ty}
    (hres : ∀ target value p, rec target value true true = .ok p → p.errs = [] →
      p.result.isSome = true) :
    ∀ {defaults : List String} {i : Nat} {result : List (Val × Val)} {errs : List Err}
      {out : List (Val × Val)} {errs' : List Err},
      parseMapLoop lib rec keyType valueType i defaults result errs = .ok (out, errs') →
      out = (defaults.filterMap (entryPair rec keyType valueType)).foldl
          (fun m kv => mapInsert m kv.1 kv.2) result
        ∧ errs'.filter (fun e => !e.isFieldError)
          = errs.filter (fun e => !e.isFieldError)
            ++ (defaults.filter fun d => (splitColon d.data).isNone).map (noColonError lib)
  | [], _, _, _, _, _, h => by
    simp only [parseMapLoop, Outcome.ok.injEq, Prod.mk.injEq] at h
    obtain ⟨rfl, rfl⟩ := h
    simp
  | d :: rest, i, result, errs, out, errs', h => by
    simp only [parseMapLoop] at h
    cases hsplit : splitColon d.data with
    | none =>
      simp only [hsplit] at h
      obtain ⟨h1, h2⟩ := parseMapLoop_ok hres h
      refine ⟨?_, ?_⟩
      · rw [h1]
        simp [entryPair, hsplit]
      · rw [h2]
        simp [hsplit, noColonError, Err.isFieldError]
    | some kv =>
      obtain ⟨k, v⟩ := kv
      simp only [hsplit] at h
      obtain ⟨key, hkey, h⟩ := Outcome.bind_eq_ok h
      obtain ⟨value, hvalue, h⟩ := Outcome.bind_eq_ok h
      split at h
      · -- the key or the value fails: the entry is skipped
        rename_i hfail
        obtain ⟨h1, h2⟩ := parseMapLoop_ok hres h
        have hpair : entryPair rec keyType valueType d = none := by
          simp only [entryPair, hsplit, hkey, hvalue]
          simp only [Bool.or_eq_true, decide_eq_true_eq] at hfail
          rcases hfail with hk | hv
          · cases hke : key.errs with
            | nil => simp [hke] at hk
            | cons a l => rfl
          · cases hke : key.errs with
            | nil =>
              cases hve : value.errs with
              | nil => simp [hve] at hv
              | cons a l => rfl
            | cons a l => rfl
        refine ⟨?_, ?_⟩
        · rw [h1]
          simp [hpair]
        · rw [h2]
          have hf : ((if value.errs.length > 0 then
                (if key.errs.length > 0 then errs ++ addErrorsPrefixes (itoa i) key.errs
                  else errs) ++ addErrorsPrefixes (itoa i) value.errs
              else if key.errs.length > 0 then errs ++ addErrorsPrefixes (itoa i) key.errs
                else errs).filter fun e => !e.isFieldError)
              = errs.filter fun e => !e.isFieldError := by
            split <;> split <;>
              simp [List.filter_append, filter_not_fieldError_prefixed]
          rw [hf]
          simp [hsplit]
      · rename_i hfail
        simp only [Bool.or_eq_true, decide_eq_true_eq, not_or] at hfail
        have hk := length_pos_false hfail.1
        have hv := length_pos_false hfail.2
        obtain ⟨kx, hkx⟩ := Option.isSome_iff_exists.mp (hres _ _ _ hkey hk)
        obtain ⟨vx, hvx⟩ := Option.isSome_iff_exists.mp (hres _ _ _ hvalue hv)
        obtain ⟨entries, hset, h⟩ := Outcome.bind_eq_ok h
        rw [hkx, hvx] at hset
        have hentries := setMapIndex_ok hset
        obtain ⟨h1, h2⟩ := parseMapLoop_ok hres h
        have hpair : entryPair rec keyType valueType d = some (kx.val, vx.val) := by
          simp [entryPair, hsplit, hkey, hvalue, hk, hv, hkx, hvx]
        refine ⟨?_, ?_⟩
        · rw [h1, hentries]
          simp [hpair]
        · rw [h2]
          simp [hfail.1, hfail.2, hsplit]

theorem splitColon_of_append :
    ∀ (k v : List Char), ':' ∉ k → splitColon (k ++ ':' :: v) = some (k, v)
  | [], v, _ => by simp [splitColon]
  | a :: k, v, hk => by
    have ha : a ≠ ':' := fun h => hk (by simp [h])
    have ih := splitColon_of_append k v (fun hm => hk (List.mem_cons_of_mem _ hm))
    simp [splitColon, ha, ih]

theorem splitColon_eq_some :
    ∀ {cs k v : List Char}, splitColon cs = some (k, v) → cs = k ++ ':' :: v ∧ ':' ∉ k
  | [], _, _, h => by simp [splitColon] at h
  | c :: cs, k, v, h => by
    unfold splitColon at h
    by_cases hc : c = ':'
    · subst hc
      simp only [if_true, Option.some.injEq, Prod.mk.injEq] at h
      obtain ⟨rfl, rfl⟩ := h
      simp
    · simp only [hc, if_false] at h
      cases hs : splitColon cs with
      | none => simp [hs] at h
      | some kv =>
        obtain ⟨k', v'⟩ := kv
        simp only [hs, Option.some.injEq, Prod.mk.injEq] at h
        obtain ⟨rfl, rfl⟩ := h
        obtain ⟨h1, h2⟩ := splitColon_eq_some hs
        refine ⟨by simp [h1], ?_⟩
        intro hm
        rcases List.mem_cons.mp hm with h | h
        · exact hc h.symm
        · exact h2 h

theorem splitColon_some {cs k v : List Char} :
    splitColon cs = some (k, v) ↔ cs = k ++ ':' :: v ∧ ':' ∉ k :=
  ⟨splitColon_eq_some, fun h => by rw [h.1]; exact splitColon_of_append k v h.2⟩

theorem splitColon_none {cs : List Char} : splitColon cs = none ↔ ':' ∉ cs := by
  induction cs with
  | nil => simp [splitColon]
  | cons c cs ih =>
    unfold splitColon
    by_cases hc : c = ':'
    · simp [hc]
    · cases hs : splitColon cs with
      | none =>
        have := ih.mp hs
        simp [hc, this, Ne.symm hc]
      | some kv =>
        have hm : ':' ∈ cs := by
          by_contra hn
          rw [ih.mpr hn] at hs
          cases hs
        simp [hc, hm]

/-! ## C11: the length of an array default -/

/-- C11, counterexample: for the array type `[1][2]int` and the default
`1`, the number of lexed fields is the declared length, 1; the decode of the
one element, an array of length 2, fails on its own length, and `parseArray`
returns that error under the index 0: an error that is `ErrInvalidFormat` for
`errors.Is`, although the count of the fields equals the declared length. -/
theorem nested_array_invalidFormat :
    (asList "1").length = (Ty.array 1 (.array 2 (.prim .int))).len
      ∧ parseArray goLib (parse goLib 1)
          (valueOf (.array 1 (.array 2 (.prim .int))) (.array [.array [.int 0, .int 0]]))
          "1" true
        = .ok ⟨.array [.array [.int 0, .int 0]],
            some ⟨.array 1 (.array 2 (.prim .int)), .array [.array [.int 0, .int 0]], true, false⟩,
            [.fieldError "0" (.invalidFormat "expected 2 values, got 1")]⟩
      ∧ (Err.fieldError "0" (.invalidFormat "expected 2 values, got 1")).isInvalidFormat = true :=
  ⟨rfl, rfl, rfl⟩

/-- C11, amended: for every array type and every default text, when the number
of fields that `asList` lexes differs from the declared length, `parseArray`
returns no value and one error, the `ErrInvalidFormat` error
`expected N values, got M`; when the two are equal, every error that it returns
is an error of the decode of an element, under the index of that element.  So
`parseArray` returns an `ErrInvalidFormat` error of its own (not under an
index) if and only if the number of lexed fields differs from the declared
length. -/
theorem parseArray_length_error (lib : Lib) (rec : ParseFn) (target : Value) (value : String) :
    ((asList value).length ≠ target.ty.len →
        parseArray lib rec target value true
          = .ok ⟨target.val, none,
              [.invalidFormat ("expected " ++ toString target.ty.len ++ " values, got "
                ++ toString (asList value).length)]⟩)
      ∧ (∀ p, parseArray lib rec target value true = .ok p →
          (asList value).length = target.ty.len →
          ∀ e ∈ p.errs, ∃ (j : Nat) (d : String) (r : Parsed) (err : Err),
            (asList value)[j]? = some d
            ∧ rec (valueOf (lib.elem target.ty) (zeroValue (lib.elem target.ty))) d true true
                = .ok r
            ∧ err ∈ r.errs ∧ e = addErrorPrefix (itoa j) err)
      ∧ (∀ p, parseArray lib rec target value true = .ok p →
          ((∃ detail, Err.invalidFormat detail ∈ p.errs)
            ↔ (asList value).length ≠ target.ty.len)) := by
  have hne : (asList value).length ≠ target.ty.len →
      parseArray lib rec target value true
        = .ok ⟨target.val, none,
            [.invalidFormat ("expected " ++ toString target.ty.len ++ " values, got "
              ++ toString (asList value).length)]⟩ := by
    intro hlen
    simp [parseArray, hlen]
  have heq : ∀ p, parseArray lib rec target value true = .ok p →
      (asList value).length = target.ty.len →
      ∀ e ∈ p.errs, ∃ (j : Nat) (d : String) (r : Parsed) (err : Err),
        (asList value)[j]? = some d
        ∧ rec (valueOf (lib.elem target.ty) (zeroValue (lib.elem target.ty))) d true true = .ok r
        ∧ err ∈ r.errs ∧ e = addErrorPrefix (itoa j) err := by
    intro p h hlen e he
    unfold parseArray at h
    simp only [Bool.not_true, Bool.false_eq_true, if_false, ne_eq, hlen, not_true_eq_false] at h
    obtain ⟨⟨elems, errs⟩, hl, h⟩ := Outcome.bind_eq_ok h
    simp only [Outcome.pure_eq, Outcome.ok.injEq] at h
    subst h
    obtain ⟨_, herrs⟩ := parseListLoop_ok hl
    simp only [List.nil_append] at herrs
    simp only at he
    rw [herrs] at he
    obtain ⟨j, d, r, err, hj, hr, herr, hee⟩ := mem_listErrs he
    exact ⟨j, d, r, err, hj, hr, herr, by simpa using hee⟩
  refine ⟨hne, heq, ?_⟩
  intro p h
  constructor
  · rintro ⟨detail, he⟩ hlen
    obtain ⟨j, d, r, err, _, _, _, hee⟩ := heq p h hlen _ he
    have hfe := addErrorPrefix_isFieldError (itoa j) err
    rw [← hee] at hfe
    cases hfe
  · intro hlen
    rw [hne hlen] at h
    simp only [Outcome.ok.injEq] at h
    subst h
    exact ⟨_, List.mem_singleton.mpr rfl⟩

/-- C11, witness: for a `[2]int`, the default `1,2,3` has three fields and
gives the length error alone; the default `1,x` has two fields and gives the
error of the second element under the index 1, which is not an
`ErrInvalidFormat` error of `parseArray`. -/
theorem parseArray_length_error_witness :
    (asList "1,2,3").length ≠ (Ty.array 2 (.prim .int)).len
      ∧ parseArray goLib (parse goLib 1)
          (valueOf (.array 2 (.prim .int)) (.array [.int 0, .int 0])) "1,2,3" true
        = .ok ⟨.array [.int 0, .int 0], none, [.invalidFormat "expected 2 values, got 3"]⟩
      ∧ parseArray goLib (parse goLib 1)
          (valueOf (.array 2 (.prim .int)) (.array [.int 0, .int 0])) "1,x" true
        = .ok ⟨.array [.int 0, .int 0],
            some ⟨.array 2 (.prim .int), .array [.int 1, .int 0], true, false⟩,
            [.fieldError "1" (syntaxError "Atoi" "x")]⟩
      ∧ ¬ ∃ detail, Err.invalidFormat detail ∈ [Err.fieldError "1" (syntaxError "Atoi" "x")] :=
  ⟨by decide,
    (parseArray_length_error goLib (parse goLib 1)
      (valueOf (.array 2 (.prim .int)) (.array [.int 0, .int 0])) "1,2,3").1 (by decide),
    rfl,
    fun h => ((parseArray_length_error goLib (parse goLib 1)
      (valueOf (.array 2 (.prim .int)) (.array [.int 0, .int 0])) "1,x").2.2
        ⟨.array [.int 0, .int 0],
            some ⟨.array 2 (.prim .int), .array [.int 1, .int 0], true, false⟩,
            [.fieldError "1" (syntaxError "Atoi" "x")]⟩ rfl).mp h rfl⟩

/-! ## C12: the entries of a map default -/

/-- What `parseMap` returns, for the calls that return: for every default
text decoded by `parseMap`, the map that it returns
holds the pairs of the lexed entries that split at a colon and whose key and
value both decode, inserted in order (a later entry overrides an earlier one
with the same key; the other entries are not inserted); the errors that are
not under an index are one `ErrInvalidFormat` error for each entry without a
colon, in order; and an entry splits into the text before its first colon and
everything after it. -/
theorem parseMap_entries (lib : Lib) (fuel : Nat) (target : Value) (value : String)
    (p : Parsed) (h : parseMap lib (parse lib fuel) target value true = .ok p) :
    p.result = some (valueOf target.ty (.map (some (mapOfPairs
        ((asList value).filterMap
          (entryPair (parse lib fuel) (lib.key target.ty) (lib.elem target.ty)))))))
      ∧ p.errs.filter (fun e => !e.isFieldError)
        = ((asList value).filter fun d => (splitColon d.data).isNone).map (noColonError lib)
      ∧ (∀ cs k v, splitColon cs = some (k, v) ↔ cs = k ++ ':' :: v ∧ ':' ∉ k)
      ∧ (∀ cs, splitColon cs = none ↔ ':' ∉ cs) := by
  unfold parseMap at h
  simp only [Bool.not_true, Bool.false_eq_true, if_false] at h
  obtain ⟨⟨entries, errs⟩, hloop, h⟩ := Outcome.bind_eq_ok h
  simp only [Outcome.pure_eq, Outcome.ok.injEq] at h
  subst h
  obtain ⟨h1, h2⟩ := parseMapLoop_ok (fun _ _ _ hp he => parse_result hp he) hloop
  refine ⟨?_, ?_, fun _ _ _ => splitColon_some, fun _ => splitColon_none⟩
  · simp only [h1, mapOfPairs]
  · simpa using h2

/-- An example of the above: the default `a:1,bad,a:2,c:x` of a `map[string]int` gives
the map that holds `a` with 2, the `ErrInvalidFormat` error of `bad`, and the
error of the value `x` under the index 3. -/
theorem parseMap_entries_witness :
    parseMap goLib (parse goLib 1) (valueOf stringIntMap (.map none)) "a:1,bad,a:2,c:x" true
        = .ok ⟨.map none, some (valueOf stringIntMap (.map (some [(.str "a", .int 2)]))),
            [.invalidFormat "expected \"<key>:<value>\", got \"bad\"",
              .fieldError "3" (syntaxError "Atoi" "x")]⟩
      ∧ some (valueOf stringIntMap (.map (some [(.str "a", .int 2)])))
        = some (valueOf stringIntMap (.map (some (mapOfPairs
            ((asList "a:1,bad,a:2,c:x").filterMap
              (entryPair (parse goLib 1) (goLib.key stringIntMap)
                (goLib.elem stringIntMap)))))))
      ∧ [Err.invalidFormat "expected \"<key>:<value>\", got \"bad\"",
            Err.fieldError "3" (syntaxError "Atoi" "x")].filter (fun e => !e.isFieldError)
        = ((asList "a:1,bad,a:2,c:x").filter fun d => (splitColon d.data).isNone).map
            (noColonError goLib)
      ∧ (∀ cs k v, splitColon cs = some (k, v) ↔ cs = k ++ ':' :: v ∧ ':' ∉ k)
      ∧ (∀ cs, splitColon cs = none ↔ ':' ∉ cs) :=
  ⟨rfl,
    parseMap_entries goLib 1 (valueOf stringIntMap (.map none)) "a:1,bad,a:2,c:x"
      ⟨.map none, some (valueOf stringIntMap (.map (some [(.str "a", .int 2)]))),
        [.invalidFormat "expected \"<key>:<value>\", got \"bad\"",
          .fieldError "3" (syntaxError "Atoi" "x")]⟩ rfl⟩

/-- C12, the code at the failing input: for a `map[Name]int`, where `Name` is
declared as `type Name string`, and the default `a:1`, the one entry splits at
its colon and its key and its value both decode, to `a` and 1; and `parseMap`
does not return the map that holds the pair: whatever the depth of recursion
allowed, it panics in `reflect.Value.SetMapIndex`, for the decoded key has the
type `string` and not the type `Name`. -/
theorem parseMap_panics_on_derived_string_key (fuel : Nat) :
    entryPair (parse goLib (fuel + 1)) nameType (.prim .int) "a:1" = some (.str "a", .int 1)
    ∧ parseMap goLib (parse goLib (fuel + 1)) (valueOf (.map nameType (.prim .int)) (.map none))
        "a:1" true
      = .panic "reflect.Value.SetMapIndex: value is not assignable to the key type" :=
  ⟨rfl, rfl⟩

/-! ## C13: the two notations of a file mode -/

/-- C13, counterexample: `754` is read in octal as 0o754, which is 492, and
`rwxr-xr-x` is read as 0o755, which is 493 (the values that the test expects
for the fields `V` and `W`): the two texts do not yield the same value. -/
theorem fileMode_754_differs :
    parseFileMode goLib "754" = (492, []) ∧ parseFileMode goLib "rwxr-xr-x" = (493, [])
      ∧ (parseFileMode goLib "754").1 ≠ (parseFileMode goLib "rwxr-xr-x").1 := by
  refine ⟨rfl, rfl, ?_⟩
  decide

/-- C13, amended: `parseFileMode` returns the same permission value, 0o755
(493), for the text `755` and for the text `rwxr-xr-x`, with no error for
either, when `strconv.ParseUint` reads `755` in base 8 as 493 and rejects
`rwxr-xr-x`. -/
theorem fileMode_755_agrees (lib : Lib) (e : Err)
    (hoctal : lib.parseUint "755" 8 32 = .ok 493)
    (hsymbolic : lib.parseUint "rwxr-xr-x" 8 32 = .error e) :
    parseFileMode lib "755" = (493, []) ∧ parseFileMode lib "rwxr-xr-x" = (493, []) := by
  constructor
  · simp [parseFileMode, hoctal, wrapUint]
  · have hlen : (utf8Bytes "rwxr-xr-x").length = 9 := by decide
    have hmode : parseFileModeRwxrwxrwx "rwxr-xr-x" = 493 := by decide
    simp [parseFileMode, hsymbolic, hlen, hmode]

/-- C13, witness: `strconv.ParseUint`, as the library of the examples has it. -/
theorem fileMode_755_agrees_witness :
    goLib.parseUint "755" 8 32 = .ok 493
      ∧ goLib.parseUint "rwxr-xr-x" 8 32 = .error (syntaxError "ParseUint" "rwxr-xr-x")
      ∧ parseFileMode goLib "755" = (493, []) ∧ parseFileMode goLib "rwxr-xr-x" = (493, []) :=
  ⟨rfl, rfl, fileMode_755_agrees goLib (syntaxError "ParseUint" "rwxr-xr-x") rfl rfl⟩

/-! ## C14: a text that is not a file mode -/

/-- C14, the code at the failing input: `abcdefghi` is not a numeral in base 8
and is not in the form `rwxrwxrwx`, and `parseFileMode` returns the mode 0 for
it, without error: after the octal parse has failed only the length is
checked.  (A text of five bytes does get the two errors, as the claim says.) -/
theorem fileMode_accepts_nine_bytes :
    goLib.parseUint "abcdefghi" 8 32 = .error (syntaxError "ParseUint" "abcdefghi")
      ∧ parseFileMode goLib "abcdefghi" = (0, [])
      ∧ parseFileMode goLib "rwxr-"
        = (0, [syntaxError "ParseUint" "rwxr-",
            .invalidFormat "rwxrwxrwx expects 9 characters, got 5"]) :=
  ⟨rfl, rfl, rfl⟩

/-! ## C15: the layouts of a time -/

theorem tryLayouts_first (lib : Lib) (value : String) (parsed : Val) :
    ∀ (layouts : List String) (errs : List Err) (i : Nat) (layout : String),
      layouts[i]? = some layout → lib.timeParse layout value = .ok parsed →
      (∀ (j : Nat) (l : String), j < i → layouts[j]? = some l → ∃ e, lib.timeParse l value = .error e) →
      tryLayouts lib value layouts errs = (parsed, [])
  | [], _, _, _, h, _, _ => by simp at h
  | l :: rest, errs, 0, layout, h, hok, _ => by
    simp only [List.getElem?_cons_zero, Option.some.injEq] at h
    subst h
    simp [tryLayouts, hok]
  | l :: rest, errs, i + 1, layout, h, hok, hfail => by
    obtain ⟨e, he⟩ := hfail 0 l (Nat.succ_pos i) (by simp)
    simp only [tryLayouts, he]
    refine tryLayouts_first lib value parsed rest _ i layout (by simpa using h) hok ?_
    intro j l' hj hl'
    exact hfail (j + 1) l' (Nat.succ_lt_succ hj) (by simpa using hl')

theorem tryLayouts_none (lib : Lib) (value : String) :
    ∀ (layouts : List String) (errs : List Err),
      (∀ l ∈ layouts, ∃ e, lib.timeParse l value = .error e) →
      ∃ errs', tryLayouts lib value layouts errs = (zeroValue Ty.time, errs ++ errs')
        ∧ errs'.length = layouts.length
        ∧ ∀ (i : Nat) (l : String), layouts[i]? = some l →
            ∃ e, errs'[i]? = some e ∧ lib.timeParse l value = .error e
  | [], errs, _ => ⟨[], by simp [tryLayouts], rfl, by simp⟩
  | l :: rest, errs, hall => by
    obtain ⟨e, he⟩ := hall l (List.mem_cons_self _ _)
    obtain ⟨errs', h1, h2, h3⟩ := tryLayouts_none lib value rest (errs ++ [e])
      (fun l' hl' => hall l' (List.mem_cons_of_mem _ hl'))
    refine ⟨e :: errs', by simp [tryLayouts, he, h1], by simp [h2], ?_⟩
    intro i l' hl'
    cases i with
    | zero =>
      simp only [List.getElem?_cons_zero, Option.some.injEq] at hl'
      subst hl'
      exact ⟨e, by simp, he⟩
    | succ i =>
      obtain ⟨e', h4, h5⟩ := h3 i l' (by simpa using hl')
      exact ⟨e', by simpa using h4, h5⟩

/-- C15: for every text, `parseTime` tries the six layouts `time.RFC3339`,
`time.RFC3339Nano`, `time.DateTime`, `time.DateOnly`, `time.TimeOnly` and
`15:04` in that order: when a layout parses and all the layouts before it
fail, it returns the value of that layout and no error; when all six fail, it
returns the zero time and six errors, the error of each layout at the index of
the layout. -/
theorem parseTime_tries_layouts_in_order (lib : Lib) (value : String) :
    parseTime lib value = tryLayouts lib value timeLayouts []
      ∧ (∀ (i : Nat) (layout : String) (parsed : Val), timeLayouts[i]? = some layout →
          lib.timeParse layout value = .ok parsed →
          (∀ (j : Nat) (l : String), j < i → timeLayouts[j]? = some l → ∃ e, lib.timeParse l value = .error e) →
          parseTime lib value = (parsed, []))
      ∧ ((∀ l ∈ timeLayouts, ∃ e, lib.timeParse l value = .error e) →
          ∃ errs, parseTime lib value = (zeroValue Ty.time, errs) ∧ errs.length = 6
            ∧ ∀ (i : Nat) (l : String), timeLayouts[i]? = some l →
                ∃ e, errs[i]? = some e ∧ lib.timeParse l value = .error e) := by
  have heq : parseTime lib value = tryLayouts lib value timeLayouts [] := by
    unfold parseTime
    simp only [timeLayouts, tryLayouts]
    cases lib.timeParse layoutRFC3339 value <;> simp only
    cases lib.timeParse layoutRFC3339Nano value <;> simp only
    cases lib.timeParse layoutDateTime value <;> simp only
    cases lib.timeParse layoutDateOnly value <;> simp only
    cases lib.timeParse layoutTimeOnly value <;> simp only
    cases lib.timeParse layoutHourMinute value <;> simp
  refine ⟨heq, ?_, ?_⟩
  · intro i layout parsed hi hok hfail
    rw [heq]
    exact tryLayouts_first lib value parsed timeLayouts [] i layout hi hok hfail
  · intro hall
    obtain ⟨errs, h1, h2, h3⟩ := tryLayouts_none lib value timeLayouts [] hall
    exact ⟨errs, by rw [heq, h1]; simp, by simpa [timeLayouts] using h2, h3⟩

/-- C15, witness: with a `time.Parse` that reads `1982-04-12` with the layout
`time.DateOnly` alone, `parseTime` returns that date without error, the three
layouts before it having failed; and for the text `tomorrow`, which no layout
reads, it returns the zero time and six errors. -/
theorem parseTime_tries_layouts_in_order_witness :
    parseTime dateLib "1982-04-12" = (.struct [.uint 0, .int 62523014400, .ptr none], [])
      ∧ ∃ errs, parseTime dateLib "tomorrow" = (zeroValue Ty.time, errs) ∧ errs.length = 6
          ∧ ∀ (i : Nat) (l : String), timeLayouts[i]? = some l →
              ∃ e, errs[i]? = some e ∧ dateLib.timeParse l "tomorrow" = .error e :=
  ⟨(parseTime_tries_layouts_in_order dateLib "1982-04-12").2.1 3 layoutDateOnly
      (.struct [.uint 0, .int 62523014400, .ptr none]) rfl rfl
      (fun j l hj hl => by
        interval_cases j <;> simp [timeLayouts] at hl <;> subst hl <;> exact ⟨_, rfl⟩),
    (parseTime_tries_layouts_in_order dateLib "tomorrow").2.2
      (fun l hl => by
        simp only [timeLayouts, List.mem_cons, List.mem_singleton, List.not_mem_nil,
          or_false] at hl
        rcases hl with h | h | h | h | h | h <;> subst h <;> exact ⟨_, rfl⟩)⟩

/-! ## C16: pointers and the two policies -/

theorem parsePointerResult_spec (pointedType : Ty) (target : Val) (x : Value) :
    (x.ro = false → x.ty.assignableTo pointedType = true →
        parsePointerResult pointedType target (some x)
          = .ok ⟨target, some (freshPointer pointedType x.val), []⟩)
      ∧ (∀ p, parsePointerResult pointedType target (some x) = .ok p →
          p = ⟨target, some (freshPointer pointedType x.val), []⟩) := by
  constructor
  · intro hro hassign
    simp [parsePointerResult, Value.Set, hro, hassign, freshPointer]
  · intro p h
    unfold parsePointerResult at h
    obtain ⟨v, hv, h⟩ := Outcome.bind_eq_ok h
    obtain ⟨y, hy, hvy, _⟩ := Value.Set_ok hv
    simp only [Option.some.injEq] at hy
    subst hy
    simp only [Outcome.pure_eq, Outcome.ok.injEq] at h
    rw [← h, hvy]
    rfl

/-- What `parsePointer` returns when `reflect` lets the decoded value be set
into the new pointee: for every pointer slot with a default whose pointee
decodes without error, with value `x`.  If the slot is nil, `parsePointer` under either policy
returns a new pointer that holds `x` and no error, and leaves the slot nil (it
does return when `reflect` lets `x` be set into the new pointee).  If the slot
is not nil and the policy is that of `Complete`, it returns no value and no
error, and the slot and its pointee are as they were.  If the slot is not nil
and the policy is that of `Initialize`, it returns a new pointer that holds
`x` and no error. -/
theorem parsePointer_policy (lib : Lib) (rec : ParseFn) (target : Value) (value : String) :
    (∀ (overwrite : Bool) (r : Parsed) (x : Value), target.val = .ptr none →
        rec ⟨lib.elem target.ty, zeroValue (lib.elem target.ty), true, false⟩ value true
          overwrite = .ok r →
        r.errs = [] → r.result = some x →
        (x.ro = false → x.ty.assignableTo (lib.elem target.ty) = true →
          parsePointer lib rec target value true overwrite
            = .ok ⟨.ptr none, some (freshPointer (lib.elem target.ty) x.val), []⟩)
        ∧ (∀ p, parsePointer lib rec target value true overwrite = .ok p →
            p = ⟨.ptr none, some (freshPointer (lib.elem target.ty) x.val), []⟩))
      ∧ (∀ (pointee : Val), target.val = .ptr (some pointee) →
          parsePointer lib rec target value true false = .ok ⟨.ptr (some pointee), none, []⟩)
      ∧ (∀ (pointee : Val) (r : Parsed) (x : Value), target.val = .ptr (some pointee) →
          rec ⟨lib.elem target.ty, pointee, true, target.ro⟩ value true true = .ok r →
          r.errs = [] → r.result = some x →
          (x.ro = false → x.ty.assignableTo (lib.elem target.ty) = true →
            parsePointer lib rec target value true true
              = .ok ⟨.ptr (some r.target), some (freshPointer (lib.elem target.ty) x.val), []⟩)
          ∧ (∀ p, parsePointer lib rec target value true true = .ok p →
              p = ⟨.ptr (some r.target), some (freshPointer (lib.elem target.ty) x.val),
                []⟩)) := by
  refine ⟨?_, ?_, ?_⟩
  · intro overwrite r x hnil hr herrs hx
    have hunfold : parsePointer lib rec target value true overwrite
        = parsePointerResult (lib.elem target.ty) (.ptr none) (some x) := by
      simp [parsePointer, hnil, hr, herrs, hx]
    rw [hunfold]
    exact parsePointerResult_spec _ _ _
  · intro pointee hsome
    simp [parsePointer, hsome]
  · intro pointee r x hsome hr herrs hx
    have hunfold : parsePointer lib rec target value true true
        = parsePointerResult (lib.elem target.ty) (.ptr (some r.target)) (some x) := by
      simp [parsePointer, hsome, hr, herrs, hx]
    rw [hunfold]
    exact parsePointerResult_spec _ _ _

/-- An example of the above: a `*string` slot with the default `some default`.  Nil, it
gets a new pointer to `some default` under either policy; pointing to `mine`,
it is left alone under the policy of `Complete` and gets a new pointer to
`some default` under the policy of `Initialize`. -/
theorem parsePointer_policy_witness :
    parsePointer goLib (parse goLib 1) ⟨.ptr (.prim .string), .ptr none, true, false⟩
        "some default" true false
      = .ok ⟨.ptr none, some (freshPointer (.prim .string) (.str "some default")), []⟩
    ∧ parsePointer goLib (parse goLib 1) ⟨.ptr (.prim .string), .ptr none, true, false⟩
        "some default" true true
      = .ok ⟨.ptr none, some (freshPointer (.prim .string) (.str "some default")), []⟩
    ∧ parsePointer goLib (parse goLib 1)
        ⟨.ptr (.prim .string), .ptr (some (.str "mine")), true, false⟩ "some default" true false
      = .ok ⟨.ptr (some (.str "mine")), none, []⟩
    ∧ parsePointer goLib (parse goLib 1)
        ⟨.ptr (.prim .string), .ptr (some (.str "mine")), true, false⟩ "some default" true true
      = .ok ⟨.ptr (some (.str "mine")),
          some (freshPointer (.prim .string) (.str "some default")), []⟩ :=
  ⟨((parsePointer_policy goLib (parse goLib 1)
        ⟨.ptr (.prim .string), .ptr none, true, false⟩ "some default").1 false
      ⟨.str "", some (valueOf (.prim .string) (.str "some default")), []⟩
      (valueOf (.prim .string) (.str "some default")) rfl rfl rfl rfl).1 rfl rfl,
    ((parsePointer_policy goLib (parse goLib 1)
        ⟨.ptr (.prim .string), .ptr none, true, false⟩ "some default").1 true
      ⟨.str "", some (valueOf (.prim .string) (.str "some default")), []⟩
      (valueOf (.prim .string) (.str "some default")) rfl rfl rfl rfl).1 rfl rfl,
    (parsePointer_policy goLib (parse goLib 1)
        ⟨.ptr (.prim .string), .ptr (some (.str "mine")), true, false⟩ "some default").2.1
      (.str "mine") rfl,
    ((parsePointer_policy goLib (parse goLib 1)
        ⟨.ptr (.prim .string), .ptr (some (.str "mine")), true, false⟩ "some default").2.2
      (.str "mine") ⟨.str "mine", some (valueOf (.prim .string) (.str "some default")), []⟩
      (valueOf (.prim .string) (.str "some default")) rfl rfl rfl rfl).1 rfl rfl⟩

/-- The field `H` of the test, a `*string` with the default `some default`:
nil under `Complete` and under `Initialize`, then pointing to `mine` under
`Complete` and under `Initialize`. -/
theorem pointer_field_examples :
    Complete goLib 2 (pointerTo pointerRecord (.struct [.ptr none]))
        = .ok ⟨pointerTo pointerRecord (.struct [.ptr (some (.str "some default"))]), none⟩
      ∧ Initialize goLib 2 (pointerTo pointerRecord (.struct [.ptr none]))
        = .ok ⟨pointerTo pointerRecord (.struct [.ptr (some (.str "some default"))]), none⟩
      ∧ Complete goLib 2 (pointerTo pointerRecord (.struct [.ptr (some (.str "mine"))]))
        = .ok ⟨pointerTo pointerRecord (.struct [.ptr (some (.str "mine"))]), none⟩
      ∧ Initialize goLib 2 (pointerTo pointerRecord (.struct [.ptr (some (.str "mine"))]))
        = .ok ⟨pointerTo pointerRecord (.struct [.ptr (some (.str "some default"))]), none⟩ :=
  ⟨rfl, rfl, rfl, rfl⟩

/-- C16, the code at the failing input: for a slot of type `*Name`, where
`Name` is declared as `type Name string`, and the default `x`, the decode of
the pointee succeeds, with the value `x`; and `parsePointer` produces no
pointer: whatever the depth of recursion allowed, it panics in
`reflect.Value.Set`, when the slot is nil under either policy and when the
slot points to `old` under the policy of `Initialize`, for the decoded value
has the type `string` and not the type `Name`. -/
theorem parsePointer_panics_on_derived_string (fuel : Nat) :
    (∀ overwrite, parse goLib (fuel + 1) ⟨nameType, .str "", true, false⟩ "x" true overwrite
      = .ok ⟨.str "", some (valueOf (.prim .string) (.str "x")), []⟩)
    ∧ parse goLib (fuel + 1) ⟨nameType, .str "old", true, false⟩ "x" true true
      = .ok ⟨.str "old", some (valueOf (.prim .string) (.str "x")), []⟩
    ∧ (∀ overwrite, parsePointer goLib (parse goLib (fuel + 1))
          ⟨.ptr nameType, .ptr none, true, false⟩ "x" true overwrite
        = .panic "reflect.Set: value is not assignable to the type of the slot")
    ∧ parsePointer goLib (parse goLib (fuel + 1))
        ⟨.ptr nameType, .ptr (some (.str "old")), true, false⟩ "x" true true
      = .panic "reflect.Set: value is not assignable to the type of the slot" :=
  ⟨fun _ => rfl, rfl, fun overwrite => by cases overwrite <;> rfl, rfl⟩

/-! ## C17: the error of a scalar decoder -/

/-- C17, the code at the failing input: the decode of the token `abc` for an
`int` fails with the error of `strconv.Atoi` itself, which is not
`ErrInvalidFormat` for `errors.Is`; and so does `Complete` on a record whose
field `A` of type `int` has the default `abc`. -/
theorem scalar_error_is_not_invalidFormat :
    parse goLib 1 (valueOf (.prim .int) (.int 0)) "abc" true false
        = .ok ⟨.int 0, none,
            [.external "strconv.Atoi" "strconv.Atoi: parsing \"abc\": invalid syntax"]⟩
      ∧ (Err.external "strconv.Atoi"
          "strconv.Atoi: parsing \"abc\": invalid syntax").isInvalidFormat = false
      ∧ Complete goLib 1 (pointerTo badTagRecord (.struct [.int 0]))
        = .ok ⟨pointerTo badTagRecord (.struct [.int 0]),
            some (.join [.fieldError "A"
              (.external "strconv.Atoi" "strconv.Atoi: parsing \"abc\": invalid syntax")])⟩
      ∧ (Err.fieldError "A" (.external "strconv.Atoi"
          "strconv.Atoi: parsing \"abc\": invalid syntax")).isInvalidFormat = false :=
  ⟨rfl, rfl, rfl, rfl⟩

/-! ## C18: elements with a text-decoding capability -/

/-- C18, the code at the failing input: the declared type `Level` decodes
`low` and `high` through its `UnmarshalText`, and the field `L` of that type
gets its default `high` that way.  The elements of the slice `Ls`, of the
array `A` and of the map `M` do not: `parseList` and `parseMap` hand a value
that is not addressable to `parse`, which then skips the capability and decodes
by kind, so every element fails in `strconv.Atoi` and the three fields stay as
they were. -/
theorem text_capability_not_used_for_elements :
    Complete levelLib 2
        (pointerTo levelRecord
          (.struct [.int 0, .slice none, .array [.int 0, .int 0], .map none]))
      = .ok ⟨pointerTo levelRecord
            (.struct [.int 1, .slice none, .array [.int 0, .int 0], .map none]),
          some (.join [
            .fieldError "Ls.0" (syntaxError "Atoi" "low"),
            .fieldError "Ls.1" (syntaxError "Atoi" "high"),
            .fieldError "A.0" (syntaxError "Atoi" "low"),
            .fieldError "A.1" (syntaxError "Atoi" "high"),
            .fieldError "M.0" (syntaxError "Atoi" "high")])⟩ :=
  rfl

/-! ## C19: types derived from string -/

/-- C19, the code at the failing input: on a zero field of the type `Name`,
declared as `type Name string`, with the default `x`, `Complete` and
`Initialize` panic in `reflect.Value.Set`: the case `reflect.String` of
`parseKind` returns a value of type `string`, which `reflect` does not assign
to a slot of type `Name`.  A derived integer type is converted and set. -/
theorem derived_string_field_panics :
    Complete goLib 1 (pointerTo derivedStringRecord (.struct [.str ""]))
        = .panic "reflect.Set: value is not assignable to the type of the slot"
      ∧ Initialize goLib 1 (pointerTo derivedStringRecord (.struct [.str ""]))
        = .panic "reflect.Set: value is not assignable to the type of the slot"
      ∧ Complete goLib 1 (pointerTo derivedIntRecord (.struct [.int 0]))
        = .ok ⟨pointerTo derivedIntRecord (.struct [.int 1]), none⟩ :=
  ⟨rfl, rfl, rfl⟩

/-! ## C20: termination -/

theorem node_pointer_step (rec : ParseFn) (overwrite : Bool)
    (h : rec nodeSlot "" true overwrite = .outOfFuel) :
    parseBody nodeLib rec nextSlot "" true overwrite = .outOfFuel := by
  have hstep : parseBody nodeLib rec nextSlot "" true overwrite
      = (rec nodeSlot "" true overwrite >>= fun r =>
          if r.errs.length > 0 then pure ⟨.ptr none, none, r.errs⟩
          else parsePointerResult nodeType (.ptr none) r.result) := rfl
  rw [hstep, h]
  rfl

theorem node_struct_step (rec : ParseFn) (overwrite : Bool)
    (h : rec nextSlot "" true overwrite = .outOfFuel) :
    parseStruct rec nodeSlot overwrite = .outOfFuel := by
  have hfield : parseField rec nodeSlot overwrite
      (exportedField "Next" (some "") (.ptr (.ref "Node"))) (.ptr none) = .outOfFuel := h
  have hstep : parseStruct rec nodeSlot overwrite
      = (parseStructLoop rec nodeSlot overwrite
          [exportedField "Next" (some "") (.ptr (.ref "Node"))] [.ptr none] >>= fun out =>
            pure ⟨.struct out.1, some ⟨nodeType, .struct out.1, true, false⟩, out.2⟩) := rfl
  rw [hstep]
  simp only [parseStructLoop, parseStructField, hfield]
  rfl

theorem node_never_returns (overwrite : Bool) :
    ∀ fuel, parse nodeLib fuel nextSlot "" true overwrite = .outOfFuel
      ∧ parse nodeLib fuel nodeSlot "" true overwrite = .outOfFuel
  | 0 => ⟨rfl, rfl⟩
  | fuel + 1 => by
    obtain ⟨h1, h2⟩ := node_never_returns overwrite fuel
    refine ⟨node_pointer_step _ overwrite h2, ?_⟩
    have hstep : parse nodeLib (fuel + 1) nodeSlot "" true overwrite
        = parseStruct (parse nodeLib fuel) nodeSlot overwrite := rfl
    rw [hstep]
    exact node_struct_step _ overwrite h1

/-- C20, the code at the failing input: on a `Node` whose field `Next`, a
`*Node` with the tag `default:""`, is nil, `Complete` and `Initialize` do not
return, whatever the depth of recursion allowed: a nil pointer with a default
makes `parsePointer` decode a new `Node`, whose `Next` is nil again. -/
theorem self_referential_record_never_returns (fuel : Nat) :
    Complete nodeLib fuel (pointerTo nodeType (.struct [.ptr none])) = .outOfFuel
      ∧ Initialize nodeLib fuel (pointerTo nodeType (.struct [.ptr none])) = .outOfFuel := by
  have hc : Complete nodeLib fuel (pointerTo nodeType (.struct [.ptr none]))
      = (parseStruct (parse nodeLib fuel) nodeSlot false >>= fun r =>
          pure ⟨some ⟨.ptr nodeType, .ptr (some r.target), false, false⟩, errorsJoin r.errs⟩) :=
    rfl
  have hi : Initialize nodeLib fuel (pointerTo nodeType (.struct [.ptr none]))
      = (parseStruct (parse nodeLib fuel) nodeSlot true >>= fun r =>
          pure ⟨some ⟨.ptr nodeType, .ptr (some r.target), false, false⟩, errorsJoin r.errs⟩) :=
    rfl
  rw [hc, hi, node_struct_step _ false (node_never_returns false fuel).1,
    node_struct_step _ true (node_never_returns true fuel).1]
  exact ⟨rfl, rfl⟩

/-! ## Lemmas on the errors of the entries -/

theorem parseMapLoop_errs {lib : Lib} {rec : ParseFn} {keyType valueType : Ty} :
    ∀ {defaults : List String} {i : Nat} {result : List (Val × Val)} {errs : List Err}
      {out : List (Val × Val)} {errs' : List Err},
      parseMapLoop lib rec keyType valueType i defaults result errs = .ok (out, errs') →
      errs' = errs ++ mapErrs lib rec keyType valueType i defaults
  | [], _, _, _, _, _, h => by
    simp only [parseMapLoop, Outcome.ok.injEq, Prod.mk.injEq] at h
    obtain ⟨-, rfl⟩ := h
    simp [mapErrs]
  | d :: rest, i, result, errs, out, errs', h => by
    simp only [parseMapLoop] at h
    cases hsplit : splitColon d.data with
    | none =>
      simp only [hsplit] at h
      rw [parseMapLoop_errs h]
      simp [mapErrs, entryErrs, hsplit, noColonError]
    | some kv =>
      obtain ⟨k, v⟩ := kv
      simp only [hsplit] at h
      obtain ⟨key, hkey, h⟩ := Outcome.bind_eq_ok h
      obtain ⟨value, hvalue, h⟩ := Outcome.bind_eq_ok h
      have hent : entryErrs lib rec keyType valueType i d
          = addErrorsPrefixes (itoa i) key.errs ++ addErrorsPrefixes (itoa i) value.errs := by
        simp [entryErrs, hsplit, elementErrs, hkey, hvalue]
      have herrs : (if value.errs.length > 0 then
            (if key.errs.length > 0 then errs ++ addErrorsPrefixes (itoa i) key.errs
              else errs) ++ addErrorsPrefixes (itoa i) value.errs
          else if key.errs.length > 0 then errs ++ addErrorsPrefixes (itoa i) key.errs
            else errs)
          = errs ++ (addErrorsPrefixes (itoa i) key.errs
              ++ addErrorsPrefixes (itoa i) value.errs) := by
        split <;> split <;> rename_i hv hk
        · simp
        · simp [length_pos_false hk, addErrorsPrefixes]
        · simp [length_pos_false hv, addErrorsPrefixes]
        · simp [length_pos_false hk, length_pos_false hv, addErrorsPrefixes]
      split at h
      · rw [parseMapLoop_errs h, herrs, mapErrs, hent]
        simp
      · obtain ⟨entries, _, h⟩ := Outcome.bind_eq_ok h
        rw [parseMapLoop_errs h, herrs, mapErrs, hent]
        simp

theorem addErrorPrefix_entry (name : String) (i : Nat) (e : Err) :
    addErrorPrefix name (addErrorPrefix (itoa i) e) = entryError name i e := by
  cases e <;> simp [addErrorPrefix, entryError, Err.restPath, Err.underlying, String.append_assoc]

theorem elementErrs_of_ok {rec : ParseFn} {itemsType : Ty} {i : Nat} {d : String} {r : Parsed}
    (h : rec (valueOf itemsType (zeroValue itemsType)) d true true = .ok r) :
    elementErrs rec itemsType i d = addErrorsPrefixes (itoa i) r.errs := by
  simp [elementErrs, h]

theorem listErrs_mem {rec : ParseFn} {itemsType : Ty} {e : Err} {d : String} {r : Parsed} :
    ∀ (defaults : List String) (i j : Nat), defaults[j]? = some d →
      rec (valueOf itemsType (zeroValue itemsType)) d true true = .ok r → e ∈ r.errs →
      addErrorPrefix (itoa (i + j)) e ∈ listErrs rec itemsType i defaults
  | [], _, _, h, _, _ => by simp at h
  | d' :: rest, i, 0, h, hr, he => by
    simp only [List.getElem?_cons_zero, Option.some.injEq] at h
    subst h
    simp only [listErrs, List.mem_append, elementErrs_of_ok hr, addErrorsPrefixes, List.mem_map]
    exact Or.inl ⟨e, he, rfl⟩
  | d' :: rest, i, j + 1, h, hr, he => by
    simp only [List.getElem?_cons_succ] at h
    have ih := listErrs_mem rest (i + 1) j h hr he
    simp only [listErrs, List.mem_append]
    right
    have hij : i + (j + 1) = i + 1 + j := by omega
    rw [hij]
    exact ih

theorem mapErrs_mem {lib : Lib} {rec : ParseFn} {keyType valueType : Ty} {e : Err}
    {d : String} :
    ∀ (defaults : List String) (i j : Nat), defaults[j]? = some d →
      e ∈ entryErrs lib rec keyType valueType (i + j) d →
      e ∈ mapErrs lib rec keyType valueType i defaults
  | [], _, _, h, _ => by simp at h
  | d' :: rest, i, 0, h, he => by
    simp only [List.getElem?_cons_zero, Option.some.injEq] at h
    subst h
    simp only [mapErrs, List.mem_append]
    exact Or.inl he
  | d' :: rest, i, j + 1, h, he => by
    simp only [List.getElem?_cons_succ] at h
    have hij : i + (j + 1) = i + 1 + j := by omega
    rw [hij] at he
    have ih := mapErrs_mem rest (i + 1) j h he
    simp only [mapErrs, List.mem_append]
    exact Or.inr ih

/-- The decode of a field that has a default, no specific parser and no
text-decoding capability goes by the kind of the field. -/
theorem parseField_by_kind {lib : Lib} {fuel : Nat} {target : Value} {overwrite : Bool}
    {f : StructField Ty} {v : Val} {d : String} {p : Parsed} (htag : f.tag = some d)
    (hspec : (parseSpecific lib (target.Field f v) d true).2.1 = false)
    (htext : lib.textUnmarshaler f.ty = none)
    (hp : parseField (parse lib (fuel + 1)) target overwrite f v = .ok p) :
    parseKind lib (parse lib fuel) (target.Field f v) d true overwrite = .ok p := by
  simp only [parseField, htag, Option.getD_some, Option.isSome_some, parse, parseBody] at hp
  rcases hps : parseSpecific lib (target.Field f v) d true with ⟨a, b, c⟩
  rw [hps] at hspec hp
  simp only at hspec
  subst hspec
  have hty : (target.Field f v).ty = f.ty := rfl
  simp only [hty, htext, ite_self] at hp
  exact hp


theorem parseField_list_errs {lib : Lib} {fuel : Nat} {target : Value} {overwrite : Bool}
    {f : StructField Ty} {v : Val} {d : String} {p : Parsed}
    (hp : parseKind lib (parse lib fuel) (target.Field f v) d true overwrite = .ok p)
    (hkind : f.ty.kind = .slice ∨ (f.ty.kind = .array ∧ (asList d).length = f.ty.len)) :
    p.errs = listErrs (parse lib fuel) (lib.elem f.ty) 0 (asList d) := by
  have hty : (target.Field f v).ty = f.ty := rfl
  unfold parseKind at hp
  rcases hkind with hs | ⟨ha, hlen⟩
  · rw [hty, hs] at hp
    simp only [parseSlice, Bool.not_true, Bool.false_eq_true, if_false, hty] at hp
    obtain ⟨⟨elems, errs⟩, hl, hp⟩ := Outcome.bind_eq_ok hp
    simp only [Outcome.pure_eq, Outcome.ok.injEq] at hp
    subst hp
    obtain ⟨_, herrs⟩ := parseListLoop_ok hl
    simpa using herrs
  · rw [hty, ha] at hp
    simp only [parseArray, Bool.not_true, Bool.false_eq_true, if_false, hty, ne_eq, hlen,
      not_true_eq_false] at hp
    obtain ⟨⟨elems, errs⟩, hl, hp⟩ := Outcome.bind_eq_ok hp
    simp only [Outcome.pure_eq, Outcome.ok.injEq] at hp
    subst hp
    obtain ⟨_, herrs⟩ := parseListLoop_ok hl
    simpa using herrs

theorem parseField_map_errs {lib : Lib} {fuel : Nat} {target : Value} {overwrite : Bool}
    {f : StructField Ty} {v : Val} {d : String} {p : Parsed}
    (hp : parseKind lib (parse lib fuel) (target.Field f v) d true overwrite = .ok p)
    (hkind : f.ty.kind = .map) :
    p.errs = mapErrs lib (parse lib fuel) (lib.key f.ty) (lib.elem f.ty) 0 (asList d) := by
  have hty : (target.Field f v).ty = f.ty := rfl
  unfold parseKind at hp
  rw [hty, hkind] at hp
  simp only [parseMap, Bool.not_true, Bool.false_eq_true, if_false, hty] at hp
  obtain ⟨⟨entries, errs⟩, hl, hp⟩ := Outcome.bind_eq_ok hp
  simp only [Outcome.pure_eq, Outcome.ok.injEq] at hp
  subst hp
  have herrs := parseMapLoop_errs hl
  simpa using herrs

/-! ## C21: the path of the error of an entry -/

/-- C21, counterexample: in
`struct { L []int "default:1,x"; M map[string]int "default:a:1,bad,c:y" }` the
entry of index 1 of the default of `M` is `bad`, without a colon; the error
that `Complete` returns for it has the path `M`, without the index, and
renders as `M: invalid format ...`: it is not the error of the entry of index
1 of `M`, whatever the underlying error. -/
theorem map_entry_without_colon_has_no_index :
    (asList "a:1,bad,c:y")[1]? = some "bad"
      ∧ Complete goLib 2 (pointerTo entriesRecord (.struct [.slice none, .map none]))
        = .ok ⟨pointerTo entriesRecord (.struct [.slice none, .map none]),
            some (.join [
              .fieldError "L.1" (syntaxError "Atoi" "x"),
              .fieldError "M" (.invalidFormat "expected \"<key>:<value>\", got \"bad\""),
              .fieldError "M.2" (syntaxError "Atoi" "y")])⟩
      ∧ (Err.fieldError "M" (.invalidFormat "expected \"<key>:<value>\", got \"bad\"")).Error
        = "M: invalid format for default value: expected \"<key>:<value>\", got \"bad\""
      ∧ ∀ e, entryError "M" 1 e
          ≠ .fieldError "M" (.invalidFormat "expected \"<key>:<value>\", got \"bad\"") := by
  refine ⟨by decide, rfl, by decide, ?_⟩
  intro e h
  simp only [entryError, Err.fieldError.injEq] at h
  have h1 := congrArg String.length h.1
  simp only [String.length_append] at h1
  have h2 : "M".length = 1 := by decide
  have h3 : ".".length = 1 := by decide
  omega

/-- C21, amended: for every record decode that returns, and every field of the
record, named `F`, of slice, array or map kind, that has a default and is
decoded by its kind (it has neither a specific parser nor a text-decoding
capability): the errors of the field are those of the entries of the default,
in order, each under the name `F`.  Every error `e` of the decode of the
element of index `i` of a slice or of an array (when the number of entries is
the length of the array), and every error `e` of the decode of the key or of
the value of the entry of index `i` of a map, is returned with the path `F.i`
followed by the rest of its path, renders as `F.i<rest of path>: <message of
the underlying error>` and unwraps to the underlying error.  An entry of a map
that has no colon is returned as an `ErrInvalidFormat` error under `F` alone,
without the index. -/
theorem entry_errors_under_field_and_index (lib : Lib) (fuel : Nat) (ty : Ty)
    (vals : List Val) (overwrite : Bool) (out : Applied) (k : Nat) (f : StructField Ty)
    (v : Val) (d : String) (hk : ty.kind = .struct)
    (h : apply lib (fuel + 1) (pointerTo ty (.struct vals)) overwrite = .ok out)
    (hf : ty.fields[k]? = some f) (hv : vals[k]? = some v) (htag : f.tag = some d)
    (hspec : (parseSpecific lib ((recordOf ty vals).Field f v) d true).2.1 = false)
    (htext : lib.textUnmarshaler f.ty = none) :
    out.err = errorsJoin
        (fieldsErrs (parse lib (fuel + 1)) (recordOf ty vals) overwrite (ty.fields.take k)
            (vals.take k)
          ++ fieldErrs (parse lib (fuel + 1)) (recordOf ty vals) overwrite f v
          ++ fieldsErrs (parse lib (fuel + 1)) (recordOf ty vals) overwrite
              (ty.fields.drop (k + 1)) (vals.drop (k + 1)))
      ∧ (f.ty.kind = .slice ∨ (f.ty.kind = .array ∧ (asList d).length = f.ty.len) →
          fieldErrs (parse lib (fuel + 1)) (recordOf ty vals) overwrite f v
              = (listErrs (parse lib fuel) (lib.elem f.ty) 0 (asList d)).map
                  (addErrorPrefix f.name)
            ∧ ∀ (i : Nat) (entry : String) (r : Parsed) (e : Err),
                (asList d)[i]? = some entry →
                parse lib fuel (valueOf (lib.elem f.ty) (zeroValue (lib.elem f.ty))) entry true
                  true = .ok r →
                e ∈ r.errs →
                entryError f.name i e
                  ∈ fieldErrs (parse lib (fuel + 1)) (recordOf ty vals) overwrite f v)
      ∧ (f.ty.kind = .map →
          fieldErrs (parse lib (fuel + 1)) (recordOf ty vals) overwrite f v
              = (mapErrs lib (parse lib fuel) (lib.key f.ty) (lib.elem f.ty) 0 (asList d)).map
                  (addErrorPrefix f.name)
            ∧ (∀ (i : Nat) (entry : String) (key value : List Char) (r : Parsed) (e : Err),
                (asList d)[i]? = some entry → splitColon entry.data = some (key, value) →
                (parse lib fuel (valueOf (lib.key f.ty) (zeroValue (lib.key f.ty)))
                    (String.mk key) true true = .ok r
                  ∨ parse lib fuel (valueOf (lib.elem f.ty) (zeroValue (lib.elem f.ty)))
                    (String.mk value) true true = .ok r) →
                e ∈ r.errs →
                entryError f.name i e
                  ∈ fieldErrs (parse lib (fuel + 1)) (recordOf ty vals) overwrite f v)
            ∧ ∀ (i : Nat) (entry : String), (asList d)[i]? = some entry →
                splitColon entry.data = none →
                Err.fieldError f.name (noColonError lib entry)
                  ∈ fieldErrs (parse lib (fuel + 1)) (recordOf ty vals) overwrite f v)
      ∧ ∀ (i : Nat) (e : Err),
          addErrorPrefix f.name (addErrorPrefix (itoa i) e) = entryError f.name i e
            ∧ (entryError f.name i e).Error
              = f.name ++ "." ++ itoa i ++ e.restPath ++ ": " ++ e.underlying.Error
            ∧ (entryError f.name i e).Unwrap = some e.underlying := by
  obtain ⟨vals', -, -, herr, hall⟩ := apply_fields hk h
  obtain ⟨w, p, -, hp, hfe, -⟩ := hall k f v hf hv
  have hkindp := parseField_by_kind htag hspec htext hp
  refine ⟨?_, ?_, ?_, fun i e => ⟨addErrorPrefix_entry _ _ _, rfl, rfl⟩⟩
  · rw [herr, fieldsErrs_split _ _ _ hf hv]
  · intro hkind
    have herrs := parseField_list_errs hkindp hkind
    have heq : fieldErrs (parse lib (fuel + 1)) (recordOf ty vals) overwrite f v
        = (listErrs (parse lib fuel) (lib.elem f.ty) 0 (asList d)).map
            (addErrorPrefix f.name) := by
      rw [hfe, herrs, addErrorsPrefixes]
    refine ⟨heq, ?_⟩
    intro i entry r e hi hr he
    rw [heq, ← addErrorPrefix_entry]
    refine List.mem_map.mpr ⟨_, ?_, rfl⟩
    have hmem := listErrs_mem (asList d) 0 i hi hr he
    simpa using hmem
  · intro hkind
    have herrs := parseField_map_errs hkindp hkind
    have heq : fieldErrs (parse lib (fuel + 1)) (recordOf ty vals) overwrite f v
        = (mapErrs lib (parse lib fuel) (lib.key f.ty) (lib.elem f.ty) 0 (asList d)).map
            (addErrorPrefix f.name) := by
      rw [hfe, herrs, addErrorsPrefixes]
    refine ⟨heq, ?_, ?_⟩
    · intro i entry key value r e hi hsplit hr he
      rw [heq, ← addErrorPrefix_entry]
      refine List.mem_map.mpr ⟨_, ?_, rfl⟩
      refine mapErrs_mem (asList d) 0 i hi ?_
      simp only [entryErrs, hsplit, List.mem_append, Nat.zero_add]
      rcases hr with hr | hr
      · left
        rw [elementErrs_of_ok hr]
        exact List.mem_map.mpr ⟨e, he, rfl⟩
      · right
        rw [elementErrs_of_ok hr]
        exact List.mem_map.mpr ⟨e, he, rfl⟩
    · intro i entry hi hsplit
      rw [heq]
      refine List.mem_map.mpr ⟨noColonError lib entry, ?_, rfl⟩
      refine mapErrs_mem (asList d) 0 i hi ?_
      simp [entryErrs, hsplit]

/-- C21, witness: in
`struct { L []int "default:1,x"; M map[string]int "default:a:1,bad,c:y" }`,
the error of the element `x` of `L` is returned under `L.1`, and the error of
the value `y` of `M` under `M.2`, rendered as `M.2: strconv.Atoi: ...`, while
the entry `bad` of `M` is returned under `M`. -/
theorem entry_errors_under_field_and_index_witness :
    Complete goLib 2 (pointerTo entriesRecord (.struct [.slice none, .map none]))
        = .ok ⟨pointerTo entriesRecord (.struct [.slice none, .map none]),
            some (.join [
              .fieldError "L.1" (syntaxError "Atoi" "x"),
              .fieldError "M" (.invalidFormat "expected \"<key>:<value>\", got \"bad\""),
              .fieldError "M.2" (syntaxError "Atoi" "y")])⟩
      ∧ fieldErrs (parse goLib 2) (recordOf entriesRecord [.slice none, .map none]) false
          (exportedField "L" (some "1,x") (.slice (.prim .int))) (.slice none)
        = [.fieldError "L.1" (syntaxError "Atoi" "x")]
      ∧ fieldErrs (parse goLib 2) (recordOf entriesRecord [.slice none, .map none]) false
          (exportedField "M" (some "a:1,bad,c:y") (.map (.prim .string) (.prim .int)))
          (.map none)
        = [.fieldError "M" (.invalidFormat "expected \"<key>:<value>\", got \"bad\""),
            .fieldError "M.2" (syntaxError "Atoi" "y")]
      ∧ entryError "M" 2 (syntaxError "Atoi" "y")
        ∈ fieldErrs (parse goLib 2) (recordOf entriesRecord [.slice none, .map none]) false
            (exportedField "M" (some "a:1,bad,c:y") (.map (.prim .string) (.prim .int)))
            (.map none)
      ∧ (entryError "M" 2 (syntaxError "Atoi" "y")).Error
        = "M.2: strconv.Atoi: parsing \"y\": invalid syntax"
      ∧ (entryError "M" 2 (syntaxError "Atoi" "y")).Unwrap = some (syntaxError "Atoi" "y") :=
  ⟨rfl,
    ((entry_errors_under_field_and_index goLib 1 entriesRecord [.slice none, .map none] false
      ⟨pointerTo entriesRecord (.struct [.slice none, .map none]),
        some (.join [
          .fieldError "L.1" (syntaxError "Atoi" "x"),
          .fieldError "M" (.invalidFormat "expected \"<key>:<value>\", got \"bad\""),
          .fieldError "M.2" (syntaxError "Atoi" "y")])⟩
      0 (exportedField "L" (some "1,x") (.slice (.prim .int))) (.slice none) "1,x"
      rfl rfl rfl rfl rfl rfl rfl).2.1 (Or.inl rfl)).1,
    ((entry_errors_under_field_and_index goLib 1 entriesRecord [.slice none, .map none] false
      ⟨pointerTo entriesRecord (.struct [.slice none, .map none]),
        some (.join [
          .fieldError "L.1" (syntaxError "Atoi" "x"),
          .fieldError "M" (.invalidFormat "expected \"<key>:<value>\", got \"bad\""),
          .fieldError "M.2" (syntaxError "Atoi" "y")])⟩
      1 (exportedField "M" (some "a:1,bad,c:y") (.map (.prim .string) (.prim .int)))
      (.map none) "a:1,bad,c:y" rfl rfl rfl rfl rfl rfl rfl).2.2.1 rfl).1,
    ((entry_errors_under_field_and_index goLib 1 entriesRecord [.slice none, .map none] false
      ⟨pointerTo entriesRecord (.struct [.slice none, .map none]),
        some (.join [
          .fieldError "L.1" (syntaxError "Atoi" "x"),
          .fieldError "M" (.invalidFormat "expected \"<key>:<value>\", got \"bad\""),
          .fieldError "M.2" (syntaxError "Atoi" "y")])⟩
      1 (exportedField "M" (some "a:1,bad,c:y") (.map (.prim .string) (.prim .int)))
      (.map none) "a:1,bad,c:y" rfl rfl rfl rfl rfl rfl rfl).2.2.1 rfl).2.1
        2 "c:y" ['c'] ['y'] ⟨.int 0, none, [syntaxError "Atoi" "y"]⟩ (syntaxError "Atoi" "y")
        (by decide) (by decide) (Or.inr rfl) (List.mem_singleton.mpr rfl),
    by decide, rfl⟩

/-! ## C22: the two notations agree on every permission value -/

/-- C22: for every permission value `m` from 0 to 0o777 (511),
`parseFileMode` returns `m` and no error for the numeral of `m` in base 8,
which `strconv.ParseUint` reads, and returns `m` and no error for the symbolic
text of `m`, which `strconv.ParseUint` rejects and `parseFileModeRwxrwxrwx`
reads: the two notations agree on the 512 permission values. -/
theorem fileMode_notations_agree (m : Nat) (hm : m ≤ 511) :
    parseFileMode goLib (octalNumeral m) = (m, [])
      ∧ parseFileMode goLib (symbolicString m) = (m, [])
      ∧ (goLib.parseUint (octalNumeral m) 8 32).toOption = some m
      ∧ (goLib.parseUint (symbolicString m) 8 32).toOption = none
      ∧ parseFileModeRwxrwxrwx (symbolicString m) = m := by
  have h : ∀ n < 512, parseFileMode goLib (octalNumeral n) = (n, [])
      ∧ parseFileMode goLib (symbolicString n) = (n, [])
      ∧ (goLib.parseUint (octalNumeral n) 8 32).toOption = some n
      ∧ (goLib.parseUint (symbolicString n) 8 32).toOption = none
      ∧ parseFileModeRwxrwxrwx (symbolicString n) = n := by
    set_option maxRecDepth 1000000 in decide
  exact h m (by omega)

/-- C22, witness: the permission value 0o644 (420) has the numeral `644` and
the symbolic text `rw-r--r--`, the examples of the documentation, and
`parseFileMode` returns 420 for both. -/
theorem fileMode_notations_agree_witness :
    420 ≤ 511 ∧ octalNumeral 420 = "644" ∧ symbolicString 420 = "rw-r--r--"
      ∧ parseFileMode goLib (octalNumeral 420) = (420, [])
      ∧ parseFileMode goLib (symbolicString 420) = (420, []) :=
  ⟨by decide, by decide, by decide, (fileMode_notations_agree 420 (by decide)).1,
    (fileMode_notations_agree 420 (by decide)).2.1⟩

end Defaults
